import Mathlib

/-!
# cmd/serial.c : the `serial` command of the boot shell

A shallow embedding of `src/cmd/serial.c`.

* The C globals and the outside world are one explicit `State`: the static pointer
  `serial_cur_dev`, byte-addressable memory, the driver state of every device, and
  a chronological trace of every call that leaves the file (registry lookups,
  driver operations, watchdog services, console output).
* Everything the file uses but does not define (errno values, command return
  codes, `SERIAL_DEFAULT_CONFIG`, the registry lookup, the per-device operation table,
  `simple_strtoul`, `cmd_usage`) is a field of `Env`; the table search `find_cmd_tbl` is an
  argument of `do_serial`.
* The two `do { } while (err == -EAGAIN)` loops take a fuel argument; `none` means
  that the model has no result (fuel exhausted, or the C code would dereference
  a null pointer).
* Addresses are natural numbers (no pointer width is imposed), bytes are the
  numbers `0 .. 255`, a `char` is represented by its byte value.
-/

namespace Serial

/-- A `struct udevice *` that is not NULL. -/
abbrev Handle := Nat

/-- The four members of `struct dm_serial_ops` used by the file.  Each operation
acts on the driver state of one device and returns the C return value. -/
structure dm_serial_ops (σ : Type) where
  setbrg : σ → Int → Int × σ
  setconfig : σ → Nat → Int × σ
  getc : σ → Int × σ
  putc : σ → Nat → Int × σ

/-- The console messages of the file, one constructor per `printf` format string,
with the values of its `%d` arguments. -/
inductive Msg
  | setconfig_failed (ret : Int)
  | setbrg_failed (ret : Int)
  | default_not_found (devnum : Nat)
  | no_device_selected
  | trying_to_read (length : Nat)
  | trying_to_write (length : Nat)
  | device_not_found
  | current_port (devnum : Int)
  | setting_serial (devnum : Int)
  | failure_changing (ret : Int)
  deriving DecidableEq, Repr

/-- One observable call made by the file, with its return value. -/
inductive Event
  | lookup (devnum : Nat) (ret : Int)
  | setconfig (dev : Handle) (config : Nat) (ret : Int)
  | setbrg (dev : Handle) (baud : Int) (ret : Int)
  | getc (dev : Handle) (ret : Int)
  | putc (dev : Handle) (ch : Nat) (ret : Int)
  | watchdog
  | printf (msg : Msg)
  | cmd_usage
  deriving DecidableEq, Repr

/-- What `serial.c` takes from the rest of the tree (headers and other
compilation units that are not part of the file). -/
structure Env (σ : Type) where
  /-- errno value `EAGAIN` -/
  EAGAIN : Int
  /-- errno value `ENODEV` -/
  ENODEV : Int
  /-- command return code `CMD_RET_FAILURE` -/
  CMD_RET_FAILURE : Int
  /-- command return code `CMD_RET_USAGE` -/
  CMD_RET_USAGE : Int
  /-- the constant `SERIAL_DEFAULT_CONFIG` of serial.h -/
  SERIAL_DEFAULT_CONFIG : Nat
  /-- registry lookup `uclass_get_device_by_seq(UCLASS_SERIAL, devnum, &dev)`: the return
  value and the pointer stored through the third argument (meaningful only when
  the return value is zero) -/
  uclass_get_device_by_seq : Nat → Int × Handle
  /-- the operation table `serial_get_ops(dev)`, `none` for a NULL table -/
  serial_get_ops : Handle → Option (dm_serial_ops σ)
  /-- the field `dev->seq` -/
  seq : Handle → Int
  /-- the parser `simple_strtoul(s, NULL, base)` -/
  simple_strtoul : String → Nat → Nat
  /-- return value of `cmd_usage(cmdtp)` -/
  cmd_usage : Int

/-- The mutable world. -/
structure State (σ : Type) where
  /-- the static `serial_cur_dev`; `none` is NULL -/
  serial_cur_dev : Option Handle
  /-- memory, one byte per address -/
  mem : Nat → Nat
  /-- driver state of every device -/
  hw : Handle → σ
  /-- all external calls so far, oldest first -/
  trace : List Event

variable {σ : Type}

/-- Append one event to the trace. -/
def State.emit (st : State σ) (e : Event) : State σ :=
  { st with trace := st.trace ++ [e] }

/-- Replace the driver state of `dev`. -/
def State.set_hw (st : State σ) (dev : Handle) (s : σ) : State σ :=
  { st with hw := Function.update st.hw dev s }

/-- The macro `#define DEFAULT_SERIAL_DEVICE 0x1`, line 22. -/
def DEFAULT_SERIAL_DEVICE : Nat := 1

/-- Conversion of an unsigned long to `int` (two's complement, 32 bits). -/
def to_int (n : Nat) : Int :=
  if n % 2 ^ 32 < 2 ^ 31 then ((n % 2 ^ 32 : Nat) : Int) else ((n % 2 ^ 32 : Nat) : Int) - 2 ^ 32

/-- Conversion of an unsigned long to `unsigned int` (32 bits). -/
def ulong_to_uint (n : Nat) : Nat := n % 2 ^ 32

/-- Conversion of an `int` to `unsigned int`. -/
def to_uint (i : Int) : Nat := Int.toNat (i % 2 ^ 32)

/-- Conversion of an `int` to `char` and then to `u_char`: the low eight bits. -/
def to_uchar (i : Int) : Nat := Int.toNat (i % 256)

/-- The function `serial_configure`, lines 26-46. -/
def serial_configure (env : Env σ) (dev : Handle) (st : State σ) : Int × State σ :=
  match env.serial_get_ops dev with
  | none => (0, st)
  | some ops =>
    let r1 := ops.setconfig (st.hw dev) env.SERIAL_DEFAULT_CONFIG
    let st1 := (st.set_hw dev r1.2).emit (Event.setconfig dev env.SERIAL_DEFAULT_CONFIG r1.1)
    if r1.1 ≠ 0 then
      (-1, st1.emit (Event.printf (Msg.setconfig_failed r1.1)))
    else
      let r2 := ops.setbrg (st1.hw dev) 115200
      let st2 := (st1.set_hw dev r2.2).emit (Event.setbrg dev 115200 r2.1)
      if r2.1 ≠ 0 then
        (-1, st2.emit (Event.printf (Msg.setbrg_failed r2.1)))
      else
        (0, st2)

/-- The `do { err = ops->getc(dev); if (err == -EAGAIN) WATCHDOG_RESET(); }
while (err == -EAGAIN)` loop of `serial_read_char`, lines 53-57.  Returns `err`. -/
def serial_read_char_loop (env : Env σ) (ops : dm_serial_ops σ) (dev : Handle) :
    Nat → State σ → Option (Int × State σ)
  | 0, _ => none
  | fuel + 1, st =>
    let r := ops.getc (st.hw dev)
    let st1 := (st.set_hw dev r.2).emit (Event.getc dev r.1)
    if r.1 = -env.EAGAIN then
      serial_read_char_loop env ops dev fuel (st1.emit Event.watchdog)
    else
      some (r.1, st1)

/-- The function `serial_read_char`, lines 48-60. -/
def serial_read_char (env : Env σ) (fuel : Nat) (dev : Handle) (st : State σ) :
    Option (Int × State σ) :=
  match env.serial_get_ops dev with
  | none => none
  | some ops =>
    match serial_read_char_loop env ops dev fuel st with
    | none => none
    | some r => some (if r.1 ≥ 0 then r.1 else 0, r.2)

/-- The `do { err = ops->putc(dev, ch); } while (err == -EAGAIN)` loop of
`serial_write_char`, lines 70-72. -/
def serial_write_char_loop (env : Env σ) (ops : dm_serial_ops σ) (dev : Handle) (ch : Nat) :
    Nat → State σ → Option (State σ)
  | 0, _ => none
  | fuel + 1, st =>
    let r := ops.putc (st.hw dev) ch
    let st1 := (st.set_hw dev r.2).emit (Event.putc dev ch r.1)
    if r.1 = -env.EAGAIN then
      serial_write_char_loop env ops dev ch fuel st1
    else
      some st1

/-- The function `serial_write_char`, lines 62-73.  The fuel bounds the recursion and the
loop; `10` is the line feed, `13` the carriage return. -/
def serial_write_char (env : Env σ) (dev : Handle) : Nat → Nat → State σ → Option (State σ)
  | 0, _, _ => none
  | fuel + 1, ch, st =>
    match env.serial_get_ops dev with
    | none => none
    | some ops =>
      match (if ch = 10 then serial_write_char env dev fuel 13 st else some st) with
      | none => none
      | some st1 => serial_write_char_loop env ops dev ch (fuel + 1) st1

/-- The function `serial_set_dev_num`, lines 76-92 (`debug` prints nothing). -/
def serial_set_dev_num (env : Env σ) (devnum : Nat) (st : State σ) : Int × State σ :=
  let r := env.uclass_get_device_by_seq devnum
  let st1 := st.emit (Event.lookup devnum r.1)
  if r.1 ≠ 0 then
    (r.1, st1)
  else
    let st2 : State σ := { st1 with serial_cur_dev := some r.2 }
    (0, (serial_configure env r.2 st2).2)

/-- Lines 104-111 of `serial_get_cur_device`: the second NULL test and the
store through the out-parameter. -/
def serial_get_cur_device_tail (env : Env σ) (st : State σ) : Int × Option Handle × State σ :=
  match st.serial_cur_dev with
  | none => (-env.ENODEV, none, st.emit (Event.printf Msg.no_device_selected))
  | some d => (0, some d, st)

/-- The function `serial_get_cur_device`, lines 94-112: the return value, the pointer stored
in `*serial_dev` (if any) and the new state. -/
def serial_get_cur_device (env : Env σ) (st : State σ) : Int × Option Handle × State σ :=
  if st.serial_cur_dev = none then
    let r := serial_set_dev_num env DEFAULT_SERIAL_DEVICE st
    if r.1 ≠ 0 then
      (-env.ENODEV, none, r.2.emit (Event.printf (Msg.default_not_found DEFAULT_SERIAL_DEVICE)))
    else
      serial_get_cur_device_tail env r.2
  else
    serial_get_cur_device_tail env st

/-- The `while (length-- > 0)` loop of `do_serial_read`, lines 142-151. -/
def do_serial_read_loop (env : Env σ) (fuel : Nat) (dev : Handle) :
    Nat → Nat → State σ → Option (State σ)
  | 0, _, st => some st
  | length + 1, memaddr, st =>
    match serial_read_char env fuel dev st with
    | none => none
    | some r =>
      do_serial_read_loop env fuel dev length (memaddr + 1)
        { r.2 with mem := Function.update r.2.mem memaddr (to_uchar r.1) }

/-- The function `do_serial_read`, lines 114-154; `argc` is the length of `argv`. -/
def do_serial_read (env : Env σ) (fuel : Nat) (argv : List String) (st : State σ) :
    Option (Int × State σ) :=
  if argv.length ≠ 3 then
    some (env.CMD_RET_USAGE, st)
  else
    let length := ulong_to_uint (env.simple_strtoul (argv.getD 2 "") 16)
    let memaddr := env.simple_strtoul (argv.getD 1 "") 16
    let st1 := st.emit (Event.printf (Msg.trying_to_read length))
    let r := serial_get_cur_device env st1
    if r.1 ≠ 0 then
      some (env.CMD_RET_FAILURE, r.2.2.emit (Event.printf Msg.device_not_found))
    else
      match r.2.1 with
      | none => none
      | some dev =>
        match do_serial_read_loop env fuel dev length memaddr r.2.2 with
        | none => none
        | some st2 => some (0, st2)

/-- The `while (length-- > 0)` loop of `do_serial_write`, lines 184-190. -/
def do_serial_write_loop (env : Env σ) (fuel : Nat) (dev : Handle) :
    Nat → Nat → State σ → Option (State σ)
  | 0, _, st => some st
  | length + 1, memaddr, st =>
    match serial_write_char env dev fuel (st.mem memaddr % 256) st with
    | none => none
    | some st1 => do_serial_write_loop env fuel dev length (memaddr + 1) st1

/-- The function `do_serial_write`, lines 156-193; `argc` is the length of `argv`. -/
def do_serial_write (env : Env σ) (fuel : Nat) (argv : List String) (st : State σ) :
    Option (Int × State σ) :=
  if argv.length < 3 then
    some (env.cmd_usage, st.emit Event.cmd_usage)
  else
    let memaddr := env.simple_strtoul (argv.getD 1 "") 16
    let length := ulong_to_uint (env.simple_strtoul (argv.getD 2 "") 16)
    let st1 := st.emit (Event.printf (Msg.trying_to_write length))
    let r := serial_get_cur_device env st1
    if r.1 ≠ 0 then
      some (env.CMD_RET_FAILURE, r.2.2.emit (Event.printf Msg.device_not_found))
    else
      match r.2.1 with
      | none => none
      | some dev =>
        match do_serial_write_loop env fuel dev length memaddr r.2.2 with
        | none => none
        | some st2 => some (0, st2)

/-- The function `do_serial_dev_num`, lines 205-232; `argc` is the length of `argv`. -/
def do_serial_dev_num (env : Env σ) (argv : List String) (st : State σ) :
    Option (Int × State σ) :=
  if argv.length = 1 then
    let r := serial_get_cur_device env st
    if r.1 = 0 then
      match r.2.1 with
      | none => none
      | some serial_dev =>
        some (0, r.2.2.emit (Event.printf (Msg.current_port (env.seq serial_dev))))
    else
      some (0, r.2.2.emit (Event.printf (Msg.current_port (-1))))
  else
    match argv.get? 1 with
    | none => none
    | some arg =>
      let devnum := to_int (env.simple_strtoul arg 10)
      let st1 := st.emit (Event.printf (Msg.setting_serial devnum))
      let r := serial_set_dev_num env (to_uint devnum) st1
      if r.1 ≠ 0 then
        some (env.CMD_RET_FAILURE, r.2.emit (Event.printf (Msg.failure_changing r.1)))
      else
        some (0, r.2)

/-- The handler functions stored in the `cmd` member of the sub-command table. -/
inductive cmd_fn
  | do_serial_dev_num
  | do_serial_write
  | do_serial_read
  deriving DecidableEq, Repr

/-- The members of `cmd_tbl_t` set by `U_BOOT_CMD_MKENT(name, maxargs, rep, cmd, "", "")`. -/
structure cmd_tbl_t where
  name : String
  maxargs : Nat
  repeatable : Nat
  cmd : cmd_fn
  deriving DecidableEq, Repr

/-- The table `cmd_serial_sub`, lines 234-238. -/
def cmd_serial_sub : List cmd_tbl_t :=
  [ { name := "dev", maxargs := 2, repeatable := 0, cmd := cmd_fn.do_serial_dev_num },
    { name := "write", maxargs := 3, repeatable := 0, cmd := cmd_fn.do_serial_write },
    { name := "read", maxargs := 3, repeatable := 0, cmd := cmd_fn.do_serial_read } ]

/-- The call `c->cmd(cmdtp, flag, argc, argv)` through the function pointer of a table entry. -/
def call_cmd (env : Env σ) (fuel : Nat) (c : cmd_tbl_t) (argv : List String) (st : State σ) :
    Option (Int × State σ) :=
  match c.cmd with
  | cmd_fn.do_serial_dev_num => do_serial_dev_num env argv st
  | cmd_fn.do_serial_write => do_serial_write env fuel argv st
  | cmd_fn.do_serial_read => do_serial_read env fuel argv st

/-- The function `do_serial`, lines 250-267; `argc` is the length of `argv`.  The argument
`find_cmd_tbl` is the table search of the command framework: the entry found
for a name in a table, `none` for NULL. -/
def do_serial (env : Env σ) (find_cmd_tbl : String → List cmd_tbl_t → Option cmd_tbl_t)
    (fuel : Nat) (argv : List String) (st : State σ) : Option (Int × State σ) :=
  if argv.length < 2 then
    some (env.CMD_RET_USAGE, st)
  else
    match find_cmd_tbl (argv.tail.getD 0 "") cmd_serial_sub with
    | some c => call_cmd env fuel c argv.tail st
    | none => some (env.CMD_RET_USAGE, st)

/-! ## Specification vocabulary -/

/-- The relation `Settles E op k s r s1`: polled from driver state `s`, the operation `op`
reports not-ready (`-E`) exactly `k` times, then returns `r`, which is not `-E`,
and leaves the driver in state `s1`. -/
inductive Settles (E : Int) (op : σ → Int × σ) : Nat → σ → Int → σ → Prop
  | done (s : σ) : (op s).1 ≠ -E → Settles E op 0 s (op s).1 (op s).2
  | busy (k : Nat) (s : σ) (r : Int) (s1 : σ) :
      (op s).1 = -E → Settles E op k (op s).2 r s1 → Settles E op (k + 1) s r s1

/-- The bytes a device has accepted from `putc`, oldest first: the characters of
the `putc` calls on `dev` that returned a non-negative value. -/
def wire (dev : Handle) (tr : List Event) : List Nat :=
  tr.filterMap fun e =>
    match e with
    | Event.putc d ch ret => if d = dev ∧ 0 ≤ ret then some ch else none
    | _ => none

/-- A device whose put-byte operation eventually accepts every byte: from every
driver state and for every character, after finitely many not-ready outcomes
`putc` returns a non-negative value. -/
def PutcAccepts (E : Int) (ops : dm_serial_ops σ) : Prop :=
  ∀ (s : σ) (ch : Nat), ∃ k r s1, Settles E (fun x => ops.putc x ch) k s r s1 ∧ 0 ≤ r

/-- The trace of one byte transmission that is busy `k` times and then returns `r`. -/
def putc_events (E : Int) (dev : Handle) (ch : Nat) (k : Nat) (r : Int) : List Event :=
  List.replicate k (Event.putc dev ch (-E)) ++ [Event.putc dev ch r]

/-- The trace of one byte reception that is busy `k` times (each busy poll
followed by a watchdog service) and then returns `r`. -/
def getc_events (E : Int) (dev : Handle) (k : Nat) (r : Int) : List Event :=
  (List.replicate k [Event.getc dev (-E), Event.watchdog]).flatten ++ [Event.getc dev r]

/-- The relation `GetcYields E getc s kbs s1`: polled from driver state `s`, the get-byte
operation yields the outcomes `kbs.map Prod.snd` in this order, the `i`-th one
after `(kbs.get i).1` not-ready outcomes, and is then in state `s1`. -/
inductive GetcYields (E : Int) (getc : σ → Int × σ) : σ → List (Nat × Int) → σ → Prop
  | nil (s : σ) : GetcYields E getc s [] s
  | cons (k : Nat) (s : σ) (b : Int) (s1 : σ) (kbs : List (Nat × Int)) (s2 : σ) :
      Settles E getc k s b s1 → GetcYields E getc s1 kbs s2 →
      GetcYields E getc s ((k, b) :: kbs) s2

/-- The outcomes of the `getc` calls on `dev` other than not-ready (`-E`): the
bytes (or hard errors) taken from the device, oldest first. -/
def received (E : Int) (dev : Handle) (tr : List Event) : List Int :=
  tr.filterMap fun e =>
    match e with
    | Event.getc d ret => if d = dev ∧ ret ≠ -E then some ret else none
    | _ => none

/-- Memory after storing the bytes `bs` at `addr`, `addr + 1`, ... -/
def store_bytes (mem : Nat → Nat) : Nat → List Nat → Nat → Nat
  | _, [] => mem
  | addr, b :: bs => store_bytes (Function.update mem addr b) (addr + 1) bs

/-- The byte `serial_read_char` makes of a get-byte outcome and the loop of
`do_serial_read` stores: the outcome itself if it is not negative, else zero,
reduced to eight bits. -/
def stored_byte (r : Int) : Nat := to_uchar (if r ≥ 0 then r else 0)

/-- The `length` bytes of memory starting at `addr`. -/
def mem_bytes (mem : Nat → Nat) (addr : Nat) (length : Nat) : List Nat :=
  (List.range length).map fun i => mem (addr + i) % 256

/-- Newline expansion as the specification words it: one carriage return (13)
immediately before every line feed (10), nothing else changed. -/
def crlf : List Nat → List Nat
  | [] => []
  | c :: cs => if c = 10 then 13 :: 10 :: crlf cs else c :: crlf cs

/-- The relation `PutcYields E putc s ts s1`: polled from driver state `s`, the put-byte
operation is given the characters `ts.map (·.1)` in this order; for the entry
`(ch, k, r)` it reports not-ready `k` times and then returns `r`, which ends the
transmission of `ch`; afterwards the driver is in state `s1`. -/
inductive PutcYields (E : Int) (putc : σ → Nat → Int × σ) :
    σ → List (Nat × Nat × Int) → σ → Prop
  | nil (s : σ) : PutcYields E putc s [] s
  | cons (ch k : Nat) (s : σ) (r : Int) (s1 : σ) (ts : List (Nat × Nat × Int)) (s2 : σ) :
      Settles E (fun x => putc x ch) k s r s1 → PutcYields E putc s1 ts s2 →
      PutcYields E putc s ((ch, k, r) :: ts) s2

/-- The trace of the transmissions `ts` on `dev`, one `putc_events` block for each. -/
def putc_trace (E : Int) (dev : Handle) (ts : List (Nat × Nat × Int)) : List Event :=
  (ts.map fun t => putc_events E dev t.1 t.2.1 t.2.2).flatten

/-- The trace of the receptions `kbs` on `dev`, one `getc_events` block for each. -/
def getc_trace (E : Int) (dev : Handle) (kbs : List (Nat × Int)) : List Event :=
  (kbs.map fun p => getc_events E dev p.1 p.2).flatten

/-- A device that is never busy for ever: from every driver state, get-byte and
put-byte (of any character) leave the not-ready outcome after finitely many
polls. -/
def NeverBusyForever (E : Int) (ops : dm_serial_ops σ) : Prop :=
  (∀ s : σ, ∃ k r s1, Settles E ops.getc k s r s1) ∧
  (∀ (s : σ) (ch : Nat), ∃ k r s1, Settles E (fun x => ops.putc x ch) k s r s1)

/-- The number of watchdog services in a trace. -/
def watchdogs (tr : List Event) : Nat :=
  (tr.filter fun e =>
    match e with
    | Event.watchdog => true
    | _ => false).length

/-- The `getc` calls on `dev` in a trace (their return values), oldest first. -/
def getc_calls (dev : Handle) (tr : List Event) : List Int :=
  tr.filterMap fun e =>
    match e with
    | Event.getc d ret => if d = dev then some ret else none
    | _ => none

/-- The `putc` calls on `dev` in a trace (character and return value), oldest first. -/
def putc_calls (dev : Handle) (tr : List Event) : List (Nat × Int) :=
  tr.filterMap fun e =>
    match e with
    | Event.putc d ch ret => if d = dev then some (ch, ret) else none
    | _ => none

/-- A handle that a successful registry lookup returns for some ordinal. -/
def Registered (env : Env σ) (h : Handle) : Prop :=
  ∃ n, env.uclass_get_device_by_seq n = (0, h)

/-- The possible changes of the current-device reference from `st` to `st1`:
none at all, or to a registered handle. -/
def CurStep (env : Env σ) (st st1 : State σ) : Prop :=
  st1.serial_cur_dev = st.serial_cur_dev ∨
    ∃ h, st1.serial_cur_dev = some h ∧ Registered env h

/-- One operation of the command surface: a call of one of the three handlers
or of `do_serial`, with any arguments and any fuel, that returns. -/
inductive Step (env : Env σ) (find_cmd_tbl : String → List cmd_tbl_t → Option cmd_tbl_t) :
    State σ → State σ → Prop
  | dev (argv : List String) (st : State σ) (r : Int) (st1 : State σ) :
      do_serial_dev_num env argv st = some (r, st1) → Step env find_cmd_tbl st st1
  | read (fuel : Nat) (argv : List String) (st : State σ) (r : Int) (st1 : State σ) :
      do_serial_read env fuel argv st = some (r, st1) → Step env find_cmd_tbl st st1
  | write (fuel : Nat) (argv : List String) (st : State σ) (r : Int) (st1 : State σ) :
      do_serial_write env fuel argv st = some (r, st1) → Step env find_cmd_tbl st st1
  | serial (fuel : Nat) (argv : List String) (st : State σ) (r : Int) (st1 : State σ) :
      do_serial env find_cmd_tbl fuel argv st = some (r, st1) → Step env find_cmd_tbl st st1

/-- The states reachable from an initial state (current-device reference unset)
by finitely many operations. -/
inductive Reachable (env : Env σ)
    (find_cmd_tbl : String → List cmd_tbl_t → Option cmd_tbl_t) : State σ → Prop
  | init (st : State σ) : st.serial_cur_dev = none → Reachable env find_cmd_tbl st
  | step (st st1 : State σ) : Reachable env find_cmd_tbl st → Step env find_cmd_tbl st st1 →
      Reachable env find_cmd_tbl st1

/-! ## Device doubles and example environments -/

/-- Value of a hexadecimal digit. -/
def digit_value (c : Char) : Option Nat :=
  if 48 ≤ c.toNat ∧ c.toNat ≤ 57 then some (c.toNat - 48)
  else if 97 ≤ c.toNat ∧ c.toNat ≤ 102 then some (c.toNat - 87)
  else if 65 ≤ c.toNat ∧ c.toNat ≤ 70 then some (c.toNat - 55)
  else none

/-- Accumulate the leading digits of a string in the given base. -/
def parse_digits (base : Nat) : List Char → Nat → Nat
  | [], acc => acc
  | c :: cs, acc =>
    match digit_value c with
    | none => acc
    | some d => if d < base then parse_digits base cs (acc * base + d) else acc

/-- A number parser for the examples: the leading digits of `s` in `base`. -/
def demo_strtoul (s : String) (base : Nat) : Nat := parse_digits base s.data 0

/-- An example environment with the usual values of the constants, devices
with handles 101 and 102 registered under the ordinals 1 and 2, and the same
operation table for every device. -/
def demo_env (ops : dm_serial_ops σ) : Env σ :=
  { EAGAIN := 11
    ENODEV := 19
    CMD_RET_FAILURE := 1
    CMD_RET_USAGE := -1
    SERIAL_DEFAULT_CONFIG := 28
    uclass_get_device_by_seq := fun n => if n = 1 ∨ n = 2 then (0, 100 + n) else (-19, 0)
    serial_get_ops := fun _ => some ops
    seq := fun h => (h : Int) - 100
    simple_strtoul := demo_strtoul
    cmd_usage := 1 }

/-- An example state: empty trace, every device in driver state `s`. -/
def demo_state (cur : Option Handle) (mem : Nat → Nat) (s : σ) : State σ :=
  { serial_cur_dev := cur, mem := mem, hw := fun _ => s, trace := [] }

/-- Memory that holds the bytes `bs` from address `addr` on and zero elsewhere. -/
def mem_of (addr : Nat) (bs : List Nat) : Nat → Nat :=
  fun a => if addr ≤ a then bs.getD (a - addr) 0 else 0

/-- A transmitter that is busy for `k` polls before it accepts each byte.  The
driver state is the number of busy polls left. -/
def busy_putc_ops (E : Int) (k : Nat) : dm_serial_ops Nat :=
  { setbrg := fun s _ => (0, s)
    setconfig := fun s _ => (0, s)
    getc := fun s => (-5, s)
    putc := fun s _ => if s = 0 then (0, k) else (-E, s - 1) }

/-- A receiver that plays back a script of get-byte outcomes; when the script is
exhausted it reports `-E` (not ready) for ever.  The driver state is the rest
of the script. -/
def script_getc_ops (E : Int) : dm_serial_ops (List Int) :=
  { setbrg := fun s _ => (0, s)
    setconfig := fun s _ => (0, s)
    getc := fun s =>
      match s with
      | [] => (-E, [])
      | r :: rs => (r, rs)
    putc := fun s _ => (0, s) }

/-- The script in which outcome `p.2` is preceded by `p.1` not-ready outcomes,
for every `p` of `kbs` in order, followed by `rest`. -/
def script_of (E : Int) (kbs : List (Nat × Int)) (rest : List Int) : List Int :=
  (kbs.map fun p => List.replicate p.1 (-E) ++ [p.2]).flatten ++ rest

/-- A device whose byte operations always return the same value `e` (a hard
error when `e` is negative and not the not-ready code). -/
def constant_ops (e : Int) : dm_serial_ops Unit :=
  { setbrg := fun s _ => (0, s)
    setconfig := fun s _ => (0, s)
    getc := fun s => (e, s)
    putc := fun s _ => (e, s) }

/-- The double of retry absorption: it reports not-ready (`-E`) to the first
polls of a byte operation and then behaves like the device `ops`.  The driver
state pairs the number of not-ready polls left with the state of `ops`. -/
def delay_ops (E : Int) (ops : dm_serial_ops σ) : dm_serial_ops (Nat × σ) :=
  { setbrg := fun s b => ((ops.setbrg s.2 b).1, (s.1, (ops.setbrg s.2 b).2))
    setconfig := fun s c => ((ops.setconfig s.2 c).1, (s.1, (ops.setconfig s.2 c).2))
    getc := fun s =>
      if s.1 = 0 then ((ops.getc s.2).1, (0, (ops.getc s.2).2)) else (-E, (s.1 - 1, s.2))
    putc := fun s ch =>
      if s.1 = 0 then ((ops.putc s.2 ch).1, (0, (ops.putc s.2 ch).2)) else (-E, (s.1 - 1, s.2)) }

/-- The environment in which every device is replaced by its delayed double. -/
def delay_env (env : Env σ) : Env (Nat × σ) :=
  { EAGAIN := env.EAGAIN
    ENODEV := env.ENODEV
    CMD_RET_FAILURE := env.CMD_RET_FAILURE
    CMD_RET_USAGE := env.CMD_RET_USAGE
    SERIAL_DEFAULT_CONFIG := env.SERIAL_DEFAULT_CONFIG
    uclass_get_device_by_seq := env.uclass_get_device_by_seq
    serial_get_ops := fun h => (env.serial_get_ops h).map (delay_ops env.EAGAIN)
    seq := env.seq
    simple_strtoul := env.simple_strtoul
    cmd_usage := env.cmd_usage }

/-- The state `st` seen through the doubles, with `k` not-ready polls pending on
`dev` and none on the other devices. -/
def delay_state (dev : Handle) (k : Nat) (st : State σ) : State (Nat × σ) :=
  { serial_cur_dev := st.serial_cur_dev
    mem := st.mem
    hw := fun h => (if h = dev then k else 0, st.hw h)
    trace := st.trace }

/-- The relation `Delayed E dev c std st`: `std` is a state of the delayed doubles that shows
the same current device, memory, wire and received bytes of `dev` as `st`, with
`c` not-ready polls still pending on `dev`. -/
def Delayed (E : Int) (dev : Handle) (c : Nat) (std : State (Nat × σ)) (st : State σ) : Prop :=
  std.serial_cur_dev = st.serial_cur_dev ∧ std.mem = st.mem ∧
  std.hw dev = (c, st.hw dev) ∧
  wire dev std.trace = wire dev st.trace ∧
  received E dev std.trace = received E dev st.trace

/-- A device that answers every poll at once: get-byte returns the low eight
bits of a counter and increments it, put-byte accepts. -/
def counter_ops : dm_serial_ops Nat :=
  { setbrg := fun s _ => (0, s)
    setconfig := fun s _ => (0, s)
    getc := fun s => (((s % 256 : Nat) : Int), s + 1)
    putc := fun s _ => (0, s) }

/-- The loopback double: put-byte appends the character to a FIFO and accepts,
get-byte removes the head of the FIFO (and reports not-ready, `-E`, when the
FIFO is empty).  The driver state is the FIFO. -/
def loopback_ops (E : Int) : dm_serial_ops (List Nat) :=
  { setbrg := fun s _ => (0, s)
    setconfig := fun s _ => (0, s)
    getc := fun s =>
      match s with
      | [] => (-E, [])
      | b :: bs => ((b : Int), bs)
    putc := fun s ch => (0, s ++ [ch]) }

/-- A device whose configuration operations return fixed values: `setconfig`
returns `c`, `setbrg` returns `b`; the byte operations succeed at once. -/
def config_ops (c b : Int) : dm_serial_ops Unit :=
  { setbrg := fun s _ => (b, s)
    setconfig := fun s _ => (c, s)
    getc := fun s => (0, s)
    putc := fun s _ => (0, s) }

/-- The example environment without a device at the default ordinal: only the
ordinal 2 is registered (handle 102). -/
def demo_env_no_default (ops : dm_serial_ops σ) : Env σ :=
  { demo_env ops with
    uclass_get_device_by_seq := fun n => if n = 2 then (0, 102) else (-19, 0) }

/-- The registry lookups in a trace, oldest first. -/
def lookups (tr : List Event) : List Nat :=
  tr.filterMap fun e =>
    match e with
    | Event.lookup n _ => some n
    | _ => none

/-- The configuration calls (`setconfig`, `setbrg`) in a trace, oldest first. -/
def config_calls (tr : List Event) : List Event :=
  tr.filter fun e =>
    match e with
    | Event.setconfig _ _ _ => true
    | Event.setbrg _ _ _ => true
    | _ => false

/-- A table search for the examples: the first entry with exactly this name. -/
def demo_find_cmd_tbl (name : String) (table : List cmd_tbl_t) : Option cmd_tbl_t :=
  table.find? fun c => c.name = name

/-- The example environment in which no device has an operation table
(`serial_get_ops` is NULL for every handle). -/
def demo_env_no_ops : Env Unit :=
  { demo_env (config_ops 0 0) with serial_get_ops := fun _ => none }

/-! ## The polling loops -/

theorem serial_write_char_loop_settles (env : Env σ) (ops : dm_serial_ops σ) (dev : Handle)
    (ch : Nat) {k : Nat} {s : σ} {r : Int} {s1 : σ}
    (h : Settles env.EAGAIN (fun x => ops.putc x ch) k s r s1) :
    ∀ (st : State σ) (fuel : Nat), st.hw dev = s → k < fuel →
      serial_write_char_loop env ops dev ch fuel st =
        some { st with
          hw := Function.update st.hw dev s1
          trace := st.trace ++ List.replicate k (Event.putc dev ch (-env.EAGAIN))
            ++ [Event.putc dev ch r] } := by
  induction h with
  | done s hne =>
    intro st fuel hs hk
    obtain ⟨f, rfl⟩ : ∃ f, fuel = f + 1 := ⟨fuel - 1, by omega⟩
    subst hs
    simp only [serial_write_char_loop]
    rw [if_neg hne]
    simp [State.emit, State.set_hw]
  | busy k s r s1 hbusy _ ih =>
    intro st fuel hs hk
    obtain ⟨f, rfl⟩ : ∃ f, fuel = f + 1 := ⟨fuel - 1, by omega⟩
    subst hs
    simp only [serial_write_char_loop]
    rw [if_pos hbusy]
    rw [ih _ f (by simp [State.emit, State.set_hw]) (by omega)]
    simp [State.emit, State.set_hw, List.replicate_succ, hbusy]

theorem serial_read_char_loop_settles (env : Env σ) (ops : dm_serial_ops σ) (dev : Handle)
    {k : Nat} {s : σ} {r : Int} {s1 : σ}
    (h : Settles env.EAGAIN ops.getc k s r s1) :
    ∀ (st : State σ) (fuel : Nat), st.hw dev = s → k < fuel →
      serial_read_char_loop env ops dev fuel st =
        some (r, { st with
          hw := Function.update st.hw dev s1
          trace := st.trace
            ++ (List.replicate k [Event.getc dev (-env.EAGAIN), Event.watchdog]).flatten
            ++ [Event.getc dev r] }) := by
  induction h with
  | done s hne =>
    intro st fuel hs hk
    obtain ⟨f, rfl⟩ : ∃ f, fuel = f + 1 := ⟨fuel - 1, by omega⟩
    subst hs
    simp only [serial_read_char_loop]
    rw [if_neg hne]
    simp [State.emit, State.set_hw]
  | busy k s r s1 hbusy _ ih =>
    intro st fuel hs hk
    obtain ⟨f, rfl⟩ : ∃ f, fuel = f + 1 := ⟨fuel - 1, by omega⟩
    subst hs
    simp only [serial_read_char_loop]
    rw [if_pos hbusy]
    rw [ih _ f (by simp [State.emit, State.set_hw]) (by omega)]
    simp [State.emit, State.set_hw, List.replicate_succ, hbusy]

/-! ## Transmission of one character -/

theorem serial_write_char_plain (env : Env σ) (ops : dm_serial_ops σ) (dev : Handle)
    (hops : env.serial_get_ops dev = some ops) (ch : Nat) (hch : ch ≠ 10)
    {k : Nat} {s : σ} {r : Int} {s1 : σ}
    (h : Settles env.EAGAIN (fun x => ops.putc x ch) k s r s1)
    (st : State σ) (fuel : Nat) (hs : st.hw dev = s) (hk : k < fuel) :
    serial_write_char env dev fuel ch st =
      some { st with
        hw := Function.update st.hw dev s1
        trace := st.trace ++ putc_events env.EAGAIN dev ch k r } := by
  obtain ⟨f, rfl⟩ : ∃ f, fuel = f + 1 := ⟨fuel - 1, by omega⟩
  simp only [serial_write_char, hops, if_neg hch]
  rw [serial_write_char_loop_settles env ops dev ch h st (f + 1) hs hk]
  simp [putc_events]

theorem serial_write_char_newline (env : Env σ) (ops : dm_serial_ops σ) (dev : Handle)
    (hops : env.serial_get_ops dev = some ops)
    {k1 k2 : Nat} {s : σ} {r1 r2 : Int} {s1 s2 : σ}
    (h1 : Settles env.EAGAIN (fun x => ops.putc x 13) k1 s r1 s1)
    (h2 : Settles env.EAGAIN (fun x => ops.putc x 10) k2 s1 r2 s2)
    (st : State σ) (fuel : Nat) (hs : st.hw dev = s) (hk1 : k1 + 1 < fuel) (hk2 : k2 < fuel) :
    serial_write_char env dev fuel 10 st =
      some { st with
        hw := Function.update st.hw dev s2
        trace := st.trace ++ putc_events env.EAGAIN dev 13 k1 r1
          ++ putc_events env.EAGAIN dev 10 k2 r2 } := by
  obtain ⟨f, rfl⟩ : ∃ f, fuel = f + 1 := ⟨fuel - 1, by omega⟩
  simp only [serial_write_char, hops, if_true]
  rw [serial_write_char_plain env ops dev hops 13 (by decide) h1 st f hs (by omega)]
  simp only []
  rw [serial_write_char_loop_settles env ops dev 10 h2 _ (f + 1) (by simp) hk2]
  simp [putc_events]

theorem wire_append (dev : Handle) (a b : List Event) :
    wire dev (a ++ b) = wire dev a ++ wire dev b := by
  simp [wire, List.filterMap_append]

theorem wire_putc_events (E : Int) (hE : 0 < E) (dev : Handle) (ch k : Nat) (r : Int) :
    wire dev (putc_events E dev ch k r) = if 0 ≤ r then [ch] else [] := by
  have hbusy : wire dev (List.replicate k (Event.putc dev ch (-E))) = [] := by
    induction k with
    | zero => rfl
    | succ n ih =>
      rw [List.replicate_succ, ← List.singleton_append, wire_append, ih]
      have : ¬ (0 ≤ -E) := by omega
      simp [wire, this]
  rw [putc_events, wire_append, hbusy]
  by_cases hr : 0 ≤ r <;> simp [wire, hr]

theorem serial_write_char_accepts (env : Env σ) (ops : dm_serial_ops σ) (dev : Handle)
    (hE : 0 < env.EAGAIN) (hops : env.serial_get_ops dev = some ops)
    (hacc : PutcAccepts env.EAGAIN ops) (ch : Nat) (st : State σ) :
    ∃ fuel0 st1, (∀ fuel, fuel0 ≤ fuel → serial_write_char env dev fuel ch st = some st1) ∧
      wire dev st1.trace = wire dev st.trace ++ crlf [ch] ∧
      st1.mem = st.mem ∧ st1.serial_cur_dev = st.serial_cur_dev := by
  by_cases hch : ch = 10
  · subst hch
    obtain ⟨k1, r1, s1, h1, hr1⟩ := hacc (st.hw dev) 13
    obtain ⟨k2, r2, s2, h2, hr2⟩ := hacc s1 10
    refine ⟨k1 + k2 + 2, _, fun fuel hf =>
      serial_write_char_newline env ops dev hops h1 h2 st fuel rfl (by omega) (by omega),
      ?_, rfl, rfl⟩
    simp [wire_append, wire_putc_events _ hE, hr1, hr2, crlf]
  · obtain ⟨k, r, s1, h, hr⟩ := hacc (st.hw dev) ch
    refine ⟨k + 1, _, fun fuel hf =>
      serial_write_char_plain env ops dev hops ch hch h st fuel rfl (by omega), ?_, rfl, rfl⟩
    simp [wire_append, wire_putc_events _ hE, hr, crlf, hch]

/-! ## Bulk transmission -/

theorem mem_bytes_succ (mem : Nat → Nat) (addr length : Nat) :
    mem_bytes mem addr (length + 1) = mem addr % 256 :: mem_bytes mem (addr + 1) length := by
  simp [mem_bytes, List.range_succ_eq_map, Function.comp_def, Nat.add_assoc, Nat.add_comm 1]

theorem crlf_cons (c : Nat) (cs : List Nat) : crlf (c :: cs) = crlf [c] ++ crlf cs := by
  by_cases h : c = 10 <;> simp [crlf, h]

theorem do_serial_write_loop_accepts (env : Env σ) (ops : dm_serial_ops σ) (dev : Handle)
    (hE : 0 < env.EAGAIN) (hops : env.serial_get_ops dev = some ops)
    (hacc : PutcAccepts env.EAGAIN ops) (length : Nat) :
    ∀ (memaddr : Nat) (st : State σ), ∃ fuel0 st1,
      (∀ fuel, fuel0 ≤ fuel → do_serial_write_loop env fuel dev length memaddr st = some st1) ∧
      wire dev st1.trace = wire dev st.trace ++ crlf (mem_bytes st.mem memaddr length) ∧
      st1.mem = st.mem ∧ st1.serial_cur_dev = st.serial_cur_dev := by
  induction length with
  | zero =>
    intro memaddr st
    exact ⟨0, st, fun fuel _ => rfl, by simp [mem_bytes, crlf], rfl, rfl⟩
  | succ n ih =>
    intro memaddr st
    obtain ⟨f1, st1, e1, w1, m1, c1⟩ :=
      serial_write_char_accepts env ops dev hE hops hacc (st.mem memaddr % 256) st
    obtain ⟨f2, st2, e2, w2, m2, c2⟩ := ih (memaddr + 1) st1
    refine ⟨max f1 f2, st2, fun fuel hf => ?_, ?_, m2.trans m1, c2.trans c1⟩
    · simp only [do_serial_write_loop]
      rw [e1 fuel (le_trans (le_max_left _ _) hf)]
      exact e2 fuel (le_trans (le_max_right _ _) hf)
    · rw [w2, w1, m1, mem_bytes_succ, List.append_assoc, ← crlf_cons]

theorem wire_printf (dev : Handle) (m : Msg) : wire dev [Event.printf m] = [] := rfl

theorem serial_get_cur_device_set (env : Env σ) (st : State σ) (dev : Handle)
    (hcur : st.serial_cur_dev = some dev) :
    serial_get_cur_device env st = (0, some dev, st) := by
  simp [serial_get_cur_device, serial_get_cur_device_tail, hcur]

/-- C1 (newline expansion on transmit).  With a resolved current device whose
put-byte operation eventually accepts every byte, the bulk write returns 0 for
every large enough fuel, and the bytes it adds to the wire are exactly the bytes
of the memory region with one carriage return inserted before every line feed. -/
theorem newline_expansion_on_transmit (env : Env σ) (ops : dm_serial_ops σ) (dev : Handle)
    (cmd a l : String) (st : State σ)
    (hE : 0 < env.EAGAIN) (hops : env.serial_get_ops dev = some ops)
    (hcur : st.serial_cur_dev = some dev) (hacc : PutcAccepts env.EAGAIN ops) :
    ∃ st1,
      wire dev st1.trace = wire dev st.trace ++
        crlf (mem_bytes st.mem (env.simple_strtoul a 16) (ulong_to_uint (env.simple_strtoul l 16))) ∧
      ∃ fuel0, ∀ fuel, fuel0 ≤ fuel → do_serial_write env fuel [cmd, a, l] st = some (0, st1) := by
  obtain ⟨f, st1, e, w, -, -⟩ := do_serial_write_loop_accepts env ops dev hE hops hacc
    (ulong_to_uint (env.simple_strtoul l 16)) (env.simple_strtoul a 16)
    (st.emit (Event.printf (Msg.trying_to_write (ulong_to_uint (env.simple_strtoul l 16)))))
  refine ⟨st1, ?_, f, fun fuel hf => ?_⟩
  · rw [w]
    simp [State.emit, wire_append, wire_printf]
  · have hg := serial_get_cur_device_set env
      (st.emit (Event.printf (Msg.trying_to_write (ulong_to_uint (env.simple_strtoul l 16))))) dev hcur
    simp only [do_serial_write, List.length_cons, List.length_nil, List.getD_cons_succ,
      List.getD_cons_zero]
    simp only [hg]
    have e1 := e fuel hf
    simp only [Nat.reducePow] at e1 ⊢
    simp [e1]

theorem busy_putc_ops_settles (E : Int) (hE : E ≠ 0) (k ch : Nat) (s : Nat) :
    Settles E (fun x => (busy_putc_ops E k).putc x ch) s s 0 k := by
  induction s with
  | zero =>
    have h := @Settles.done Nat E (fun x => (busy_putc_ops E k).putc x ch) 0
      (by simp [busy_putc_ops]; omega)
    simpa [busy_putc_ops] using h
  | succ n ih =>
    exact Settles.busy n (n + 1) 0 k (by simp [busy_putc_ops]) (by simpa [busy_putc_ops] using ih)

theorem busy_putc_ops_accepts (E : Int) (hE : E ≠ 0) (k : Nat) :
    PutcAccepts E (busy_putc_ops E k) :=
  fun s ch => ⟨s, 0, k, busy_putc_ops_settles E hE k ch s, le_refl _⟩

/-- The bytes `a`, line feed, `b` at address 0x1000, written to a transmitter that
is busy twice before each byte: the wire carries `a`, carriage return, line feed,
`b`. -/
theorem newline_expansion_on_transmit_witness :
    (∃ st1, wire 101 st1.trace = [97, 13, 10, 98] ∧
      ∃ fuel0, ∀ fuel, fuel0 ≤ fuel →
        do_serial_write (demo_env (busy_putc_ops 11 2)) fuel ["write", "1000", "3"]
          (demo_state (some 101) (mem_of 4096 [97, 10, 98]) 2) = some (0, st1)) ∧
    (do_serial_write (demo_env (busy_putc_ops 11 2)) 4 ["write", "1000", "3"]
      (demo_state (some 101) (mem_of 4096 [97, 10, 98]) 2)).map
        (fun r => (r.1, wire 101 r.2.trace)) = some (0, [97, 13, 10, 98]) := by
  have h := newline_expansion_on_transmit (demo_env (busy_putc_ops 11 2)) (busy_putc_ops 11 2)
    101 "write" "1000" "3" (demo_state (some 101) (mem_of 4096 [97, 10, 98]) 2)
    (by decide) rfl rfl (busy_putc_ops_accepts 11 (by decide) 2)
  have hb : crlf (mem_bytes (demo_state (some 101) (mem_of 4096 [97, 10, 98]) (2 : Nat)).mem
      ((demo_env (busy_putc_ops 11 2)).simple_strtoul "1000" 16)
      (ulong_to_uint ((demo_env (busy_putc_ops 11 2)).simple_strtoul "3" 16))) = [97, 13, 10, 98] := by
    decide
  rw [hb] at h
  exact ⟨h, by decide⟩

/-! ## Reception -/

theorem serial_read_char_settles (env : Env σ) (ops : dm_serial_ops σ) (dev : Handle)
    (hops : env.serial_get_ops dev = some ops)
    {k : Nat} {s : σ} {r : Int} {s1 : σ} (h : Settles env.EAGAIN ops.getc k s r s1)
    (st : State σ) (fuel : Nat) (hs : st.hw dev = s) (hk : k < fuel) :
    serial_read_char env fuel dev st =
      some (if r ≥ 0 then r else 0, { st with
        hw := Function.update st.hw dev s1
        trace := st.trace ++ getc_events env.EAGAIN dev k r }) := by
  simp only [serial_read_char, hops]
  rw [serial_read_char_loop_settles env ops dev h st fuel hs hk]
  simp [getc_events]

theorem do_serial_read_loop_yields (env : Env σ) (ops : dm_serial_ops σ) (dev : Handle)
    (hops : env.serial_get_ops dev = some ops) (fuel : Nat)
    {s : σ} {kbs : List (Nat × Int)} {s1 : σ}
    (h : GetcYields env.EAGAIN ops.getc s kbs s1) :
    ∀ (memaddr : Nat) (st : State σ), st.hw dev = s → (∀ p ∈ kbs, p.1 < fuel) →
      do_serial_read_loop env fuel dev kbs.length memaddr st =
        some { st with
          mem := store_bytes st.mem memaddr (kbs.map fun p => stored_byte p.2)
          hw := Function.update st.hw dev s1
          trace := st.trace
            ++ (kbs.map fun p => getc_events env.EAGAIN dev p.1 p.2).flatten } := by
  induction h with
  | nil s =>
    intro memaddr st hs _
    subst hs
    simp [do_serial_read_loop, store_bytes]
  | cons k s b s1 kbs s2 hb _ ih =>
    intro memaddr st hs hk
    simp only [List.length_cons, do_serial_read_loop]
    rw [serial_read_char_settles env ops dev hops hb st fuel hs
      (hk (k, b) (List.mem_cons_self _ _))]
    simp only []
    rw [ih (memaddr + 1) _ (by simp) (fun p hp => hk p (List.mem_cons_of_mem _ hp))]
    simp [store_bytes, stored_byte]

theorem store_bytes_outside (bs : List Nat) :
    ∀ (mem : Nat → Nat) (addr x : Nat), x < addr ∨ addr + bs.length ≤ x →
      store_bytes mem addr bs x = mem x := by
  induction bs with
  | nil => intro mem addr x _; rfl
  | cons b bs ih =>
    intro mem addr x hx
    simp only [store_bytes, List.length_cons] at hx ⊢
    rw [ih _ _ _ (by omega), Function.update_noteq (by omega)]

theorem store_bytes_inside (bs : List Nat) :
    ∀ (mem : Nat → Nat) (addr i : Nat) (hi : i < bs.length),
      store_bytes mem addr bs (addr + i) = bs.get ⟨i, hi⟩ := by
  induction bs with
  | nil => intro mem addr i hi; simp at hi
  | cons b bs ih =>
    intro mem addr i hi
    cases i with
    | zero =>
      simp only [store_bytes, Nat.add_zero]
      rw [store_bytes_outside _ _ _ _ (by omega)]
      simp
    | succ j =>
      simp only [store_bytes]
      have h := ih (Function.update mem addr b) (addr + 1) j (by simpa using hi)
      rw [show addr + (j + 1) = addr + 1 + j by omega, h]
      simp

theorem received_append (E : Int) (dev : Handle) (a b : List Event) :
    received E dev (a ++ b) = received E dev a ++ received E dev b := by
  simp [received, List.filterMap_append]

theorem received_getc_events (E : Int) (dev : Handle) (k : Nat) (r : Int) (hr : r ≠ -E) :
    received E dev (getc_events E dev k r) = [r] := by
  have hbusy : received E dev
      (List.replicate k [Event.getc dev (-E), Event.watchdog]).flatten = [] := by
    induction k with
    | zero => rfl
    | succ n ih =>
      rw [List.replicate_succ, List.flatten_cons, received_append, ih]
      simp [received]
  rw [getc_events, received_append, hbusy]
  simp [received, hr]

theorem Settles.ne_busy {E : Int} {op : σ → Int × σ} {k : Nat} {s : σ} {r : Int} {s1 : σ}
    (h : Settles E op k s r s1) : r ≠ -E := by
  induction h with
  | done s hne => exact hne
  | busy k s r s1 _ _ ih => exact ih

theorem received_yields (E : Int) (getc : σ → Int × σ) (dev : Handle)
    {s : σ} {kbs : List (Nat × Int)} {s1 : σ} (h : GetcYields E getc s kbs s1) :
    received E dev (kbs.map fun p => getc_events E dev p.1 p.2).flatten = kbs.map Prod.snd := by
  induction h with
  | nil s => rfl
  | cons k s b s1 kbs s2 hb _ ih =>
    simp only [List.map_cons, List.flatten_cons, received_append]
    rw [ih, received_getc_events E dev k b hb.ne_busy]
    rfl

theorem lt_succ_sum_of_mem (ks : List Nat) (k : Nat) (h : k ∈ ks) : k < ks.sum + 1 := by
  induction ks with
  | nil => simp at h
  | cons a as ih =>
    simp only [List.mem_cons] at h
    simp only [List.sum_cons]
    rcases h with rfl | h
    · omega
    · have := ih h
      omega

theorem do_serial_read_yields (env : Env σ) (ops : dm_serial_ops σ) (dev : Handle)
    (cmd a l : String) (st : State σ) (kbs : List (Nat × Int)) (s1 : σ)
    (hops : env.serial_get_ops dev = some ops) (hcur : st.serial_cur_dev = some dev)
    (hy : GetcYields env.EAGAIN ops.getc (st.hw dev) kbs s1)
    (hlen : kbs.length = ulong_to_uint (env.simple_strtoul l 16))
    (fuel : Nat) (hfuel : ∀ p ∈ kbs, p.1 < fuel) :
    do_serial_read env fuel [cmd, a, l] st =
      some (0, { st with
        mem := store_bytes st.mem (env.simple_strtoul a 16) (kbs.map fun p => stored_byte p.2)
        hw := Function.update st.hw dev s1
        trace := st.trace ++ [Event.printf (Msg.trying_to_read kbs.length)]
          ++ (kbs.map fun p => getc_events env.EAGAIN dev p.1 p.2).flatten }) := by
  have hg := serial_get_cur_device_set env
    (st.emit (Event.printf (Msg.trying_to_read kbs.length))) dev hcur
  have hl := do_serial_read_loop_yields env ops dev hops fuel hy (env.simple_strtoul a 16)
    (st.emit (Event.printf (Msg.trying_to_read kbs.length))) rfl hfuel
  simp only [do_serial_read, List.length_cons, List.length_nil, List.getD_cons_succ,
    List.getD_cons_zero]
  rw [← hlen]
  simp only [hg]
  simp only [hl]
  simp [State.emit]

/-- C2 (bulk receive fills memory sequentially).  With a resolved current
device whose get-byte operation yields the byte values `kbs.map Prod.snd`, the
`i`-th one after `(kbs.get i).1` not-ready outcomes, `do_serial_read` of that
many bytes returns 0 for every large enough fuel; afterwards the `i`-th byte is
at address `dest + i`, every address outside the region is unchanged, exactly
these outcomes have been taken from the device, and the current device is the
same. -/
theorem bulk_receive_fills_memory (env : Env σ) (ops : dm_serial_ops σ) (dev : Handle)
    (cmd a l : String) (st : State σ) (kbs : List (Nat × Int)) (s1 : σ)
    (hops : env.serial_get_ops dev = some ops) (hcur : st.serial_cur_dev = some dev)
    (hy : GetcYields env.EAGAIN ops.getc (st.hw dev) kbs s1)
    (hlen : kbs.length = ulong_to_uint (env.simple_strtoul l 16))
    (hbyte : ∀ p ∈ kbs, 0 ≤ p.2 ∧ p.2 < 256) :
    ∃ st1,
      (∀ (i : Nat) (hi : i < kbs.length),
        (st1.mem (env.simple_strtoul a 16 + i) : Int) = (kbs.get ⟨i, hi⟩).2) ∧
      (∀ x, x < env.simple_strtoul a 16 ∨ env.simple_strtoul a 16 + kbs.length ≤ x →
        st1.mem x = st.mem x) ∧
      received env.EAGAIN dev st1.trace
        = received env.EAGAIN dev st.trace ++ kbs.map Prod.snd ∧
      st1.hw dev = s1 ∧
      st1.serial_cur_dev = some dev ∧
      ∃ fuel0, ∀ fuel, fuel0 ≤ fuel → do_serial_read env fuel [cmd, a, l] st = some (0, st1) := by
  refine ⟨_, ?_, ?_, ?_, ?_, ?_, (kbs.map Prod.fst).sum + 1, fun fuel hf =>
    do_serial_read_yields env ops dev cmd a l st kbs s1 hops hcur hy hlen fuel
      (fun p hp => lt_of_lt_of_le
        (lt_succ_sum_of_mem _ _ (List.mem_map_of_mem Prod.fst hp)) hf)⟩
  · intro i hi
    have h := store_bytes_inside (kbs.map fun p => stored_byte p.2) st.mem
      (env.simple_strtoul a 16) i (by simpa using hi)
    simp only [h, List.get_eq_getElem, List.getElem_map]
    obtain ⟨h0, h1⟩ := hbyte kbs[i] (List.getElem_mem _)
    simp only [stored_byte, to_uchar, ge_iff_le, h0, if_true]
    omega
  · intro x hx
    exact store_bytes_outside _ _ _ _ (by simpa using hx)
  · simp only [received_append, received_yields env.EAGAIN ops.getc dev hy]
    simp [received]
  · simp
  · exact hcur

theorem script_getc_settles (E : Int) (k : Nat) (b : Int) (hb : b ≠ -E) (rest : List Int) :
    Settles E (script_getc_ops E).getc k (List.replicate k (-E) ++ b :: rest) b rest := by
  induction k with
  | zero => exact @Settles.done (List Int) E (script_getc_ops E).getc (b :: rest) hb
  | succ n ih => exact Settles.busy n _ b rest rfl ih

theorem script_getc_yields (E : Int) (kbs : List (Nat × Int)) (rest : List Int)
    (h : ∀ p ∈ kbs, p.2 ≠ -E) :
    GetcYields E (script_getc_ops E).getc (script_of E kbs rest) kbs rest := by
  induction kbs with
  | nil => exact GetcYields.nil rest
  | cons p ps ih =>
    obtain ⟨k, b⟩ := p
    have h1 := script_getc_settles E k b (h (k, b) (List.mem_cons_self _ _)) (script_of E ps rest)
    have h2 := ih (fun q hq => h q (List.mem_cons_of_mem _ hq))
    have e : script_of E ((k, b) :: ps) rest
        = List.replicate k (-E) ++ b :: script_of E ps rest := by
      simp [script_of]
    rw [e]
    exact GetcYields.cons k _ b _ ps rest h1 h2

/-- The bytes 0x41 .. 0x44, some of them after not-ready outcomes, read to 0x1000
through the device of ordinal 2: memory holds "ABCD" at 0x1000 .. 0x1003, the
neighbouring bytes are untouched, and the command returns 0. -/
theorem bulk_receive_fills_memory_witness :
    (∃ st1 : State (List Int),
      (st1.mem 4096 = 65 ∧ st1.mem 4097 = 66 ∧ st1.mem 4098 = 67 ∧ st1.mem 4099 = 68) ∧
      (st1.mem 4095 = 7 ∧ st1.mem 4100 = 7) ∧
      ∃ fuel0, ∀ fuel, fuel0 ≤ fuel →
        do_serial_read (demo_env (script_getc_ops 11)) fuel ["read", "1000", "4"]
          (demo_state (some 102) (fun _ => 7)
            (script_of 11 [(1, 65), (0, 66), (2, 67), (0, 68)] [])) = some (0, st1)) ∧
    (do_serial_read (demo_env (script_getc_ops 11)) 3 ["read", "1000", "4"]
      (demo_state (some 102) (fun _ => 7)
        (script_of 11 [(1, 65), (0, 66), (2, 67), (0, 68)] []))).map
      (fun r => (r.1, mem_bytes r.2.mem 4095 6)) = some (0, [7, 65, 66, 67, 68, 7]) := by
  obtain ⟨st1, hin, hout, -, -, -, hrun⟩ :=
    bulk_receive_fills_memory (demo_env (script_getc_ops 11)) (script_getc_ops 11) 102
      "read" "1000" "4"
      (demo_state (some 102) (fun _ => 7) (script_of 11 [(1, 65), (0, 66), (2, 67), (0, 68)] []))
      [(1, 65), (0, 66), (2, 67), (0, 68)] [] rfl rfl
      (script_getc_yields 11 [(1, 65), (0, 66), (2, 67), (0, 68)] [] (by decide))
      (by decide) (by decide)
  have ha : (demo_env (script_getc_ops 11)).simple_strtoul "1000" 16 = 4096 := by decide
  rw [ha] at hin hout
  refine ⟨⟨st1, ⟨?_, ?_, ?_, ?_⟩, ⟨hout 4095 (by decide), hout 4100 (by decide)⟩, hrun⟩,
    by decide⟩
  · have h : ((st1.mem 4096 : Nat) : Int) = 65 := hin 0 (by decide)
    exact_mod_cast h
  · have h : ((st1.mem 4097 : Nat) : Int) = 66 := hin 1 (by decide)
    exact_mod_cast h
  · have h : ((st1.mem 4098 : Nat) : Int) = 67 := hin 2 (by decide)
    exact_mod_cast h
  · have h : ((st1.mem 4099 : Nat) : Int) = 68 := hin 3 (by decide)
    exact_mod_cast h

theorem stored_byte_neg (r : Int) (h : r < 0) : stored_byte r = 0 := by
  have : ¬ (r ≥ 0) := by omega
  simp [stored_byte, to_uchar, this]

theorem hard_error_yields (E : Int) (getc : σ → Int × σ)
    (herr : ∀ s, (getc s).1 < 0 ∧ (getc s).1 ≠ -E) (n : Nat) :
    ∀ s, ∃ kbs s1, GetcYields E getc s kbs s1 ∧ kbs.length = n ∧
      ∀ p ∈ kbs, p.1 = 0 ∧ p.2 < 0 := by
  induction n with
  | zero => exact fun s => ⟨[], s, GetcYields.nil s, rfl, by simp⟩
  | succ m ih =>
    intro s
    obtain ⟨kbs, s1, hy, hl, hp⟩ := ih (getc s).2
    refine ⟨(0, (getc s).1) :: kbs, s1,
      GetcYields.cons 0 s _ _ kbs s1 (Settles.done s (herr s).2) hy, by simp [hl], ?_⟩
    intro p hp1
    rcases List.mem_cons.mp hp1 with rfl | h
    · exact ⟨rfl, (herr s).1⟩
    · exact hp p h

/-- C3 (receive error coercion).  When every get-byte outcome of the current
device is a hard error (negative and not `-EAGAIN`), `do_serial_read` of `n`
bytes returns 0 with any fuel of at least one, makes `n` completed byte reads and
leaves the byte 0 at each of the `n` destination addresses (and the rest of
memory as it was).  For every device, `serial_read_char` returns 0 when the
outcome that ends the polling is negative, and never returns a negative value. -/
theorem receive_error_coercion (env : Env σ) (ops : dm_serial_ops σ) (dev : Handle)
    (hops : env.serial_get_ops dev = some ops) :
    (∀ (cmd a l : String) (st : State σ), st.serial_cur_dev = some dev →
      (∀ s, (ops.getc s).1 < 0 ∧ (ops.getc s).1 ≠ -env.EAGAIN) →
      ∃ st1,
        (∀ fuel, 1 ≤ fuel → do_serial_read env fuel [cmd, a, l] st = some (0, st1)) ∧
        (∀ i, i < ulong_to_uint (env.simple_strtoul l 16) →
          st1.mem (env.simple_strtoul a 16 + i) = 0) ∧
        (∀ x, x < env.simple_strtoul a 16 ∨
            env.simple_strtoul a 16 + ulong_to_uint (env.simple_strtoul l 16) ≤ x →
          st1.mem x = st.mem x) ∧
        (received env.EAGAIN dev st1.trace).length
          = (received env.EAGAIN dev st.trace).length + ulong_to_uint (env.simple_strtoul l 16)) ∧
    (∀ (st : State σ) (fuel k : Nat) (r : Int) (s1 : σ),
      Settles env.EAGAIN ops.getc k (st.hw dev) r s1 → r < 0 → k < fuel →
      ∃ st2, serial_read_char env fuel dev st = some (0, st2)) ∧
    (∀ (st : State σ) (fuel : Nat) (v : Int) (st2 : State σ),
      serial_read_char env fuel dev st = some (v, st2) → 0 ≤ v) := by
  refine ⟨?_, ?_, ?_⟩
  · intro cmd a l st hcur herr
    obtain ⟨kbs, s1, hy, hl, hp⟩ :=
      hard_error_yields env.EAGAIN ops.getc herr (ulong_to_uint (env.simple_strtoul l 16)) (st.hw dev)
    refine ⟨_, fun fuel hf => do_serial_read_yields env ops dev cmd a l st kbs s1 hops hcur hy hl
      fuel (fun p hp1 => by rw [(hp p hp1).1]; exact hf), ?_, ?_, ?_⟩
    · intro i hi
      have h := store_bytes_inside (kbs.map fun p => stored_byte p.2) st.mem
        (env.simple_strtoul a 16) i (by simpa [hl] using hi)
      simp only [h, List.get_eq_getElem, List.getElem_map]
      exact stored_byte_neg _ (hp _ (List.getElem_mem _)).2
    · intro x hx
      exact store_bytes_outside _ _ _ _ (by simpa [hl] using hx)
    · simp only [received_append, received_yields env.EAGAIN ops.getc dev hy]
      simp [received, hl]
  · intro st fuel k r s1 hs hr hk
    have hr0 : ¬ (r ≥ 0) := by omega
    exact ⟨_, by rw [serial_read_char_settles env ops dev hops hs st fuel rfl hk, if_neg hr0]⟩
  · intro st fuel v st2 h
    simp only [serial_read_char, hops] at h
    cases hloop : serial_read_char_loop env ops dev fuel st with
    | none => simp [hloop] at h
    | some r =>
      simp only [hloop, Option.some.injEq, Prod.mk.injEq] at h
      rw [← h.1]
      split <;> omega

/-- A device whose get-byte always fails with -5, three bytes read to 0x1000 over
memory filled with 7: the three bytes become 0, the neighbours keep their
value, the command returns 0; one `serial_read_char` returns 0. -/
theorem receive_error_coercion_witness :
    (∃ st1 : State Unit,
      (∀ fuel, 1 ≤ fuel →
        do_serial_read (demo_env (constant_ops (-5))) fuel ["read", "1000", "3"]
          (demo_state (some 101) (fun _ => 7) ()) = some (0, st1)) ∧
      (∀ i, i < 3 → st1.mem (4096 + i) = 0) ∧ st1.mem 4099 = 7) ∧
    (do_serial_read (demo_env (constant_ops (-5))) 1 ["read", "1000", "3"]
      (demo_state (some 101) (fun _ => 7) ())).map
      (fun r => (r.1, mem_bytes r.2.mem 4095 5)) = some (0, [7, 0, 0, 0, 7]) ∧
    (serial_read_char (demo_env (constant_ops (-5))) 1 101
      (demo_state (some 101) (fun _ => 7) ())).map Prod.fst = some 0 := by
  obtain ⟨st1, hrun, hin, hout, -⟩ :=
    (receive_error_coercion (demo_env (constant_ops (-5))) (constant_ops (-5)) 101 rfl).1
      "read" "1000" "3" (demo_state (some 101) (fun _ => 7) ()) rfl
      (fun _ => ⟨show (-5 : Int) < 0 by decide, show (-5 : Int) ≠ -11 by decide⟩)
  have ha : (demo_env (constant_ops (-5))).simple_strtoul "1000" 16 = 4096 := by decide
  have hl : ulong_to_uint ((demo_env (constant_ops (-5))).simple_strtoul "3" 16) = 3 := by decide
  rw [ha, hl] at hin hout
  exact ⟨⟨st1, hrun, hin, hout 4099 (by decide)⟩, by decide, by decide⟩

/-! ## Retry absorption: the delayed double simulates the device it wraps -/

theorem delay_state_delayed (E : Int) (dev : Handle) (k : Nat) (st : State σ) :
    Delayed E dev k (delay_state dev k st) st := by
  simp [Delayed, delay_state]

theorem Delayed.emit {E : Int} {dev : Handle} {c : Nat} {std : State (Nat × σ)} {st : State σ}
    (h : Delayed E dev c std st) (e : Event) : Delayed E dev c (std.emit e) (st.emit e) := by
  obtain ⟨h1, h2, h3, h4, h5⟩ := h
  refine ⟨h1, h2, h3, ?_, ?_⟩
  · simp only [State.emit, wire_append, h4]
  · simp only [State.emit, received_append, h5]

theorem Delayed.set_hw {E : Int} {dev : Handle} {c : Nat} {std : State (Nat × σ)}
    {st : State σ} (h : Delayed E dev c std st) (c1 : Nat) (s : σ) :
    Delayed E dev c1 (std.set_hw dev (c1, s)) (st.set_hw dev s) := by
  obtain ⟨h1, h2, _, h4, h5⟩ := h
  exact ⟨h1, h2, by simp [State.set_hw], h4, h5⟩

theorem serial_write_char_loop_delayed (env : Env σ) (ops : dm_serial_ops σ) (dev : Handle)
    (hE : 0 < env.EAGAIN) (ch : Nat) (c : Nat) :
    ∀ (e fuel : Nat) (std : State (Nat × σ)) (st st1 : State σ), c ≤ e →
      Delayed env.EAGAIN dev c std st →
      serial_write_char_loop env ops dev ch fuel st = some st1 →
      ∃ st1d, serial_write_char_loop (delay_env env) (delay_ops env.EAGAIN ops) dev ch
          (fuel + e) std = some st1d ∧ Delayed env.EAGAIN dev 0 st1d st1 := by
  have hneg : ¬ (0 ≤ -env.EAGAIN) := by omega
  have hEd : (delay_env env).EAGAIN = env.EAGAIN := rfl
  induction c with
  | zero =>
    intro e fuel
    induction fuel with
    | zero => intro std st st1 _ _ h; simp [serial_write_char_loop] at h
    | succ f ih =>
      intro std st st1 he hd h
      obtain ⟨h1, h2, h3, h4, h5⟩ := hd
      rw [show f + 1 + e = (f + e) + 1 by omega]
      simp only [serial_write_char_loop] at h ⊢
      have hp : (delay_ops env.EAGAIN ops).putc (std.hw dev) ch
          = ((ops.putc (st.hw dev) ch).1, (0, (ops.putc (st.hw dev) ch).2)) := by
        simp [delay_ops, h3]
      rw [hp, hEd]
      have hd1 : Delayed env.EAGAIN dev 0
          ((std.set_hw dev (0, (ops.putc (st.hw dev) ch).2)).emit
            (Event.putc dev ch (ops.putc (st.hw dev) ch).1))
          ((st.set_hw dev (ops.putc (st.hw dev) ch).2).emit
            (Event.putc dev ch (ops.putc (st.hw dev) ch).1)) :=
        Delayed.emit (Delayed.set_hw ⟨h1, h2, h3, h4, h5⟩ 0 _) _
      by_cases hb : (ops.putc (st.hw dev) ch).1 = -env.EAGAIN
      · rw [if_pos hb] at h
        rw [if_pos hb]
        exact ih _ _ _ he hd1 h
      · rw [if_neg hb] at h
        rw [if_neg hb]
        simp only [Option.some.injEq] at h
        exact ⟨_, rfl, h ▸ hd1⟩
  | succ n ih =>
    intro e fuel std st st1 he hd h
    obtain ⟨h1, h2, h3, h4, h5⟩ := hd
    obtain ⟨e1, rfl⟩ : ∃ e1, e = e1 + 1 := ⟨e - 1, by omega⟩
    rw [show fuel + (e1 + 1) = (fuel + e1) + 1 by omega]
    simp only [serial_write_char_loop]
    have hp : (delay_ops env.EAGAIN ops).putc (std.hw dev) ch
        = (-env.EAGAIN, (n, st.hw dev)) := by
      simp [delay_ops, h3]
    rw [hp, hEd]
    rw [if_pos rfl]
    refine ih e1 fuel _ st st1 (by omega) ⟨h1, h2, by simp [State.set_hw, State.emit], ?_, ?_⟩ h
    · simp only [State.emit, State.set_hw, wire_append, h4]
      simp [wire, hneg]
    · simp only [State.emit, State.set_hw, received_append, h5]
      simp [received]

theorem serial_read_char_loop_delayed (env : Env σ) (ops : dm_serial_ops σ) (dev : Handle)
    (c : Nat) :
    ∀ (e fuel : Nat) (std : State (Nat × σ)) (st : State σ) (r : Int) (st1 : State σ), c ≤ e →
      Delayed env.EAGAIN dev c std st →
      serial_read_char_loop env ops dev fuel st = some (r, st1) →
      ∃ st1d, serial_read_char_loop (delay_env env) (delay_ops env.EAGAIN ops) dev
          (fuel + e) std = some (r, st1d) ∧ Delayed env.EAGAIN dev 0 st1d st1 := by
  have hEd : (delay_env env).EAGAIN = env.EAGAIN := rfl
  induction c with
  | zero =>
    intro e fuel
    induction fuel with
    | zero => intro std st r st1 _ _ h; simp [serial_read_char_loop] at h
    | succ f ih =>
      intro std st r st1 he hd h
      obtain ⟨h1, h2, h3, h4, h5⟩ := hd
      rw [show f + 1 + e = (f + e) + 1 by omega]
      simp only [serial_read_char_loop] at h ⊢
      have hp : (delay_ops env.EAGAIN ops).getc (std.hw dev)
          = ((ops.getc (st.hw dev)).1, (0, (ops.getc (st.hw dev)).2)) := by
        simp [delay_ops, h3]
      rw [hp, hEd]
      have hd1 : Delayed env.EAGAIN dev 0
          ((std.set_hw dev (0, (ops.getc (st.hw dev)).2)).emit
            (Event.getc dev (ops.getc (st.hw dev)).1))
          ((st.set_hw dev (ops.getc (st.hw dev)).2).emit
            (Event.getc dev (ops.getc (st.hw dev)).1)) :=
        Delayed.emit (Delayed.set_hw ⟨h1, h2, h3, h4, h5⟩ 0 _) _
      by_cases hb : (ops.getc (st.hw dev)).1 = -env.EAGAIN
      · rw [if_pos hb] at h
        rw [if_pos hb]
        exact ih _ _ _ _ he (hd1.emit Event.watchdog) h
      · rw [if_neg hb] at h
        rw [if_neg hb]
        simp only [Option.some.injEq, Prod.mk.injEq] at h
        exact ⟨_, by rw [h.1], h.2 ▸ hd1⟩
  | succ n ih =>
    intro e fuel std st r st1 he hd h
    obtain ⟨h1, h2, h3, h4, h5⟩ := hd
    obtain ⟨e1, rfl⟩ : ∃ e1, e = e1 + 1 := ⟨e - 1, by omega⟩
    rw [show fuel + (e1 + 1) = (fuel + e1) + 1 by omega]
    simp only [serial_read_char_loop]
    have hp : (delay_ops env.EAGAIN ops).getc (std.hw dev)
        = (-env.EAGAIN, (n, st.hw dev)) := by
      simp [delay_ops, h3]
    rw [hp, hEd]
    rw [if_pos rfl]
    refine ih e1 fuel _ st r st1 (by omega)
      ⟨h1, h2, by simp [State.set_hw, State.emit], ?_, ?_⟩ h
    · simp only [State.emit, State.set_hw, wire_append, h4]
      simp [wire]
    · simp only [State.emit, State.set_hw, received_append, h5]
      simp [received]

theorem Delayed.set_mem {E : Int} {dev : Handle} {c : Nat} {std : State (Nat × σ)}
    {st : State σ} (h : Delayed E dev c std st) (addr b : Nat) :
    Delayed E dev c { std with mem := Function.update std.mem addr b }
      { st with mem := Function.update st.mem addr b } := by
  obtain ⟨h1, h2, h3, h4, h5⟩ := h
  exact ⟨h1, by simp [h2], h3, h4, h5⟩

theorem delay_env_ops (env : Env σ) (ops : dm_serial_ops σ) (dev : Handle)
    (hops : env.serial_get_ops dev = some ops) :
    (delay_env env).serial_get_ops dev = some (delay_ops env.EAGAIN ops) := by
  simp [delay_env, hops]

theorem serial_read_char_delayed (env : Env σ) (ops : dm_serial_ops σ) (dev : Handle)
    (hops : env.serial_get_ops dev = some ops) (c e fuel : Nat)
    (std : State (Nat × σ)) (st : State σ) (v : Int) (st1 : State σ) (he : c ≤ e)
    (hd : Delayed env.EAGAIN dev c std st)
    (h : serial_read_char env fuel dev st = some (v, st1)) :
    ∃ st1d, serial_read_char (delay_env env) (fuel + e) dev std = some (v, st1d) ∧
      Delayed env.EAGAIN dev 0 st1d st1 := by
  simp only [serial_read_char, hops, delay_env_ops env ops dev hops] at h ⊢
  cases hl : serial_read_char_loop env ops dev fuel st with
  | none => simp [hl] at h
  | some r =>
    obtain ⟨r1, st2⟩ := r
    simp only [hl, Option.some.injEq, Prod.mk.injEq] at h
    obtain ⟨st1d, hrun, hd1⟩ :=
      serial_read_char_loop_delayed env ops dev c e fuel std st r1 st2 he hd hl
    exact ⟨st1d, by simp [hrun, h.1], h.2 ▸ hd1⟩

theorem serial_write_char_delayed_plain (env : Env σ) (ops : dm_serial_ops σ) (dev : Handle)
    (hE : 0 < env.EAGAIN) (hops : env.serial_get_ops dev = some ops) (ch : Nat) (hch : ch ≠ 10)
    (c e fuel : Nat) (std : State (Nat × σ)) (st st1 : State σ) (he : c ≤ e)
    (hd : Delayed env.EAGAIN dev c std st)
    (h : serial_write_char env dev fuel ch st = some st1) :
    ∃ st1d, serial_write_char (delay_env env) dev (fuel + e) ch std = some st1d ∧
      Delayed env.EAGAIN dev 0 st1d st1 := by
  cases fuel with
  | zero => simp [serial_write_char] at h
  | succ f =>
    rw [show f + 1 + e = (f + e) + 1 by omega]
    simp only [serial_write_char, hops, delay_env_ops env ops dev hops, if_neg hch] at h ⊢
    have := serial_write_char_loop_delayed env ops dev hE ch c e (f + 1) std st st1 he hd h
    rwa [show f + 1 + e = (f + e) + 1 by omega] at this

theorem serial_write_char_delayed (env : Env σ) (ops : dm_serial_ops σ) (dev : Handle)
    (hE : 0 < env.EAGAIN) (hops : env.serial_get_ops dev = some ops) (ch : Nat)
    (c e fuel : Nat) (std : State (Nat × σ)) (st st1 : State σ) (he : c ≤ e)
    (hd : Delayed env.EAGAIN dev c std st)
    (h : serial_write_char env dev fuel ch st = some st1) :
    ∃ st1d, serial_write_char (delay_env env) dev (fuel + e) ch std = some st1d ∧
      Delayed env.EAGAIN dev 0 st1d st1 := by
  by_cases hch : ch = 10
  · subst hch
    cases fuel with
    | zero => simp [serial_write_char] at h
    | succ f =>
      rw [show f + 1 + e = (f + e) + 1 by omega]
      simp only [serial_write_char, hops, delay_env_ops env ops dev hops, if_true] at h ⊢
      cases hr : serial_write_char env dev f 13 st with
      | none => simp [hr] at h
      | some st2 =>
        simp only [hr] at h
        obtain ⟨st2d, hrun, hd2⟩ := serial_write_char_delayed_plain env ops dev hE hops 13
          (by decide) c e f std st st2 he hd hr
        simp only [hrun]
        have := serial_write_char_loop_delayed env ops dev hE 10 0 e (f + 1) st2d st2 st1
          (Nat.zero_le _) hd2 h
        rwa [show f + 1 + e = (f + e) + 1 by omega] at this
  · exact serial_write_char_delayed_plain env ops dev hE hops ch hch c e fuel std st st1 he hd h

theorem do_serial_read_loop_delayed (env : Env σ) (ops : dm_serial_ops σ) (dev : Handle)
    (hops : env.serial_get_ops dev = some ops) (e fuel : Nat) (n : Nat) :
    ∀ (memaddr c : Nat) (std : State (Nat × σ)) (st st1 : State σ), c ≤ e →
      Delayed env.EAGAIN dev c std st →
      do_serial_read_loop env fuel dev n memaddr st = some st1 →
      ∃ st1d c1, do_serial_read_loop (delay_env env) (fuel + e) dev n memaddr std = some st1d ∧
        c1 ≤ e ∧ Delayed env.EAGAIN dev c1 st1d st1 := by
  induction n with
  | zero =>
    intro memaddr c std st st1 he hd h
    simp only [do_serial_read_loop, Option.some.injEq] at h ⊢
    exact ⟨std, c, rfl, he, h ▸ hd⟩
  | succ m ih =>
    intro memaddr c std st st1 he hd h
    simp only [do_serial_read_loop] at h ⊢
    cases hr : serial_read_char env fuel dev st with
    | none => simp [hr] at h
    | some r =>
      obtain ⟨v, st2⟩ := r
      simp only [hr] at h
      obtain ⟨st2d, hrun, hd2⟩ :=
        serial_read_char_delayed env ops dev hops c e fuel std st v st2 he hd hr
      simp only [hrun]
      exact ih (memaddr + 1) 0 _ _ st1 (Nat.zero_le _) (hd2.set_mem memaddr (to_uchar v)) h

theorem do_serial_write_loop_delayed (env : Env σ) (ops : dm_serial_ops σ) (dev : Handle)
    (hE : 0 < env.EAGAIN) (hops : env.serial_get_ops dev = some ops) (e fuel : Nat) (n : Nat) :
    ∀ (memaddr c : Nat) (std : State (Nat × σ)) (st st1 : State σ), c ≤ e →
      Delayed env.EAGAIN dev c std st →
      do_serial_write_loop env fuel dev n memaddr st = some st1 →
      ∃ st1d c1, do_serial_write_loop (delay_env env) (fuel + e) dev n memaddr std = some st1d ∧
        c1 ≤ e ∧ Delayed env.EAGAIN dev c1 st1d st1 := by
  induction n with
  | zero =>
    intro memaddr c std st st1 he hd h
    simp only [do_serial_write_loop, Option.some.injEq] at h ⊢
    exact ⟨std, c, rfl, he, h ▸ hd⟩
  | succ m ih =>
    intro memaddr c std st st1 he hd h
    simp only [do_serial_write_loop] at h ⊢
    cases hr : serial_write_char env dev fuel (st.mem memaddr % 256) st with
    | none => simp [hr] at h
    | some st2 =>
      simp only [hr] at h
      obtain ⟨st2d, hrun, hd2⟩ := serial_write_char_delayed env ops dev hE hops
        (st.mem memaddr % 256) c e fuel std st st2 he hd hr
      rw [hd.2.1]
      simp only [hrun]
      exact ih (memaddr + 1) 0 _ _ st1 (Nat.zero_le _) hd2 h

theorem do_serial_read_delayed (env : Env σ) (ops : dm_serial_ops σ) (dev : Handle)
    (hops : env.serial_get_ops dev = some ops) (cmd a l : String) (c e fuel : Nat)
    (std : State (Nat × σ)) (st : State σ) (status : Int) (st1 : State σ) (he : c ≤ e)
    (hd : Delayed env.EAGAIN dev c std st) (hcur : st.serial_cur_dev = some dev)
    (h : do_serial_read env fuel [cmd, a, l] st = some (status, st1)) :
    ∃ st1d c1, do_serial_read (delay_env env) (fuel + e) [cmd, a, l] std = some (status, st1d) ∧
      Delayed env.EAGAIN dev c1 st1d st1 := by
  have hg := serial_get_cur_device_set env
    (st.emit (Event.printf (Msg.trying_to_read (ulong_to_uint (env.simple_strtoul l 16))))) dev hcur
  have hgd := serial_get_cur_device_set (delay_env env)
    (std.emit (Event.printf (Msg.trying_to_read (ulong_to_uint (env.simple_strtoul l 16))))) dev
    (hd.1.trans hcur)
  have hs : (delay_env env).simple_strtoul = env.simple_strtoul := rfl
  simp only [do_serial_read, List.length_cons, List.length_nil, List.getD_cons_succ,
    List.getD_cons_zero, hs] at h ⊢
  simp only [hg] at h
  simp only [hgd]
  simp only [Nat.reduceAdd, ne_eq, not_true_eq_false, if_false] at h ⊢
  cases hl : do_serial_read_loop env fuel dev (ulong_to_uint (env.simple_strtoul l 16))
      (env.simple_strtoul a 16)
      (st.emit (Event.printf (Msg.trying_to_read (ulong_to_uint (env.simple_strtoul l 16))))) with
  | none => simp [hl] at h
  | some st2 =>
    simp only [hl, Option.some.injEq, Prod.mk.injEq] at h
    obtain ⟨st2d, c1, hrun, _, hd2⟩ := do_serial_read_loop_delayed env ops dev hops e fuel _ _ c
      _ _ st2 he (hd.emit _) hl
    exact ⟨st2d, c1, by simp [hrun, h.1], h.2 ▸ hd2⟩

theorem do_serial_write_delayed (env : Env σ) (ops : dm_serial_ops σ) (dev : Handle)
    (hE : 0 < env.EAGAIN) (hops : env.serial_get_ops dev = some ops) (cmd a l : String)
    (c e fuel : Nat) (std : State (Nat × σ)) (st : State σ) (status : Int) (st1 : State σ)
    (he : c ≤ e) (hd : Delayed env.EAGAIN dev c std st) (hcur : st.serial_cur_dev = some dev)
    (h : do_serial_write env fuel [cmd, a, l] st = some (status, st1)) :
    ∃ st1d c1, do_serial_write (delay_env env) (fuel + e) [cmd, a, l] std = some (status, st1d) ∧
      Delayed env.EAGAIN dev c1 st1d st1 := by
  have hg := serial_get_cur_device_set env
    (st.emit (Event.printf (Msg.trying_to_write (ulong_to_uint (env.simple_strtoul l 16))))) dev hcur
  have hgd := serial_get_cur_device_set (delay_env env)
    (std.emit (Event.printf (Msg.trying_to_write (ulong_to_uint (env.simple_strtoul l 16))))) dev
    (hd.1.trans hcur)
  have hs : (delay_env env).simple_strtoul = env.simple_strtoul := rfl
  simp only [do_serial_write, List.length_cons, List.length_nil, List.getD_cons_succ,
    List.getD_cons_zero, hs] at h ⊢
  simp only [hg] at h
  simp only [hgd]
  simp only [Nat.reduceAdd, Nat.lt_irrefl, ne_eq, not_true_eq_false, if_false] at h ⊢
  cases hl : do_serial_write_loop env fuel dev (ulong_to_uint (env.simple_strtoul l 16))
      (env.simple_strtoul a 16)
      (st.emit (Event.printf (Msg.trying_to_write (ulong_to_uint (env.simple_strtoul l 16))))) with
  | none => simp [hl] at h
  | some st2 =>
    simp only [hl, Option.some.injEq, Prod.mk.injEq] at h
    obtain ⟨st2d, c1, hrun, _, hd2⟩ := do_serial_write_loop_delayed env ops dev hE hops e fuel _ _
      c _ _ st2 he (hd.emit _) hl
    exact ⟨st2d, c1, by simp [hrun, h.1], h.2 ▸ hd2⟩

/-! ## Devices that answer every poll at once -/

theorem immediate_yields (E : Int) (getc : σ → Int × σ)
    (himm : ∀ s, (getc s).1 ≠ -E) (n : Nat) :
    ∀ s, ∃ kbs s1, GetcYields E getc s kbs s1 ∧ kbs.length = n ∧ ∀ p ∈ kbs, p.1 = 0 := by
  induction n with
  | zero => exact fun s => ⟨[], s, GetcYields.nil s, rfl, by simp⟩
  | succ m ih =>
    intro s
    obtain ⟨kbs, s1, hy, hl, hp⟩ := ih (getc s).2
    refine ⟨(0, (getc s).1) :: kbs, s1,
      GetcYields.cons 0 s _ _ kbs s1 (Settles.done s (himm s)) hy, by simp [hl], ?_⟩
    intro p hp1
    rcases List.mem_cons.mp hp1 with rfl | h
    · rfl
    · exact hp p h

theorem do_serial_read_immediate (env : Env σ) (ops : dm_serial_ops σ) (dev : Handle)
    (hops : env.serial_get_ops dev = some ops) (cmd a l : String) (st : State σ)
    (hcur : st.serial_cur_dev = some dev) (himm : ∀ s, (ops.getc s).1 ≠ -env.EAGAIN) :
    ∃ st1, ∀ fuel, 1 ≤ fuel → do_serial_read env fuel [cmd, a, l] st = some (0, st1) := by
  obtain ⟨kbs, s1, hy, hl, hp⟩ :=
    immediate_yields env.EAGAIN ops.getc himm (ulong_to_uint (env.simple_strtoul l 16)) (st.hw dev)
  exact ⟨_, fun fuel hf => do_serial_read_yields env ops dev cmd a l st kbs s1 hops hcur hy hl
    fuel (fun p hp1 => by rw [hp p hp1]; exact hf)⟩

theorem serial_write_char_immediate (env : Env σ) (ops : dm_serial_ops σ) (dev : Handle)
    (hops : env.serial_get_ops dev = some ops)
    (himm : ∀ s ch, (ops.putc s ch).1 ≠ -env.EAGAIN) (ch : Nat) (st : State σ) :
    ∃ st1, ∀ fuel, 2 ≤ fuel → serial_write_char env dev fuel ch st = some st1 := by
  by_cases hch : ch = 10
  · subst hch
    exact ⟨_, fun fuel hf => serial_write_char_newline env ops dev hops
      (@Settles.done σ env.EAGAIN (fun x => ops.putc x 13) (st.hw dev) (himm _ 13))
      (@Settles.done σ env.EAGAIN (fun x => ops.putc x 10) _ (himm _ 10)) st fuel rfl
      (by omega) (by omega)⟩
  · exact ⟨_, fun fuel hf => serial_write_char_plain env ops dev hops ch hch
      (@Settles.done σ env.EAGAIN (fun x => ops.putc x ch) (st.hw dev) (himm _ ch)) st fuel rfl
      (by omega)⟩

theorem do_serial_write_loop_immediate (env : Env σ) (ops : dm_serial_ops σ) (dev : Handle)
    (hops : env.serial_get_ops dev = some ops)
    (himm : ∀ s ch, (ops.putc s ch).1 ≠ -env.EAGAIN) (n : Nat) :
    ∀ (memaddr : Nat) (st : State σ), ∃ st1, ∀ fuel, 2 ≤ fuel →
      do_serial_write_loop env fuel dev n memaddr st = some st1 := by
  induction n with
  | zero => exact fun memaddr st => ⟨st, fun fuel _ => rfl⟩
  | succ m ih =>
    intro memaddr st
    obtain ⟨st1, h1⟩ := serial_write_char_immediate env ops dev hops himm (st.mem memaddr % 256) st
    obtain ⟨st2, h2⟩ := ih (memaddr + 1) st1
    refine ⟨st2, fun fuel hf => ?_⟩
    simp only [do_serial_write_loop, h1 fuel hf]
    exact h2 fuel hf

theorem do_serial_write_immediate (env : Env σ) (ops : dm_serial_ops σ) (dev : Handle)
    (hops : env.serial_get_ops dev = some ops) (cmd a l : String) (st : State σ)
    (hcur : st.serial_cur_dev = some dev)
    (himm : ∀ s ch, (ops.putc s ch).1 ≠ -env.EAGAIN) :
    ∃ st1, ∀ fuel, 2 ≤ fuel → do_serial_write env fuel [cmd, a, l] st = some (0, st1) := by
  obtain ⟨st1, h1⟩ := do_serial_write_loop_immediate env ops dev hops himm
    (ulong_to_uint (env.simple_strtoul l 16)) (env.simple_strtoul a 16)
    (st.emit (Event.printf (Msg.trying_to_write (ulong_to_uint (env.simple_strtoul l 16)))))
  refine ⟨st1, fun fuel hf => ?_⟩
  have hg := serial_get_cur_device_set env
    (st.emit (Event.printf (Msg.trying_to_write (ulong_to_uint (env.simple_strtoul l 16))))) dev
    hcur
  simp only [do_serial_write, List.length_cons, List.length_nil, List.getD_cons_succ,
    List.getD_cons_zero]
  simp only [hg]
  simp [h1 fuel hf]

/-- C4 (retry absorption).  Let the current device answer every poll at once
(no get-byte or put-byte outcome is `-EAGAIN`), and let its double report
not-ready to the first `k` polls and then behave like it.  Then
`serial_read_char` returns the same value on both, `do_serial_read` returns 0 on
both and leaves the same memory and current device, and `do_serial_write`
returns 0 on both and puts the same bytes on the wire; the double needs `k` more
units of fuel. -/
theorem retry_absorption (env : Env σ) (ops : dm_serial_ops σ) (dev : Handle) (k : Nat)
    (cmd a l : String) (st : State σ)
    (hE : 0 < env.EAGAIN) (hops : env.serial_get_ops dev = some ops)
    (hcur : st.serial_cur_dev = some dev)
    (hget : ∀ s, (ops.getc s).1 ≠ -env.EAGAIN)
    (hput : ∀ s ch, (ops.putc s ch).1 ≠ -env.EAGAIN) :
    (∃ v st1, (∀ fuel, 1 ≤ fuel → serial_read_char env fuel dev st = some (v, st1)) ∧
      ∀ fuel, k + 1 ≤ fuel → ∃ st1d,
        serial_read_char (delay_env env) fuel dev (delay_state dev k st) = some (v, st1d) ∧
        st1d.mem = st1.mem ∧ st1d.serial_cur_dev = st1.serial_cur_dev ∧
        received env.EAGAIN dev st1d.trace = received env.EAGAIN dev st1.trace) ∧
    (∃ st1, (∀ fuel, 1 ≤ fuel → do_serial_read env fuel [cmd, a, l] st = some (0, st1)) ∧
      ∀ fuel, k + 1 ≤ fuel → ∃ st1d,
        do_serial_read (delay_env env) fuel [cmd, a, l] (delay_state dev k st) = some (0, st1d) ∧
        st1d.mem = st1.mem ∧ st1d.serial_cur_dev = st1.serial_cur_dev ∧
        received env.EAGAIN dev st1d.trace = received env.EAGAIN dev st1.trace) ∧
    (∃ st1, (∀ fuel, 2 ≤ fuel → do_serial_write env fuel [cmd, a, l] st = some (0, st1)) ∧
      ∀ fuel, k + 2 ≤ fuel → ∃ st1d,
        do_serial_write (delay_env env) fuel [cmd, a, l] (delay_state dev k st) = some (0, st1d) ∧
        st1d.mem = st1.mem ∧ st1d.serial_cur_dev = st1.serial_cur_dev ∧
        wire dev st1d.trace = wire dev st1.trace) := by
  have hd := delay_state_delayed env.EAGAIN dev k st
  refine ⟨?_, ?_, ?_⟩
  · have hb : ∀ fuel, 1 ≤ fuel → serial_read_char env fuel dev st = some _ := fun fuel hf =>
      serial_read_char_settles env ops dev hops (Settles.done (st.hw dev) (hget _)) st fuel rfl hf
    refine ⟨_, _, hb, fun fuel hf => ?_⟩
    obtain ⟨st1d, hrun, h1, h2, -, -, h5⟩ := serial_read_char_delayed env ops dev hops k
      (fuel - 1) 1 _ st _ _ (by omega) hd (hb 1 (le_refl _))
    rw [show 1 + (fuel - 1) = fuel by omega] at hrun
    exact ⟨st1d, hrun, h2, h1, h5⟩
  · obtain ⟨st1, hb⟩ := do_serial_read_immediate env ops dev hops cmd a l st hcur hget
    refine ⟨st1, hb, fun fuel hf => ?_⟩
    obtain ⟨st1d, c1, hrun, h1, h2, -, -, h5⟩ := do_serial_read_delayed env ops dev hops cmd a l k
      (fuel - 1) 1 _ st 0 st1 (by omega) hd hcur (hb 1 (le_refl _))
    rw [show 1 + (fuel - 1) = fuel by omega] at hrun
    exact ⟨st1d, hrun, h2, h1, h5⟩
  · obtain ⟨st1, hb⟩ := do_serial_write_immediate env ops dev hops cmd a l st hcur hput
    refine ⟨st1, hb, fun fuel hf => ?_⟩
    obtain ⟨st1d, c1, hrun, h1, h2, -, h4, -⟩ := do_serial_write_delayed env ops dev hE hops
      cmd a l k (fuel - 2) 2 _ st 0 st1 (by omega) hd hcur (hb 2 (le_refl _))
    rw [show 2 + (fuel - 2) = fuel by omega] at hrun
    exact ⟨st1d, hrun, h2, h1, h4⟩

/-- A counter device at 65 and its double with three pending not-ready polls:
reading two bytes to 0x1000 returns 0 and stores 65, 66 on both; writing the two
bytes 104, 10 returns 0 and puts 104, 13, 10 on the wire of both. -/
theorem retry_absorption_witness :
    (∃ st1, (∀ fuel, 1 ≤ fuel →
        do_serial_read (demo_env counter_ops) fuel ["read", "1000", "2"]
          (demo_state (some 101) (mem_of 4096 [104, 10]) 65) = some (0, st1)) ∧
      ∀ fuel, 3 + 1 ≤ fuel → ∃ st1d,
        do_serial_read (delay_env (demo_env counter_ops)) fuel ["read", "1000", "2"]
          (delay_state 101 3 (demo_state (some 101) (mem_of 4096 [104, 10]) 65))
          = some (0, st1d) ∧ st1d.mem = st1.mem) ∧
    (do_serial_read (demo_env counter_ops) 1 ["read", "1000", "2"]
      (demo_state (some 101) (mem_of 4096 [104, 10]) 65)).map
      (fun r => (r.1, mem_bytes r.2.mem 4096 2)) = some (0, [65, 66]) ∧
    (do_serial_read (delay_env (demo_env counter_ops)) 4 ["read", "1000", "2"]
      (delay_state 101 3 (demo_state (some 101) (mem_of 4096 [104, 10]) 65))).map
      (fun r => (r.1, mem_bytes r.2.mem 4096 2)) = some (0, [65, 66]) ∧
    (do_serial_write (demo_env counter_ops) 2 ["write", "1000", "2"]
      (demo_state (some 101) (mem_of 4096 [104, 10]) 65)).map
      (fun r => (r.1, wire 101 r.2.trace)) = some (0, [104, 13, 10]) ∧
    (do_serial_write (delay_env (demo_env counter_ops)) 5 ["write", "1000", "2"]
      (delay_state 101 3 (demo_state (some 101) (mem_of 4096 [104, 10]) 65))).map
      (fun r => (r.1, wire 101 r.2.trace)) = some (0, [104, 13, 10]) := by
  obtain ⟨-, ⟨st1, hb, hdel⟩, -⟩ :=
    retry_absorption (demo_env counter_ops) counter_ops 101 3 "read" "1000" "2"
      (demo_state (some 101) (mem_of 4096 [104, 10]) 65) (by decide) rfl rfl
      (fun s => by
        show ((s % 256 : Nat) : Int) ≠ -11
        omega)
      (fun _ _ => show (0 : Int) ≠ -11 by decide)
  refine ⟨⟨st1, hb, fun fuel hf => ?_⟩, by decide, by decide, by decide, by decide⟩
  obtain ⟨st1d, h1, h2, -, -⟩ := hdel fuel hf
  exact ⟨st1d, h1, h2⟩

/-! ## Round trip through a loopback device -/

theorem do_serial_write_loop_loopback (env : Env (List Nat)) (dev : Handle)
    (hE : 0 < env.EAGAIN) (hops : env.serial_get_ops dev = some (loopback_ops env.EAGAIN))
    (n : Nat) :
    ∀ (memaddr : Nat) (st : State (List Nat)), (∀ c ∈ mem_bytes st.mem memaddr n, c ≠ 10) →
      ∃ st1, (∀ fuel, 1 ≤ fuel → do_serial_write_loop env fuel dev n memaddr st = some st1) ∧
        st1.hw dev = st.hw dev ++ mem_bytes st.mem memaddr n ∧
        st1.mem = st.mem ∧ st1.serial_cur_dev = st.serial_cur_dev := by
  induction n with
  | zero =>
    intro memaddr st _
    exact ⟨st, fun fuel _ => rfl, by simp [mem_bytes], rfl, rfl⟩
  | succ m ih =>
    intro memaddr st hnl
    rw [mem_bytes_succ] at hnl
    have hch : st.mem memaddr % 256 ≠ 10 := hnl _ (List.mem_cons_self _ _)
    have hset : Settles env.EAGAIN (fun x => (loopback_ops env.EAGAIN).putc x (st.mem memaddr % 256))
        0 (st.hw dev) 0 (st.hw dev ++ [st.mem memaddr % 256]) :=
      @Settles.done (List Nat) env.EAGAIN
        (fun x => (loopback_ops env.EAGAIN).putc x (st.mem memaddr % 256)) (st.hw dev)
        (by simp [loopback_ops]; omega)
    have h1 := fun fuel (hf : 1 ≤ fuel) => serial_write_char_plain env (loopback_ops env.EAGAIN)
      dev hops (st.mem memaddr % 256) hch hset st fuel rfl hf
    obtain ⟨st2, h2, hw2, hm2, hc2⟩ := ih (memaddr + 1) _
      (show ∀ c ∈ mem_bytes ({ st with
          hw := Function.update st.hw dev (st.hw dev ++ [st.mem memaddr % 256])
          trace := st.trace ++ putc_events env.EAGAIN dev (st.mem memaddr % 256) 0 0 }
          : State (List Nat)).mem (memaddr + 1) m, c ≠ 10
        from fun c hc => hnl c (List.mem_cons_of_mem _ hc))
    refine ⟨st2, fun fuel hf => ?_, ?_, hm2, hc2⟩
    · simp only [do_serial_write_loop, h1 fuel hf]
      exact h2 fuel hf
    · rw [hw2, mem_bytes_succ]
      simp

theorem loopback_yields (E : Int) (hE : 0 < E) (bs : List Nat) :
    GetcYields E (loopback_ops E).getc bs (bs.map fun (b : Nat) => ((0, (b : Int)) : Nat × Int))
      [] := by
  induction bs with
  | nil => exact GetcYields.nil []
  | cons b bs ih =>
    exact GetcYields.cons 0 (b :: bs) (b : Int) bs _ []
      (@Settles.done (List Nat) E (loopback_ops E).getc (b :: bs)
        (by simp [loopback_ops]; omega)) ih

theorem stored_byte_of_byte (b : Nat) (hb : b < 256) : stored_byte (b : Int) = b := by
  have h0 : (b : Int) ≥ 0 := by omega
  simp only [stored_byte, to_uchar, h0, if_true]
  omega

theorem mem_bytes_store_bytes (mem : Nat → Nat) (addr : Nat) (bs : List Nat)
    (hb : ∀ b ∈ bs, b < 256) :
    mem_bytes (store_bytes mem addr bs) addr bs.length = bs := by
  apply List.ext_getElem
  · simp [mem_bytes]
  · intro i h1 h2
    simp only [mem_bytes, List.getElem_map, List.getElem_range]
    have := store_bytes_inside bs mem addr i h2
    rw [this, List.get_eq_getElem]
    exact Nat.mod_eq_of_lt (hb _ (List.getElem_mem _))

theorem mem_bytes_lt (mem : Nat → Nat) (addr n : Nat) : ∀ b ∈ mem_bytes mem addr n, b < 256 := by
  intro b hb
  simp only [mem_bytes, List.mem_map] at hb
  obtain ⟨i, -, rfl⟩ := hb
  exact Nat.mod_lt _ (by decide)

theorem mem_bytes_length (mem : Nat → Nat) (addr n : Nat) : (mem_bytes mem addr n).length = n := by
  simp [mem_bytes]

/-- C5 (write/read round trip).  With a loopback device (empty FIFO) as current
device and a memory region of `N` bytes none of which is the line feed,
`do_serial_write` of the region followed by `do_serial_read` of `N` bytes to any
address both return 0 (with any fuel of at least one), and the bytes read back
are the original bytes in the original order. -/
theorem write_read_round_trip (env : Env (List Nat)) (dev : Handle)
    (cmd1 cmd2 a b l : String) (st : State (List Nat))
    (hE : 0 < env.EAGAIN) (hops : env.serial_get_ops dev = some (loopback_ops env.EAGAIN))
    (hcur : st.serial_cur_dev = some dev) (hfifo : st.hw dev = [])
    (hnl : ∀ c ∈ mem_bytes st.mem (env.simple_strtoul a 16)
      (ulong_to_uint (env.simple_strtoul l 16)), c ≠ 10) :
    ∃ st1 st2,
      (∀ fuel, 1 ≤ fuel → do_serial_write env fuel [cmd1, a, l] st = some (0, st1)) ∧
      (∀ fuel, 1 ≤ fuel → do_serial_read env fuel [cmd2, b, l] st1 = some (0, st2)) ∧
      mem_bytes st2.mem (env.simple_strtoul b 16) (ulong_to_uint (env.simple_strtoul l 16))
        = mem_bytes st.mem (env.simple_strtoul a 16) (ulong_to_uint (env.simple_strtoul l 16)) := by
  obtain ⟨st1, hw, hfifo1, hm1, hc1⟩ := do_serial_write_loop_loopback env dev hE hops
    (ulong_to_uint (env.simple_strtoul l 16)) (env.simple_strtoul a 16)
    (st.emit (Event.printf (Msg.trying_to_write (ulong_to_uint (env.simple_strtoul l 16))))) hnl
  have hfifo2 : st1.hw dev = mem_bytes st.mem (env.simple_strtoul a 16)
      (ulong_to_uint (env.simple_strtoul l 16)) := by
    rw [hfifo1]
    simp [State.emit, hfifo]
  have hy := loopback_yields env.EAGAIN hE (mem_bytes st.mem (env.simple_strtoul a 16)
    (ulong_to_uint (env.simple_strtoul l 16)))
  rw [← hfifo2] at hy
  have hr := fun fuel (hf : 1 ≤ fuel) => do_serial_read_yields env (loopback_ops env.EAGAIN) dev
    cmd2 b l st1 _ [] hops (hc1.trans hcur) hy (by simp [hfifo2, mem_bytes_length]) fuel
    (fun p hp => by
      simp only [List.mem_map] at hp
      obtain ⟨c, -, rfl⟩ := hp
      exact hf)
  refine ⟨st1, _, fun fuel hf => ?_, hr, ?_⟩
  · have hg := serial_get_cur_device_set env
      (st.emit (Event.printf (Msg.trying_to_write (ulong_to_uint (env.simple_strtoul l 16)))))
      dev hcur
    simp only [do_serial_write, List.length_cons, List.length_nil, List.getD_cons_succ,
      List.getD_cons_zero]
    simp only [hg]
    simp [hw fuel hf]
  · simp only [List.map_map]
    have hmap : (List.map ((fun p : Nat × Int => stored_byte p.2) ∘ fun b : Nat => (0, (b : Int)))
        (st1.hw dev)) = st1.hw dev := by
      rw [hfifo2]
      have : ∀ c ∈ mem_bytes st.mem (env.simple_strtoul a 16)
          (ulong_to_uint (env.simple_strtoul l 16)),
          ((fun p : Nat × Int => stored_byte p.2) ∘ fun b : Nat => (0, (b : Int))) c = c :=
        fun c hc => stored_byte_of_byte c (mem_bytes_lt _ _ _ c hc)
      conv_rhs => rw [← List.map_id (mem_bytes st.mem (env.simple_strtoul a 16)
        (ulong_to_uint (env.simple_strtoul l 16)))]
      exact List.map_congr_left this
    rw [hmap]
    have hlen : (st1.hw dev).length = ulong_to_uint (env.simple_strtoul l 16) := by
      rw [hfifo2, mem_bytes_length]
    have := mem_bytes_store_bytes st1.mem (env.simple_strtoul b 16) (st1.hw dev)
      (by rw [hfifo2]; exact mem_bytes_lt _ _ _)
    rw [hlen] at this
    rw [this, hfifo2]

/-- The bytes 0, 255, 13, 65 written from 0x1000 to a loopback device and read
back to 0x2000 arrive unchanged and in order; both commands return 0. -/
theorem write_read_round_trip_witness :
    (∃ st1 st2,
      (∀ fuel, 1 ≤ fuel →
        do_serial_write (demo_env (loopback_ops 11)) fuel ["write", "1000", "4"]
          (demo_state (some 101) (mem_of 4096 [0, 255, 13, 65]) []) = some (0, st1)) ∧
      (∀ fuel, 1 ≤ fuel →
        do_serial_read (demo_env (loopback_ops 11)) fuel ["read", "2000", "4"] st1
          = some (0, st2)) ∧
      mem_bytes st2.mem 8192 4 = [0, 255, 13, 65]) ∧
    ((do_serial_write (demo_env (loopback_ops 11)) 1 ["write", "1000", "4"]
      (demo_state (some 101) (mem_of 4096 [0, 255, 13, 65]) [])).bind
      (fun r => do_serial_read (demo_env (loopback_ops 11)) 1 ["read", "2000", "4"] r.2)).map
      (fun r => (r.1, mem_bytes r.2.mem 8192 4)) = some (0, [0, 255, 13, 65]) := by
  obtain ⟨st1, st2, h1, h2, h3⟩ :=
    write_read_round_trip (demo_env (loopback_ops 11)) 101 "write" "read" "1000" "2000" "4"
      (demo_state (some 101) (mem_of 4096 [0, 255, 13, 65]) []) (by decide) rfl rfl rfl
      (by decide)
  have hv : mem_bytes (demo_state (some 101) (mem_of 4096 [0, 255, 13, 65])
      ([] : List Nat)).mem ((demo_env (loopback_ops 11)).simple_strtoul "1000" 16)
      (ulong_to_uint ((demo_env (loopback_ops 11)).simple_strtoul "4" 16))
      = [0, 255, 13, 65] := by decide
  have ha : (demo_env (loopback_ops 11)).simple_strtoul "2000" 16 = 8192 := by decide
  have hl : ulong_to_uint ((demo_env (loopback_ops 11)).simple_strtoul "4" 16) = 4 := by decide
  rw [hv, ha, hl] at h3
  exact ⟨⟨st1, st2, h1, h2, h3⟩, by decide⟩

/-! ## Device selection -/

theorem serial_configure_frame (env : Env σ) (dev : Handle) (st : State σ) :
    (serial_configure env dev st).2.serial_cur_dev = st.serial_cur_dev ∧
    (serial_configure env dev st).2.mem = st.mem ∧
    ∃ evs, (serial_configure env dev st).2.trace = st.trace ++ evs ∧ lookups evs = [] := by
  unfold serial_configure
  cases env.serial_get_ops dev with
  | none => exact ⟨rfl, rfl, [], by simp, rfl⟩
  | some ops =>
    simp only []
    split
    · exact ⟨rfl, rfl,
        [Event.setconfig dev env.SERIAL_DEFAULT_CONFIG
            (ops.setconfig (st.hw dev) env.SERIAL_DEFAULT_CONFIG).1,
          Event.printf (Msg.setconfig_failed
            (ops.setconfig (st.hw dev) env.SERIAL_DEFAULT_CONFIG).1)],
        by simp [State.emit, State.set_hw], rfl⟩
    · split
      · exact ⟨rfl, rfl,
          [Event.setconfig dev env.SERIAL_DEFAULT_CONFIG
              (ops.setconfig (st.hw dev) env.SERIAL_DEFAULT_CONFIG).1,
            Event.setbrg dev 115200
              (ops.setbrg (ops.setconfig (st.hw dev) env.SERIAL_DEFAULT_CONFIG).2 115200).1,
            Event.printf (Msg.setbrg_failed
              (ops.setbrg (ops.setconfig (st.hw dev) env.SERIAL_DEFAULT_CONFIG).2 115200).1)],
          by simp [State.emit, State.set_hw], rfl⟩
      · exact ⟨rfl, rfl,
          [Event.setconfig dev env.SERIAL_DEFAULT_CONFIG
              (ops.setconfig (st.hw dev) env.SERIAL_DEFAULT_CONFIG).1,
            Event.setbrg dev 115200
              (ops.setbrg (ops.setconfig (st.hw dev) env.SERIAL_DEFAULT_CONFIG).2 115200).1],
          by simp [State.emit, State.set_hw], rfl⟩

theorem serial_set_dev_num_found (env : Env σ) (st : State σ) (n : Nat) (h : Handle)
    (hreg : env.uclass_get_device_by_seq n = (0, h)) :
    (serial_set_dev_num env n st).1 = 0 ∧
    (serial_set_dev_num env n st).2.serial_cur_dev = some h ∧
    (serial_set_dev_num env n st).2.mem = st.mem ∧
    ∃ evs, (serial_set_dev_num env n st).2.trace = st.trace ++ Event.lookup n 0 :: evs ∧
      lookups evs = [] := by
  obtain ⟨h1, h2, evs, h3, h4⟩ := serial_configure_frame env h
    ({ st.emit (Event.lookup n 0) with serial_cur_dev := some h })
  have e : serial_set_dev_num env n st = (0, (serial_configure env h
      ({ st.emit (Event.lookup n 0) with serial_cur_dev := some h })).2) := by
    simp [serial_set_dev_num, hreg]
  rw [e]
  refine ⟨rfl, h1, h2, evs, ?_, h4⟩
  rw [h3]
  simp [State.emit]

theorem serial_set_dev_num_not_found (env : Env σ) (st : State σ) (n : Nat)
    (hfail : (env.uclass_get_device_by_seq n).1 ≠ 0) :
    serial_set_dev_num env n st
      = ((env.uclass_get_device_by_seq n).1,
        st.emit (Event.lookup n (env.uclass_get_device_by_seq n).1)) := by
  simp [serial_set_dev_num, hfail]

/-- C6 (default resolution happens once).  From the unset state with a device
registered at the default ordinal 1, `serial_get_cur_device` returns 0 with that
device, stores it as current and makes exactly one registry lookup (of ordinal
1); any later call, as long as that device is current, returns the same handle
and leaves the whole state, trace included, unchanged: no lookup and no
configuration call is made. -/
theorem default_resolution_once (env : Env σ) (st : State σ) (h : Handle)
    (hunset : st.serial_cur_dev = none)
    (hreg : env.uclass_get_device_by_seq DEFAULT_SERIAL_DEVICE = (0, h)) :
    (serial_get_cur_device env st).1 = 0 ∧
    (serial_get_cur_device env st).2.1 = some h ∧
    (serial_get_cur_device env st).2.2.serial_cur_dev = some h ∧
    lookups (serial_get_cur_device env st).2.2.trace = lookups st.trace ++ [1] ∧
    serial_get_cur_device env (serial_get_cur_device env st).2.2
      = (0, some h, (serial_get_cur_device env st).2.2) ∧
    ∀ st1 : State σ, st1.serial_cur_dev = some h →
      serial_get_cur_device env st1 = (0, some h, st1) := by
  obtain ⟨h1, h2, -, evs, h4, h5⟩ := serial_set_dev_num_found env st DEFAULT_SERIAL_DEVICE h hreg
  have hfirst : serial_get_cur_device env st
      = (0, some h, (serial_set_dev_num env DEFAULT_SERIAL_DEVICE st).2) := by
    simp [serial_get_cur_device, serial_get_cur_device_tail, hunset, h1, h2]
  rw [hfirst]
  refine ⟨rfl, rfl, h2, ?_, serial_get_cur_device_set env _ h h2,
    fun st1 hst1 => serial_get_cur_device_set env st1 h hst1⟩
  simp only [h4]
  have : lookups (st.trace ++ Event.lookup DEFAULT_SERIAL_DEVICE 0 :: evs)
      = lookups st.trace ++ (1 :: lookups evs) := by
    simp [lookups, List.filterMap_append, List.filterMap_cons, DEFAULT_SERIAL_DEVICE]
  rw [this, h5]

/-- No prior selection, device 101 at ordinal 1: the first resolution returns
it after one lookup, the second one returns it again without any new event. -/
theorem default_resolution_once_witness :
    ((serial_get_cur_device (demo_env (config_ops 0 0)) (demo_state none (fun _ => 0) ())).1 = 0 ∧
      (serial_get_cur_device (demo_env (config_ops 0 0)) (demo_state none (fun _ => 0) ())).2.1
        = some 101 ∧
      serial_get_cur_device (demo_env (config_ops 0 0))
        (serial_get_cur_device (demo_env (config_ops 0 0)) (demo_state none (fun _ => 0) ())).2.2
        = (0, some 101,
          (serial_get_cur_device (demo_env (config_ops 0 0))
            (demo_state none (fun _ => 0) ())).2.2)) ∧
    (serial_get_cur_device (demo_env (config_ops 0 0)) (demo_state none (fun _ => 0) ())).2.2.trace
      = [Event.lookup 1 0, Event.setconfig 101 28 0, Event.setbrg 101 115200 0] ∧
    (serial_get_cur_device (demo_env (config_ops 0 0))
      (serial_get_cur_device (demo_env (config_ops 0 0))
        (demo_state none (fun _ => 0) ())).2.2).2.2.trace
      = [Event.lookup 1 0, Event.setconfig 101 28 0, Event.setbrg 101 115200 0] := by
  obtain ⟨h1, h2, -, -, h5, -⟩ :=
    default_resolution_once (demo_env (config_ops 0 0)) (demo_state none (fun _ => 0) ()) 101
      rfl rfl
  exact ⟨⟨h1, h2, h5⟩, by decide, by decide⟩

/-- C7 (NotFound mutates nothing).  When the registry lookup of ordinal `n`
fails, `serial_set_dev_num n` returns the non-zero code of the lookup and the
only change of the state is the lookup itself in the trace: the current-device
reference, memory and every driver state are as before and no configuration
call is made.  In particular, with no prior selection and no device at
the default ordinal, `serial_get_cur_device` returns `-ENODEV`, stores no device
and leaves the reference unset, again without any configuration call. -/
theorem not_found_mutates_nothing (env : Env σ) (st : State σ) (n : Nat)
    (hfail : (env.uclass_get_device_by_seq n).1 ≠ 0) :
    (serial_set_dev_num env n st).1 ≠ 0 ∧
    (serial_set_dev_num env n st).2
      = { st with trace := st.trace ++ [Event.lookup n (env.uclass_get_device_by_seq n).1] } ∧
    config_calls (serial_set_dev_num env n st).2.trace = config_calls st.trace ∧
    (n = DEFAULT_SERIAL_DEVICE → st.serial_cur_dev = none →
      (serial_get_cur_device env st).1 = -env.ENODEV ∧
      (serial_get_cur_device env st).2.1 = none ∧
      (serial_get_cur_device env st).2.2.serial_cur_dev = none ∧
      (serial_get_cur_device env st).2.2.mem = st.mem ∧
      (serial_get_cur_device env st).2.2.hw = st.hw ∧
      config_calls (serial_get_cur_device env st).2.2.trace = config_calls st.trace) := by
  have e := serial_set_dev_num_not_found env st n hfail
  refine ⟨by rw [e]; exact hfail, by rw [e]; rfl, ?_, ?_⟩
  · rw [e]
    simp [State.emit, config_calls, List.filter_append]
  · intro hn hunset
    subst hn
    have hg : serial_get_cur_device env st
        = (-env.ENODEV, none,
          (st.emit (Event.lookup DEFAULT_SERIAL_DEVICE
            (env.uclass_get_device_by_seq DEFAULT_SERIAL_DEVICE).1)).emit
            (Event.printf (Msg.default_not_found DEFAULT_SERIAL_DEVICE))) := by
      simp [serial_get_cur_device, hunset, e, hfail]
    rw [hg]
    refine ⟨rfl, rfl, hunset, rfl, rfl, ?_⟩
    simp [State.emit, config_calls, List.filter_append]

/-- Ordinal 7 is not registered: selecting it while device 102 is current
returns -19 and keeps 102; with nothing selected and no device at ordinal 1,
`serial_get_cur_device` returns -19 and the reference stays unset. -/
theorem not_found_mutates_nothing_witness :
    ((serial_set_dev_num (demo_env (config_ops 0 0)) 7 (demo_state (some 102) (fun _ => 0) ())).1
        ≠ 0 ∧
      (serial_set_dev_num (demo_env (config_ops 0 0)) 7
        (demo_state (some 102) (fun _ => 0) ())).2.serial_cur_dev = some 102) ∧
    ((serial_get_cur_device (demo_env_no_default (config_ops 0 0))
        (demo_state none (fun _ => 0) ())).1 = -19 ∧
      (serial_get_cur_device (demo_env_no_default (config_ops 0 0))
        (demo_state none (fun _ => 0) ())).2.2.serial_cur_dev = none) ∧
    (serial_set_dev_num (demo_env (config_ops 0 0)) 7
      (demo_state (some 102) (fun _ => 0) ())).2.trace = [Event.lookup 7 (-19)] ∧
    (serial_get_cur_device (demo_env_no_default (config_ops 0 0))
      (demo_state none (fun _ => 0) ())).2.2.trace
      = [Event.lookup 1 (-19), Event.printf (Msg.default_not_found 1)] := by
  obtain ⟨h1, h2, -, -⟩ := not_found_mutates_nothing (demo_env (config_ops 0 0))
    (demo_state (some 102) (fun _ => 0) ()) 7 (by decide)
  obtain ⟨-, -, -, h4⟩ := not_found_mutates_nothing (demo_env_no_default (config_ops 0 0))
    (demo_state none (fun _ => 0) ()) 1 (by decide)
  obtain ⟨g1, -, g3, -⟩ := h4 rfl rfl
  exact ⟨⟨h1, by rw [h2]; rfl⟩, ⟨g1, g3⟩, by decide, by decide⟩

/-- C8 (configuration failure does not block selection).  When the registry
resolves ordinal `n` to the handle `h`, `serial_set_dev_num n` returns 0 and
leaves `h` as the current device, whatever `serial_configure` returns on `h`
(0, or -1 because `setconfig` or `setbrg` failed) and whatever was selected
before. -/
theorem config_failure_does_not_block_selection (env : Env σ) (st : State σ) (n : Nat)
    (h : Handle) (hreg : env.uclass_get_device_by_seq n = (0, h)) :
    (serial_set_dev_num env n st).1 = 0 ∧
    (serial_set_dev_num env n st).2.serial_cur_dev = some h ∧
    (serial_set_dev_num env n st).2
      = (serial_configure env h
          { st with serial_cur_dev := some h, trace := st.trace ++ [Event.lookup n 0] }).2 := by
  obtain ⟨h1, h2, -, -⟩ := serial_set_dev_num_found env st n h hreg
  refine ⟨h1, h2, ?_⟩
  simp [serial_set_dev_num, hreg, State.emit]

/-- Selecting ordinal 2 over a prior selection of 101 returns 0 and makes 102
current when `setconfig` fails (-5), when `setbrg` fails (-5) and when both
succeed; in the first two cases `serial_configure` itself returns -1. -/
theorem config_failure_does_not_block_selection_witness :
    ((serial_set_dev_num (demo_env (config_ops (-5) 0)) 2
        (demo_state (some 101) (fun _ => 0) ())).1 = 0 ∧
      (serial_set_dev_num (demo_env (config_ops (-5) 0)) 2
        (demo_state (some 101) (fun _ => 0) ())).2.serial_cur_dev = some 102) ∧
    ((serial_set_dev_num (demo_env (config_ops 0 (-5))) 2
        (demo_state (some 101) (fun _ => 0) ())).1 = 0 ∧
      (serial_set_dev_num (demo_env (config_ops 0 (-5))) 2
        (demo_state (some 101) (fun _ => 0) ())).2.serial_cur_dev = some 102) ∧
    ((serial_set_dev_num (demo_env (config_ops 0 0)) 2
        (demo_state (some 101) (fun _ => 0) ())).1 = 0 ∧
      (serial_set_dev_num (demo_env (config_ops 0 0)) 2
        (demo_state (some 101) (fun _ => 0) ())).2.serial_cur_dev = some 102) ∧
    (serial_configure (demo_env (config_ops (-5) 0)) 102 (demo_state (some 102) (fun _ => 0) ())).1
      = -1 ∧
    (serial_configure (demo_env (config_ops 0 (-5))) 102 (demo_state (some 102) (fun _ => 0) ())).1
      = -1 ∧
    (serial_set_dev_num (demo_env (config_ops (-5) 0)) 2
      (demo_state (some 101) (fun _ => 0) ())).2.trace
      = [Event.lookup 2 0, Event.setconfig 102 28 (-5),
        Event.printf (Msg.setconfig_failed (-5))] := by
  have a := config_failure_does_not_block_selection (demo_env (config_ops (-5) 0))
    (demo_state (some 101) (fun _ => 0) ()) 2 102 rfl
  have b := config_failure_does_not_block_selection (demo_env (config_ops 0 (-5)))
    (demo_state (some 101) (fun _ => 0) ()) 2 102 rfl
  have c := config_failure_does_not_block_selection (demo_env (config_ops 0 0))
    (demo_state (some 101) (fun _ => 0) ()) 2 102 rfl
  exact ⟨⟨a.1, a.2.1⟩, ⟨b.1, b.2.1⟩, ⟨c.1, c.2.1⟩, by decide, by decide, by decide⟩

/-! ## The `dev` command -/

theorem do_serial_dev_num_query_set (env : Env σ) (st : State σ) (cmd : String) (d : Handle)
    (hcur : st.serial_cur_dev = some d) :
    do_serial_dev_num env [cmd] st
      = some (0, st.emit (Event.printf (Msg.current_port (env.seq d)))) := by
  simp [do_serial_dev_num, serial_get_cur_device_set env st d hcur]

/-- C9 (selection overwrite).  When the ordinals `A` and `B` are both
registered, and the handle of `B` carries the sequence number `B`, selecting
`A` and then `B` with `serial_set_dev_num` succeeds twice and leaves the handle of
`B` as current device; the no-argument `dev` query that follows prints
`B` as current port, returns 0 and changes nothing else. -/
theorem selection_overwrite (env : Env σ) (st : State σ) (A B : Nat) (hA hB : Handle)
    (cmd : String)
    (hregA : env.uclass_get_device_by_seq A = (0, hA))
    (hregB : env.uclass_get_device_by_seq B = (0, hB))
    (hseq : env.seq hB = (B : Int)) :
    (serial_set_dev_num env A st).1 = 0 ∧
    (serial_set_dev_num env A st).2.serial_cur_dev = some hA ∧
    (serial_set_dev_num env B (serial_set_dev_num env A st).2).1 = 0 ∧
    (serial_set_dev_num env B (serial_set_dev_num env A st).2).2.serial_cur_dev = some hB ∧
    do_serial_dev_num env [cmd] (serial_set_dev_num env B (serial_set_dev_num env A st).2).2
      = some (0, (serial_set_dev_num env B (serial_set_dev_num env A st).2).2.emit
          (Event.printf (Msg.current_port (B : Int)))) := by
  obtain ⟨a1, a2, -, -⟩ := serial_set_dev_num_found env st A hA hregA
  obtain ⟨b1, b2, -, -⟩ :=
    serial_set_dev_num_found env (serial_set_dev_num env A st).2 B hB hregB
  refine ⟨a1, a2, b1, b2, ?_⟩
  rw [do_serial_dev_num_query_set env _ cmd hB b2, hseq]

/-- Select ordinal 1, then ordinal 2: device 102 is current and the query
prints "Current serial port is 2" and returns 0. -/
theorem selection_overwrite_witness :
    ((serial_set_dev_num (demo_env (config_ops 0 0)) 2
        (serial_set_dev_num (demo_env (config_ops 0 0)) 1
          (demo_state none (fun _ => 0) ())).2).2.serial_cur_dev = some 102 ∧
      do_serial_dev_num (demo_env (config_ops 0 0)) ["dev"]
        (serial_set_dev_num (demo_env (config_ops 0 0)) 2
          (serial_set_dev_num (demo_env (config_ops 0 0)) 1
            (demo_state none (fun _ => 0) ())).2).2
        = some (0, (serial_set_dev_num (demo_env (config_ops 0 0)) 2
            (serial_set_dev_num (demo_env (config_ops 0 0)) 1
              (demo_state none (fun _ => 0) ())).2).2.emit
            (Event.printf (Msg.current_port 2)))) ∧
    (do_serial_dev_num (demo_env (config_ops 0 0)) ["dev"]
      (serial_set_dev_num (demo_env (config_ops 0 0)) 2
        (serial_set_dev_num (demo_env (config_ops 0 0)) 1
          (demo_state none (fun _ => 0) ())).2).2).map
      (fun r => (r.1, r.2.serial_cur_dev, r.2.trace.getLast?))
      = some (0, some 102, some (Event.printf (Msg.current_port 2))) := by
  obtain ⟨-, -, -, h4, h5⟩ := selection_overwrite (demo_env (config_ops 0 0))
    (demo_state none (fun _ => 0) ()) 1 2 101 102 "dev" rfl rfl (by decide)
  exact ⟨⟨h4, h5⟩, by decide⟩

/-- C10, as stated, fails: with no prior selection and device 101 registered at
the default ordinal 1, the no-argument `dev` query makes device 101 current
(the reference changes from unset to 101) and prints 1, not -1. -/
theorem dev_query_resolves_default_counterexample :
    (demo_state none (fun _ => 0) ()).serial_cur_dev = none ∧
    (do_serial_dev_num (demo_env (config_ops 0 0)) ["dev"]
      (demo_state none (fun _ => 0) ())).map
      (fun r => (r.1, r.2.serial_cur_dev, r.2.trace))
      = some (0, some 101,
          [Event.lookup 1 0, Event.setconfig 101 28 0, Event.setbrg 101 115200 0,
            Event.printf (Msg.current_port 1)]) ∧
    ¬ ∃ st1, do_serial_dev_num (demo_env (config_ops 0 0)) ["dev"]
        (demo_state none (fun _ => 0) ()) = some (0, st1) ∧
      st1.serial_cur_dev = (demo_state none (fun _ => 0) ()).serial_cur_dev := by
  refine ⟨rfl, by decide, ?_⟩
  rintro ⟨st1, h1, h2⟩
  have h3 : (do_serial_dev_num (demo_env (config_ops 0 0)) ["dev"]
      (demo_state none (fun _ => 0) ())).map (fun r => r.2.serial_cur_dev) = some (some 101) := by
    decide
  rw [h1] at h3
  simp only [Option.map_some', Option.some.injEq] at h3
  rw [h2] at h3
  exact absurd h3 (by decide)

/-- C10, amended (`ENODEV` is not zero).  The no-argument `dev` query always
returns 0.  When a device
is current it prints the sequence number of that device and only adds this
message to the trace (the reference is unchanged).  When the reference is unset
it resolves the default ordinal 1 first: if the lookup fails it prints -1 and
the reference stays unset; if the lookup finds the handle `h`, that device
becomes current and its sequence number is printed. -/
theorem dev_query_display (env : Env σ) (st : State σ) (cmd : String)
    (hnodev : env.ENODEV ≠ 0) :
    (∀ d, st.serial_cur_dev = some d →
      do_serial_dev_num env [cmd] st
        = some (0, st.emit (Event.printf (Msg.current_port (env.seq d))))) ∧
    (st.serial_cur_dev = none → (env.uclass_get_device_by_seq DEFAULT_SERIAL_DEVICE).1 ≠ 0 →
      do_serial_dev_num env [cmd] st
        = some (0, { st with trace := st.trace ++
            [Event.lookup DEFAULT_SERIAL_DEVICE (env.uclass_get_device_by_seq DEFAULT_SERIAL_DEVICE).1,
              Event.printf (Msg.default_not_found DEFAULT_SERIAL_DEVICE),
              Event.printf (Msg.current_port (-1))] })) ∧
    (∀ h, st.serial_cur_dev = none → env.uclass_get_device_by_seq DEFAULT_SERIAL_DEVICE = (0, h) →
      do_serial_dev_num env [cmd] st
        = some (0, (serial_set_dev_num env DEFAULT_SERIAL_DEVICE st).2.emit
            (Event.printf (Msg.current_port (env.seq h)))) ∧
      (serial_set_dev_num env DEFAULT_SERIAL_DEVICE st).2.serial_cur_dev = some h) := by
  refine ⟨fun d hd => do_serial_dev_num_query_set env st cmd d hd, ?_, ?_⟩
  · intro hunset hfail
    have e := serial_set_dev_num_not_found env st DEFAULT_SERIAL_DEVICE hfail
    simp [do_serial_dev_num, serial_get_cur_device, hunset, e, hfail, hnodev, State.emit]
  · intro h hunset hreg
    obtain ⟨h1, h2, -, -⟩ := serial_set_dev_num_found env st DEFAULT_SERIAL_DEVICE h hreg
    refine ⟨?_, h2⟩
    simp [do_serial_dev_num, serial_get_cur_device, serial_get_cur_device_tail, hunset, h1, h2]

/-- The query with device 102 current prints 2 and keeps 102; with nothing
selected and no device at ordinal 1 it prints -1 and the reference stays
unset; both return 0. -/
theorem dev_query_display_witness :
    do_serial_dev_num (demo_env (config_ops 0 0)) ["dev"] (demo_state (some 102) (fun _ => 0) ())
      = some (0, (demo_state (some 102) (fun _ => 0) ()).emit
          (Event.printf (Msg.current_port 2))) ∧
    (do_serial_dev_num (demo_env_no_default (config_ops 0 0)) ["dev"]
      (demo_state none (fun _ => 0) ())).map (fun r => (r.1, r.2.serial_cur_dev, r.2.trace))
      = some (0, none, [Event.lookup 1 (-19), Event.printf (Msg.default_not_found 1),
          Event.printf (Msg.current_port (-1))]) := by
  have h := (dev_query_display (demo_env (config_ops 0 0))
    (demo_state (some 102) (fun _ => 0) ()) "dev" (by decide)).1 102 rfl
  have g := (dev_query_display (demo_env_no_default (config_ops 0 0))
    (demo_state none (fun _ => 0) ()) "dev" (by decide)).2.1 rfl (by decide)
  refine ⟨h, ?_⟩
  rw [g]
  rfl

/-! ## Transfers without a device -/

theorem serial_get_cur_device_not_found (env : Env σ) (st : State σ)
    (hunset : st.serial_cur_dev = none)
    (hfail : (env.uclass_get_device_by_seq DEFAULT_SERIAL_DEVICE).1 ≠ 0) :
    serial_get_cur_device env st
      = (-env.ENODEV, none, { st with trace := st.trace ++
          [Event.lookup DEFAULT_SERIAL_DEVICE (env.uclass_get_device_by_seq DEFAULT_SERIAL_DEVICE).1,
            Event.printf (Msg.default_not_found DEFAULT_SERIAL_DEVICE)] }) := by
  have e := serial_set_dev_num_not_found env st DEFAULT_SERIAL_DEVICE hfail
  simp [serial_get_cur_device, hunset, e, hfail, State.emit]

/-- C11 (read and write fail atomically when no device resolves; `ENODEV` is
not zero).  With the current-device reference unset and no device at
the default ordinal 1, `do_serial_read` and `do_serial_write` with an address
and a length return `CMD_RET_FAILURE` for every fuel; the resulting state differs from
the old one only by the trace, which gains the two messages, the failed lookup
of ordinal 1 and the not-found message between them: memory and the driver
states are unchanged, no `getc` and no `putc` is called, and the reference is
still unset. -/
theorem no_device_fails_atomically (env : Env σ) (st : State σ) (cmd a l : String)
    (fuel : Nat) (hnodev : env.ENODEV ≠ 0) (hunset : st.serial_cur_dev = none)
    (hfail : (env.uclass_get_device_by_seq DEFAULT_SERIAL_DEVICE).1 ≠ 0) :
    do_serial_read env fuel [cmd, a, l] st
      = some (env.CMD_RET_FAILURE, { st with
          serial_cur_dev := none
          trace := st.trace ++
            [Event.printf (Msg.trying_to_read (ulong_to_uint (env.simple_strtoul l 16))),
              Event.lookup DEFAULT_SERIAL_DEVICE
                (env.uclass_get_device_by_seq DEFAULT_SERIAL_DEVICE).1,
              Event.printf (Msg.default_not_found DEFAULT_SERIAL_DEVICE),
              Event.printf Msg.device_not_found] }) ∧
    do_serial_write env fuel [cmd, a, l] st
      = some (env.CMD_RET_FAILURE, { st with
          serial_cur_dev := none
          trace := st.trace ++
            [Event.printf (Msg.trying_to_write (ulong_to_uint (env.simple_strtoul l 16))),
              Event.lookup DEFAULT_SERIAL_DEVICE
                (env.uclass_get_device_by_seq DEFAULT_SERIAL_DEVICE).1,
              Event.printf (Msg.default_not_found DEFAULT_SERIAL_DEVICE),
              Event.printf Msg.device_not_found] }) := by
  constructor
  · have hg := serial_get_cur_device_not_found env
      (st.emit (Event.printf (Msg.trying_to_read (ulong_to_uint (env.simple_strtoul l 16)))))
      hunset hfail
    simp only [do_serial_read, List.length_cons, List.length_nil, List.getD_cons_succ,
      List.getD_cons_zero]
    simp only [hg]
    simp [hnodev, State.emit, hunset]
  · have hg := serial_get_cur_device_not_found env
      (st.emit (Event.printf (Msg.trying_to_write (ulong_to_uint (env.simple_strtoul l 16)))))
      hunset hfail
    simp only [do_serial_write, List.length_cons, List.length_nil, List.getD_cons_succ,
      List.getD_cons_zero]
    simp only [hg]
    simp [hnodev, State.emit, hunset]

/-- Nothing selected and no device at ordinal 1: reading or writing four bytes
at 0x1000 returns 1, leaves the memory bytes 1 .. 4 in place, calls neither `getc`
nor `putc` and leaves the reference unset. -/
theorem no_device_fails_atomically_witness :
    (do_serial_read (demo_env_no_default counter_ops) 5 ["read", "1000", "4"]
      (demo_state none (mem_of 4096 [1, 2, 3, 4]) 65)).map
      (fun r => (r.1, r.2.serial_cur_dev, mem_bytes r.2.mem 4096 4, r.2.hw 101, r.2.trace))
      = some (1, none, [1, 2, 3, 4], 65,
          [Event.printf (Msg.trying_to_read 4), Event.lookup 1 (-19),
            Event.printf (Msg.default_not_found 1), Event.printf Msg.device_not_found]) ∧
    (do_serial_write (demo_env_no_default counter_ops) 5 ["write", "1000", "4"]
      (demo_state none (mem_of 4096 [1, 2, 3, 4]) 65)).map
      (fun r => (r.1, r.2.serial_cur_dev, mem_bytes r.2.mem 4096 4, r.2.hw 101, r.2.trace))
      = some (1, none, [1, 2, 3, 4], 65,
          [Event.printf (Msg.trying_to_write 4), Event.lookup 1 (-19),
            Event.printf (Msg.default_not_found 1), Event.printf Msg.device_not_found]) := by
  have h := no_device_fails_atomically (demo_env_no_default counter_ops)
    (demo_state none (mem_of 4096 [1, 2, 3, 4]) 65) "read" "1000" "4" 5
    (by decide) rfl (by decide)
  have g := no_device_fails_atomically (demo_env_no_default counter_ops)
    (demo_state none (mem_of 4096 [1, 2, 3, 4]) 65) "write" "1000" "4" 5
    (by decide) rfl (by decide)
  constructor
  · rw [h.1]
    decide
  · rw [g.2]
    decide

/-! ## Return values of the command handlers -/

theorem do_serial_read_usage (env : Env σ) (fuel : Nat) (argv : List String) (st : State σ)
    (hargc : argv.length ≠ 3) :
    do_serial_read env fuel argv st = some (env.CMD_RET_USAGE, st) := by
  simp [do_serial_read, hargc]

theorem do_serial_write_usage (env : Env σ) (fuel : Nat) (argv : List String) (st : State σ)
    (hargc : argv.length < 3) :
    do_serial_write env fuel argv st = some (env.cmd_usage, st.emit Event.cmd_usage) := by
  simp [do_serial_write, hargc]

theorem do_serial_no_subcommand (env : Env σ)
    (find_cmd_tbl : String → List cmd_tbl_t → Option cmd_tbl_t) (fuel : Nat)
    (argv : List String) (st : State σ) (hargc : argv.length < 2) :
    do_serial env find_cmd_tbl fuel argv st = some (env.CMD_RET_USAGE, st) := by
  simp [do_serial, hargc]

theorem do_serial_unknown_subcommand (env : Env σ)
    (find_cmd_tbl : String → List cmd_tbl_t → Option cmd_tbl_t) (fuel : Nat)
    (argv : List String) (st : State σ)
    (hnone : find_cmd_tbl (argv.tail.getD 0 "") cmd_serial_sub = none) :
    do_serial env find_cmd_tbl fuel argv st = some (env.CMD_RET_USAGE, st) := by
  simp only [do_serial, hnone]
  split <;> rfl

theorem do_serial_dispatch (env : Env σ)
    (find_cmd_tbl : String → List cmd_tbl_t → Option cmd_tbl_t) (fuel : Nat)
    (argv : List String) (st : State σ) (c : cmd_tbl_t) (hargc : 2 ≤ argv.length)
    (hfound : find_cmd_tbl (argv.tail.getD 0 "") cmd_serial_sub = some c) :
    do_serial env find_cmd_tbl fuel argv st = call_cmd env fuel c argv.tail st := by
  have : ¬ argv.length < 2 := by omega
  simp only [do_serial, hfound, this, if_false]

theorem do_serial_read_outcomes (env : Env σ) (fuel : Nat) (cmd a l : String) (st : State σ)
    (r : Int) (st1 : State σ) (h : do_serial_read env fuel [cmd, a, l] st = some (r, st1)) :
    r = 0 ∨ r = env.CMD_RET_FAILURE := by
  simp only [do_serial_read, List.length_cons, List.length_nil, List.getD_cons_succ,
    List.getD_cons_zero, Nat.reduceAdd, ne_eq, not_true_eq_false, if_false] at h
  split at h
  · simp only [Option.some.injEq, Prod.mk.injEq] at h
    exact Or.inr h.1.symm
  · split at h
    · exact absurd h (by simp)
    · split at h
      · exact absurd h (by simp)
      · simp only [Option.some.injEq, Prod.mk.injEq] at h
        exact Or.inl h.1.symm

theorem do_serial_write_outcomes (env : Env σ) (fuel : Nat) (cmd a l : String) (st : State σ)
    (r : Int) (st1 : State σ) (h : do_serial_write env fuel [cmd, a, l] st = some (r, st1)) :
    r = 0 ∨ r = env.CMD_RET_FAILURE := by
  simp only [do_serial_write, List.length_cons, List.length_nil, List.getD_cons_succ,
    List.getD_cons_zero, Nat.reduceAdd, Nat.lt_irrefl, if_false] at h
  split at h
  · simp only [Option.some.injEq, Prod.mk.injEq] at h
    exact Or.inr h.1.symm
  · split at h
    · exact absurd h (by simp)
    · split at h
      · exact absurd h (by simp)
      · simp only [Option.some.injEq, Prod.mk.injEq] at h
        exact Or.inl h.1.symm

theorem do_serial_dev_num_outcomes (env : Env σ) (argv : List String) (st : State σ)
    (r : Int) (st1 : State σ) (h : do_serial_dev_num env argv st = some (r, st1)) :
    r = 0 ∨ r = env.CMD_RET_FAILURE := by
  simp only [do_serial_dev_num] at h
  split at h
  · split at h
    · split at h
      · exact absurd h (by simp)
      · simp only [Option.some.injEq, Prod.mk.injEq] at h
        exact Or.inl h.1.symm
    · simp only [Option.some.injEq, Prod.mk.injEq] at h
      exact Or.inl h.1.symm
  · split at h
    · exact absurd h (by simp)
    · split at h
      · simp only [Option.some.injEq, Prod.mk.injEq] at h
        exact Or.inr h.1.symm
      · simp only [Option.some.injEq, Prod.mk.injEq] at h
        exact Or.inl h.1.symm

theorem do_serial_dev_num_set_not_found (env : Env σ) (cmd arg : String) (st : State σ)
    (hfail : (env.uclass_get_device_by_seq
      (to_uint (to_int (env.simple_strtoul arg 10)))).1 ≠ 0) :
    do_serial_dev_num env [cmd, arg] st
      = some (env.CMD_RET_FAILURE, { st with trace := st.trace ++
          [Event.printf (Msg.setting_serial (to_int (env.simple_strtoul arg 10))),
            Event.lookup (to_uint (to_int (env.simple_strtoul arg 10)))
              (env.uclass_get_device_by_seq (to_uint (to_int (env.simple_strtoul arg 10)))).1,
            Event.printf (Msg.failure_changing (env.uclass_get_device_by_seq
              (to_uint (to_int (env.simple_strtoul arg 10)))).1)] }) := by
  have e := serial_set_dev_num_not_found env
    (st.emit (Event.printf (Msg.setting_serial (to_int (env.simple_strtoul arg 10)))))
    (to_uint (to_int (env.simple_strtoul arg 10))) hfail
  simp only [do_serial_dev_num, List.length_cons, List.length_nil, Nat.reduceAdd,
    Nat.succ_ne_self, OfNat.ofNat_ne_one, if_false, List.get?_cons_succ, List.get?_cons_zero]
  simp only [e]
  simp [hfail, State.emit]

/-- C12 (the documented contract "zero on success, `CMD_RET_USAGE` in case of
misuse and negative on error" does not hold).  With `CMD_RET_FAILURE = 1` and
`CMD_RET_USAGE = -1`: selecting the unregistered ordinal 7, directly or through
`do_serial`, returns 1, which is not negative; and the misuse `dev 2 9` (two
ordinal arguments) returns 0, not `CMD_RET_USAGE`, after selecting ordinal 2. -/
theorem dev_handler_returns_positive_on_error :
    (demo_env (config_ops 0 0)).CMD_RET_FAILURE = 1 ∧
    (demo_env (config_ops 0 0)).CMD_RET_USAGE = -1 ∧
    (do_serial_dev_num (demo_env (config_ops 0 0)) ["dev", "7"]
      (demo_state (some 101) (fun _ => 0) ())).map
      (fun r => (r.1, decide (r.1 < 0), r.2.serial_cur_dev, r.2.trace))
      = some (1, false, some 101,
          [Event.printf (Msg.setting_serial 7), Event.lookup 7 (-19),
            Event.printf (Msg.failure_changing (-19))]) ∧
    (do_serial (demo_env (config_ops 0 0)) demo_find_cmd_tbl 0 ["serial", "dev", "7"]
      (demo_state (some 101) (fun _ => 0) ())).map (fun r => (r.1, decide (r.1 < 0)))
      = some (1, false) ∧
    (do_serial_dev_num (demo_env (config_ops 0 0)) ["dev", "2", "9"]
      (demo_state (some 101) (fun _ => 0) ())).map (fun r => (r.1, r.2.serial_cur_dev))
      = some (0, some 102) := by
  decide

/-- C13 (a wrong argument count is not always a usage error).  With
`CMD_RET_USAGE = -1`: `serial dev 2 9` while device 101 is current selects and
configures ordinal 2 and returns 0; `write` with an address only returns the
value of `cmd_usage` (1), not `CMD_RET_USAGE`; `write` with an extra argument
transmits the byte and returns 0. -/
theorem wrong_argument_count_accepted :
    (demo_env (config_ops 0 0)).CMD_RET_USAGE = -1 ∧
    (do_serial (demo_env (config_ops 0 0)) demo_find_cmd_tbl 0 ["serial", "dev", "2", "9"]
      (demo_state (some 101) (fun _ => 0) ())).map
      (fun r => (r.1, r.2.serial_cur_dev, config_calls r.2.trace))
      = some (0, some 102, [Event.setconfig 102 28 0, Event.setbrg 102 115200 0]) ∧
    (do_serial_write (demo_env counter_ops) 2 ["write", "1000"]
      (demo_state (some 101) (mem_of 4096 [65]) 0)).map (fun r => (r.1, r.2.trace))
      = some (1, [Event.cmd_usage]) ∧
    (do_serial_write (demo_env counter_ops) 2 ["write", "1000", "1", "x"]
      (demo_state (some 101) (mem_of 4096 [65]) 0)).map (fun r => (r.1, wire 101 r.2.trace))
      = some (0, [65]) := by
  decide

/-! ## Every run that returns is a run of finitely many busy polls -/

theorem Settles.unique {E : Int} {op : σ → Int × σ} {k : Nat} {s : σ} {r : Int} {s1 : σ}
    (h : Settles E op k s r s1) :
    ∀ {k2 : Nat} {r2 : Int} {s2 : σ}, Settles E op k2 s r2 s2 → k2 = k ∧ r2 = r ∧ s2 = s1 := by
  induction h with
  | done s hne =>
    intro k2 r2 s2 h2
    cases h2 with
    | done _ _ => exact ⟨rfl, rfl, rfl⟩
    | busy k s r s1 hb _ => exact absurd hb hne
  | busy k s r s1 hb _ ih =>
    intro k2 r2 s2 h2
    cases h2 with
    | done _ hne => exact absurd hb hne
    | busy k3 _ _ _ _ h3 =>
      obtain ⟨a, b, c⟩ := ih h3
      exact ⟨by rw [a], b, c⟩

theorem serial_write_char_loop_returns (env : Env σ) (ops : dm_serial_ops σ) (dev : Handle)
    (ch : Nat) (fuel : Nat) :
    ∀ (st st1 : State σ), serial_write_char_loop env ops dev ch fuel st = some st1 →
      ∃ k r s1, Settles env.EAGAIN (fun x => ops.putc x ch) k (st.hw dev) r s1 ∧ k < fuel := by
  induction fuel with
  | zero => intro st st1 h; simp [serial_write_char_loop] at h
  | succ f ih =>
    intro st st1 h
    simp only [serial_write_char_loop] at h
    by_cases hb : (ops.putc (st.hw dev) ch).1 = -env.EAGAIN
    · rw [if_pos hb] at h
      obtain ⟨k, r, s1, hs, hk⟩ := ih _ _ h
      refine ⟨k + 1, r, s1, Settles.busy k (st.hw dev) r s1 hb ?_, by omega⟩
      simpa [State.emit, State.set_hw] using hs
    · exact ⟨0, _, _, @Settles.done σ env.EAGAIN (fun x => ops.putc x ch) (st.hw dev) hb,
        by omega⟩

theorem serial_read_char_loop_returns (env : Env σ) (ops : dm_serial_ops σ) (dev : Handle)
    (fuel : Nat) :
    ∀ (st : State σ) (v : Int) (st1 : State σ),
      serial_read_char_loop env ops dev fuel st = some (v, st1) →
      ∃ k r s1, Settles env.EAGAIN ops.getc k (st.hw dev) r s1 ∧ k < fuel := by
  induction fuel with
  | zero => intro st v st1 h; simp [serial_read_char_loop] at h
  | succ f ih =>
    intro st v st1 h
    simp only [serial_read_char_loop] at h
    by_cases hb : (ops.getc (st.hw dev)).1 = -env.EAGAIN
    · rw [if_pos hb] at h
      obtain ⟨k, r, s1, hs, hk⟩ := ih _ _ _ h
      refine ⟨k + 1, r, s1, Settles.busy k (st.hw dev) r s1 hb ?_, by omega⟩
      simpa [State.emit, State.set_hw] using hs
    · exact ⟨0, _, _, Settles.done (st.hw dev) hb, by omega⟩

theorem serial_write_char_loop_needs (env : Env σ) (ops : dm_serial_ops σ) (dev : Handle)
    (ch : Nat) {k : Nat} {s : σ} {r : Int} {s1 : σ}
    (h : Settles env.EAGAIN (fun x => ops.putc x ch) k s r s1)
    (st : State σ) (fuel : Nat) (hs : st.hw dev = s) (hk : fuel ≤ k) :
    serial_write_char_loop env ops dev ch fuel st = none := by
  cases hr : serial_write_char_loop env ops dev ch fuel st with
  | none => rfl
  | some st1 =>
    obtain ⟨k2, r2, s2, h2, hk2⟩ := serial_write_char_loop_returns env ops dev ch fuel st st1 hr
    rw [hs] at h2
    have := (h.unique h2).1
    omega

theorem serial_read_char_loop_needs (env : Env σ) (ops : dm_serial_ops σ) (dev : Handle)
    {k : Nat} {s : σ} {r : Int} {s1 : σ} (h : Settles env.EAGAIN ops.getc k s r s1)
    (st : State σ) (fuel : Nat) (hs : st.hw dev = s) (hk : fuel ≤ k) :
    serial_read_char_loop env ops dev fuel st = none := by
  cases hr : serial_read_char_loop env ops dev fuel st with
  | none => rfl
  | some p =>
    obtain ⟨v, st1⟩ := p
    obtain ⟨k2, r2, s2, h2, hk2⟩ := serial_read_char_loop_returns env ops dev fuel st v st1 hr
    rw [hs] at h2
    have := (h.unique h2).1
    omega

/-! ## Bulk transmission to an arbitrary device -/

theorem putc_trace_cons (E : Int) (dev : Handle) (t : Nat × Nat × Int)
    (ts : List (Nat × Nat × Int)) :
    putc_trace E dev (t :: ts) = putc_events E dev t.1 t.2.1 t.2.2 ++ putc_trace E dev ts := by
  simp [putc_trace]

theorem do_serial_write_loop_yields (env : Env σ) (ops : dm_serial_ops σ) (dev : Handle)
    (hops : env.serial_get_ops dev = some ops) (fuel : Nat) (n : Nat) :
    ∀ (memaddr : Nat) (st : State σ) (ts : List (Nat × Nat × Int)) (s1 : σ),
      PutcYields env.EAGAIN ops.putc (st.hw dev) ts s1 →
      ts.map (fun t => t.1) = crlf (mem_bytes st.mem memaddr n) →
      (∀ t ∈ ts, t.2.1 + 1 < fuel) →
      do_serial_write_loop env fuel dev n memaddr st =
        some { st with
          hw := Function.update st.hw dev s1
          trace := st.trace ++ putc_trace env.EAGAIN dev ts } := by
  induction n with
  | zero =>
    intro memaddr st ts s1 hy hmap _
    have hts : ts = [] := by simpa [mem_bytes, crlf] using hmap
    subst hts
    cases hy
    simp [do_serial_write_loop, putc_trace]
  | succ m ih =>
    intro memaddr st ts s1 hy hmap hfuel
    rw [mem_bytes_succ] at hmap
    simp only [do_serial_write_loop]
    by_cases hc : st.mem memaddr % 256 = 10
    · rw [hc] at hmap ⊢
      simp only [crlf, if_true] at hmap
      cases hy with
      | nil => simp at hmap
      | cons ch1 k1 _ r1 sa ts1 _ h1 hy1 =>
        cases hy1 with
        | nil => simp at hmap
        | cons ch2 k2 _ r2 sb ts2 _ h2 hy2 =>
          simp only [List.map_cons, List.cons.injEq] at hmap
          obtain ⟨e1, e2, hmap2⟩ := hmap
          subst e1
          subst e2
          have f1 : k1 + 1 < fuel := hfuel (13, k1, r1) (by simp)
          have f2 : k2 + 1 < fuel := hfuel (10, k2, r2) (by simp)
          rw [serial_write_char_newline env ops dev hops h1 h2 st fuel rfl (by omega) (by omega)]
          simp only []
          rw [ih (memaddr + 1) _ ts2 s1 (by simpa using hy2) (by simpa using hmap2)
            (fun t ht => hfuel t (by simp [ht]))]
          simp [putc_trace_cons, List.append_assoc]
    · simp only [crlf, if_neg hc] at hmap
      cases hy with
      | nil => simp at hmap
      | cons ch1 k1 _ r1 sa ts1 _ h1 hy1 =>
        simp only [List.map_cons, List.cons.injEq] at hmap
        obtain ⟨e1, hmap2⟩ := hmap
        subst e1
        have f1 : k1 + 1 < fuel := hfuel (st.mem memaddr % 256, k1, r1) (by simp)
        rw [serial_write_char_plain env ops dev hops _ hc h1 st fuel rfl (by omega)]
        simp only []
        rw [ih (memaddr + 1) _ ts1 s1 (by simpa using hy1) (by simpa using hmap2)
          (fun t ht => hfuel t (by simp [ht]))]
        simp [putc_trace_cons, List.append_assoc]

theorem putc_yields_exists (E : Int) (putc : σ → Nat → Int × σ)
    (hs : ∀ (s : σ) (ch : Nat), ∃ k r s1, Settles E (fun x => putc x ch) k s r s1)
    (chars : List Nat) :
    ∀ s, ∃ ts s1, PutcYields E putc s ts s1 ∧ ts.map (fun t => t.1) = chars := by
  induction chars with
  | nil => exact fun s => ⟨[], s, PutcYields.nil s, rfl⟩
  | cons c cs ih =>
    intro s
    obtain ⟨k, r, sa, h1⟩ := hs s c
    obtain ⟨ts, s1, hy, hm⟩ := ih sa
    exact ⟨(c, k, r) :: ts, s1, PutcYields.cons c k s r sa ts s1 h1 hy, by simp [hm]⟩

theorem getc_yields_exists (E : Int) (getc : σ → Int × σ)
    (hs : ∀ s : σ, ∃ k r s1, Settles E getc k s r s1) (n : Nat) :
    ∀ s, ∃ kbs s1, GetcYields E getc s kbs s1 ∧ kbs.length = n := by
  induction n with
  | zero => exact fun s => ⟨[], s, GetcYields.nil s, rfl⟩
  | succ m ih =>
    intro s
    obtain ⟨k, r, sa, h1⟩ := hs s
    obtain ⟨kbs, s1, hy, hl⟩ := ih sa
    exact ⟨(k, r) :: kbs, s1, GetcYields.cons k s r sa kbs s1 h1 hy, by simp [hl]⟩

theorem serial_read_char_returns (env : Env σ) (ops : dm_serial_ops σ) (dev : Handle)
    (hops : env.serial_get_ops dev = some ops) (fuel : Nat) (st : State σ) (v : Int)
    (st1 : State σ) (h : serial_read_char env fuel dev st = some (v, st1)) :
    ∃ k r s1, Settles env.EAGAIN ops.getc k (st.hw dev) r s1 ∧ k < fuel ∧
      v = (if r ≥ 0 then r else 0) ∧
      st1 = { st with
        hw := Function.update st.hw dev s1
        trace := st.trace ++ getc_events env.EAGAIN dev k r } := by
  have h0 := h
  simp only [serial_read_char, hops] at h0
  cases hl : serial_read_char_loop env ops dev fuel st with
  | none => simp [hl] at h0
  | some p =>
    obtain ⟨k, r, s1, hs, hk⟩ := serial_read_char_loop_returns env ops dev fuel st p.1 p.2 hl
    have hf := serial_read_char_settles env ops dev hops hs st fuel rfl hk
    rw [h] at hf
    simp only [Option.some.injEq, Prod.mk.injEq] at hf
    exact ⟨k, r, s1, hs, hk, hf.1, hf.2⟩

theorem serial_write_char_returns_plain (env : Env σ) (ops : dm_serial_ops σ) (dev : Handle)
    (hops : env.serial_get_ops dev = some ops) (ch : Nat) (hch : ch ≠ 10) (fuel : Nat)
    (st st1 : State σ) (h : serial_write_char env dev fuel ch st = some st1) :
    ∃ k r s1, Settles env.EAGAIN (fun x => ops.putc x ch) k (st.hw dev) r s1 ∧ k < fuel ∧
      st1 = { st with
        hw := Function.update st.hw dev s1
        trace := st.trace ++ putc_events env.EAGAIN dev ch k r } := by
  cases fuel with
  | zero => simp [serial_write_char] at h
  | succ f =>
    have h0 := h
    simp only [serial_write_char, hops, if_neg hch] at h0
    obtain ⟨k, r, s1, hs, hk⟩ := serial_write_char_loop_returns env ops dev ch (f + 1) st st1 h0
    have hf := serial_write_char_plain env ops dev hops ch hch hs st (f + 1) rfl hk
    rw [h] at hf
    exact ⟨k, r, s1, hs, hk, Option.some.inj hf⟩

theorem serial_write_char_returns_newline (env : Env σ) (ops : dm_serial_ops σ) (dev : Handle)
    (hops : env.serial_get_ops dev = some ops) (fuel : Nat)
    (st st1 : State σ) (h : serial_write_char env dev fuel 10 st = some st1) :
    ∃ k1 r1 sa k2 r2 s1,
      Settles env.EAGAIN (fun x => ops.putc x 13) k1 (st.hw dev) r1 sa ∧
      Settles env.EAGAIN (fun x => ops.putc x 10) k2 sa r2 s1 ∧
      k1 + 1 < fuel ∧ k2 < fuel ∧
      st1 = { st with
        hw := Function.update st.hw dev s1
        trace := st.trace ++ putc_events env.EAGAIN dev 13 k1 r1
          ++ putc_events env.EAGAIN dev 10 k2 r2 } := by
  cases fuel with
  | zero => simp [serial_write_char] at h
  | succ f =>
    have h0 := h
    simp only [serial_write_char, hops, if_true] at h0
    cases hr : serial_write_char env dev f 13 st with
    | none => simp [hr] at h0
    | some st2 =>
      simp only [hr] at h0
      obtain ⟨k1, r1, sa, hs1, hk1, e1⟩ :=
        serial_write_char_returns_plain env ops dev hops 13 (by decide) f st st2 hr
      obtain ⟨k2, r2, s1, hs2, hk2⟩ :=
        serial_write_char_loop_returns env ops dev 10 (f + 1) st2 st1 h0
      have hsa : st2.hw dev = sa := by rw [e1]; simp
      rw [hsa] at hs2
      have hf := serial_write_char_newline env ops dev hops hs1 hs2 st (f + 1) rfl
        (by omega) hk2
      rw [h] at hf
      exact ⟨k1, r1, sa, k2, r2, s1, hs1, hs2, by omega, hk2, Option.some.inj hf⟩

theorem do_serial_write_loop_returns (env : Env σ) (ops : dm_serial_ops σ) (dev : Handle)
    (hops : env.serial_get_ops dev = some ops) (fuel : Nat) (n : Nat) :
    ∀ (memaddr : Nat) (st st1 : State σ),
      do_serial_write_loop env fuel dev n memaddr st = some st1 →
      ∃ ts s1, PutcYields env.EAGAIN ops.putc (st.hw dev) ts s1 ∧
        ts.map (fun t => t.1) = crlf (mem_bytes st.mem memaddr n) ∧
        (∀ t ∈ ts, t.2.1 < fuel) ∧
        st1 = { st with
          hw := Function.update st.hw dev s1
          trace := st.trace ++ putc_trace env.EAGAIN dev ts } := by
  induction n with
  | zero =>
    intro memaddr st st1 h
    simp only [do_serial_write_loop, Option.some.injEq] at h
    exact ⟨[], st.hw dev, PutcYields.nil _, by simp [mem_bytes, crlf], by simp,
      by simp [← h, putc_trace]⟩
  | succ m ih =>
    intro memaddr st st1 h
    simp only [do_serial_write_loop] at h
    cases hr : serial_write_char env dev fuel (st.mem memaddr % 256) st with
    | none => simp [hr] at h
    | some st2 =>
      simp only [hr] at h
      obtain ⟨ts, s1, hy, hm, hk, e⟩ := ih (memaddr + 1) st2 st1 h
      by_cases hc : st.mem memaddr % 256 = 10
      · rw [hc] at hr
        obtain ⟨k1, r1, sa, k2, r2, sb, hs1, hs2, hk1, hk2, e2⟩ :=
          serial_write_char_returns_newline env ops dev hops fuel st st2 hr
        have hsb : st2.hw dev = sb := by rw [e2]; simp
        have hmem : st2.mem = st.mem := by rw [e2]
        rw [hsb] at hy
        rw [hmem] at hm
        refine ⟨(13, k1, r1) :: (10, k2, r2) :: ts, s1,
          PutcYields.cons 13 k1 _ r1 sa _ s1 hs1 (PutcYields.cons 10 k2 sa r2 sb ts s1 hs2 hy),
          ?_, ?_, ?_⟩
        · rw [mem_bytes_succ, hc]
          simp [crlf, hm]
        · intro t ht
          simp only [List.mem_cons] at ht
          rcases ht with rfl | rfl | ht
          · show k1 < fuel
            omega
          · exact hk2
          · exact hk t ht
        · rw [e, e2]
          simp [putc_trace_cons, List.append_assoc]
      · obtain ⟨k1, r1, sa, hs1, hk1, e2⟩ :=
          serial_write_char_returns_plain env ops dev hops _ hc fuel st st2 hr
        have hsa : st2.hw dev = sa := by rw [e2]; simp
        have hmem : st2.mem = st.mem := by rw [e2]
        rw [hsa] at hy
        rw [hmem] at hm
        refine ⟨(st.mem memaddr % 256, k1, r1) :: ts, s1,
          PutcYields.cons _ k1 _ r1 sa ts s1 hs1 hy, ?_, ?_, ?_⟩
        · rw [mem_bytes_succ]
          simp [crlf, hc, hm]
        · intro t ht
          simp only [List.mem_cons] at ht
          rcases ht with rfl | ht
          · exact hk1
          · exact hk t ht
        · rw [e, e2]
          simp [putc_trace_cons, List.append_assoc]

theorem do_serial_read_loop_returns (env : Env σ) (ops : dm_serial_ops σ) (dev : Handle)
    (hops : env.serial_get_ops dev = some ops) (fuel : Nat) (n : Nat) :
    ∀ (memaddr : Nat) (st st1 : State σ),
      do_serial_read_loop env fuel dev n memaddr st = some st1 →
      ∃ kbs s1, GetcYields env.EAGAIN ops.getc (st.hw dev) kbs s1 ∧ kbs.length = n ∧
        (∀ p ∈ kbs, p.1 < fuel) ∧
        st1 = { st with
          mem := store_bytes st.mem memaddr (kbs.map fun p => stored_byte p.2)
          hw := Function.update st.hw dev s1
          trace := st.trace ++ getc_trace env.EAGAIN dev kbs } := by
  induction n with
  | zero =>
    intro memaddr st st1 h
    simp only [do_serial_read_loop, Option.some.injEq] at h
    exact ⟨[], st.hw dev, GetcYields.nil _, rfl, by simp,
      by simp [← h, getc_trace, store_bytes]⟩
  | succ m ih =>
    intro memaddr st st1 h
    simp only [do_serial_read_loop] at h
    cases hr : serial_read_char env fuel dev st with
    | none => simp [hr] at h
    | some p =>
      obtain ⟨v, st2⟩ := p
      simp only [hr] at h
      obtain ⟨k, r, sa, hs, hk, hv, e2⟩ :=
        serial_read_char_returns env ops dev hops fuel st v st2 hr
      obtain ⟨kbs, s1, hy, hl, hf, e⟩ := ih (memaddr + 1) _ st1 h
      have hsa : st2.hw dev = sa := by rw [e2]; simp
      simp only [hsa] at hy
      refine ⟨(k, r) :: kbs, s1, GetcYields.cons k _ r sa kbs s1 hs hy, by simp [hl], ?_, ?_⟩
      · intro p hp
        simp only [List.mem_cons] at hp
        rcases hp with rfl | hp
        · exact hk
        · exact hf p hp
      · rw [e, e2, hv]
        simp [getc_trace, store_bytes, stored_byte, List.append_assoc]

theorem GetcYields.unique_of_length {E : Int} {getc : σ → Int × σ} {s : σ} {kbs : List (Nat × Int)}
    {s1 : σ} (h : GetcYields E getc s kbs s1) :
    ∀ {kbs2 : List (Nat × Int)} {s2 : σ}, GetcYields E getc s kbs2 s2 →
      kbs2.length = kbs.length → kbs2 = kbs ∧ s2 = s1 := by
  induction h with
  | nil s =>
    intro kbs2 s2 h2 hl
    cases h2 with
    | nil => exact ⟨rfl, rfl⟩
    | cons _ _ _ _ _ _ _ _ => simp at hl
  | cons k s b sa kbs s1 hs _ ih =>
    intro kbs2 s2 h2 hl
    cases h2 with
    | nil => simp at hl
    | cons k2 _ b2 sb kbs3 _ hs2 hy2 =>
      obtain ⟨a, b1, c⟩ := hs.unique hs2
      subst a
      subst b1
      subst c
      obtain ⟨d, e⟩ := ih hy2 (by simpa using hl)
      exact ⟨by rw [d], e⟩

theorem PutcYields.unique_of_chars {E : Int} {putc : σ → Nat → Int × σ} {s : σ}
    {ts : List (Nat × Nat × Int)} {s1 : σ} (h : PutcYields E putc s ts s1) :
    ∀ {ts2 : List (Nat × Nat × Int)} {s2 : σ}, PutcYields E putc s ts2 s2 →
      ts2.map (fun t => t.1) = ts.map (fun t => t.1) → ts2 = ts ∧ s2 = s1 := by
  induction h with
  | nil s =>
    intro ts2 s2 h2 hl
    cases h2 with
    | nil => exact ⟨rfl, rfl⟩
    | cons _ _ _ _ _ _ _ _ _ => simp at hl
  | cons ch k s r sa ts s1 hs _ ih =>
    intro ts2 s2 h2 hl
    cases h2 with
    | nil => simp at hl
    | cons ch2 k2 _ r2 sb ts3 _ hs2 hy2 =>
      simp only [List.map_cons, List.cons.injEq] at hl
      obtain ⟨hch, hl2⟩ := hl
      subst hch
      obtain ⟨a, b1, c⟩ := hs.unique hs2
      subst a
      subst b1
      subst c
      obtain ⟨d, e⟩ := ih hy2 hl2
      exact ⟨by rw [d], e⟩

/-! ## The current-device reference -/

theorem serial_read_char_cur (env : Env σ) (fuel : Nat) (dev : Handle) (st : State σ)
    (v : Int) (st1 : State σ) (h : serial_read_char env fuel dev st = some (v, st1)) :
    st1.serial_cur_dev = st.serial_cur_dev := by
  cases hops : env.serial_get_ops dev with
  | none => simp [serial_read_char, hops] at h
  | some ops =>
    obtain ⟨k, r, s1, -, -, -, e⟩ := serial_read_char_returns env ops dev hops fuel st v st1 h
    rw [e]

theorem serial_write_char_cur (env : Env σ) (fuel : Nat) (dev : Handle) (ch : Nat)
    (st st1 : State σ) (h : serial_write_char env dev fuel ch st = some st1) :
    st1.serial_cur_dev = st.serial_cur_dev := by
  cases hops : env.serial_get_ops dev with
  | none =>
    cases fuel with
    | zero => simp [serial_write_char] at h
    | succ f => simp [serial_write_char, hops] at h
  | some ops =>
    by_cases hch : ch = 10
    · subst hch
      obtain ⟨_, _, _, _, _, _, -, -, -, -, e⟩ :=
        serial_write_char_returns_newline env ops dev hops fuel st st1 h
      rw [e]
    · obtain ⟨_, _, _, -, -, e⟩ :=
        serial_write_char_returns_plain env ops dev hops ch hch fuel st st1 h
      rw [e]

theorem do_serial_read_loop_cur (env : Env σ) (fuel : Nat) (dev : Handle) (n : Nat) :
    ∀ (memaddr : Nat) (st st1 : State σ),
      do_serial_read_loop env fuel dev n memaddr st = some st1 →
      st1.serial_cur_dev = st.serial_cur_dev := by
  induction n with
  | zero =>
    intro memaddr st st1 h
    simp only [do_serial_read_loop, Option.some.injEq] at h
    rw [h]
  | succ m ih =>
    intro memaddr st st1 h
    simp only [do_serial_read_loop] at h
    cases hr : serial_read_char env fuel dev st with
    | none => simp [hr] at h
    | some p =>
      simp only [hr] at h
      rw [ih _ _ _ h]
      exact serial_read_char_cur env fuel dev st p.1 p.2 hr

theorem do_serial_write_loop_cur (env : Env σ) (fuel : Nat) (dev : Handle) (n : Nat) :
    ∀ (memaddr : Nat) (st st1 : State σ),
      do_serial_write_loop env fuel dev n memaddr st = some st1 →
      st1.serial_cur_dev = st.serial_cur_dev := by
  induction n with
  | zero =>
    intro memaddr st st1 h
    simp only [do_serial_write_loop, Option.some.injEq] at h
    rw [h]
  | succ m ih =>
    intro memaddr st st1 h
    simp only [do_serial_write_loop] at h
    cases hr : serial_write_char env dev fuel (st.mem memaddr % 256) st with
    | none => simp [hr] at h
    | some st2 =>
      simp only [hr] at h
      rw [ih _ _ _ h]
      exact serial_write_char_cur env fuel dev _ st st2 hr

theorem CurStep.refl (env : Env σ) (st : State σ) : CurStep env st st := Or.inl rfl

theorem CurStep.trans {env : Env σ} {st st1 st2 : State σ} (h1 : CurStep env st st1)
    (h2 : CurStep env st1 st2) : CurStep env st st2 := by
  rcases h2 with h2 | h2
  · rcases h1 with h1 | ⟨h, h1, hreg⟩
    · exact Or.inl (h2.trans h1)
    · exact Or.inr ⟨h, h2.trans h1, hreg⟩
  · exact Or.inr h2

theorem CurStep.of_eq {env : Env σ} {st st1 : State σ}
    (h : st1.serial_cur_dev = st.serial_cur_dev) : CurStep env st st1 := Or.inl h

theorem serial_set_dev_num_cur (env : Env σ) (n : Nat) (st : State σ) :
    CurStep env st (serial_set_dev_num env n st).2 := by
  by_cases hf : (env.uclass_get_device_by_seq n).1 = 0
  · have hreg : env.uclass_get_device_by_seq n = (0, (env.uclass_get_device_by_seq n).2) :=
      Prod.ext hf rfl
    obtain ⟨-, h2, -, -⟩ := serial_set_dev_num_found env st n _ hreg
    exact Or.inr ⟨_, h2, n, hreg⟩
  · rw [serial_set_dev_num_not_found env st n hf]
    exact Or.inl rfl

theorem serial_get_cur_device_cur (env : Env σ) (st : State σ) :
    CurStep env st (serial_get_cur_device env st).2.2 := by
  cases hc : st.serial_cur_dev with
  | some d =>
    rw [serial_get_cur_device_set env st d hc]
    exact Or.inl rfl
  | none =>
    have hs := serial_set_dev_num_cur env DEFAULT_SERIAL_DEVICE st
    simp only [serial_get_cur_device, hc, if_true]
    split
    · exact hs.trans (Or.inl rfl)
    · simp only [serial_get_cur_device_tail]
      split
      · exact hs.trans (Or.inl rfl)
      · exact hs

theorem do_serial_read_cur (env : Env σ) (fuel : Nat) (argv : List String) (st : State σ)
    (r : Int) (st1 : State σ) (h : do_serial_read env fuel argv st = some (r, st1)) :
    CurStep env st st1 := by
  simp only [do_serial_read] at h
  split at h
  · simp only [Option.some.injEq, Prod.mk.injEq] at h
    rw [← h.2]
    exact CurStep.refl env st
  · have hg := serial_get_cur_device_cur env (st.emit (Event.printf (Msg.trying_to_read
      (ulong_to_uint (env.simple_strtoul (argv.getD 2 "") 16)))))
    have hg1 : CurStep env st (serial_get_cur_device env (st.emit (Event.printf
        (Msg.trying_to_read (ulong_to_uint (env.simple_strtoul (argv.getD 2 "") 16)))))).2.2 :=
      CurStep.trans (Or.inl rfl) hg
    split at h
    · simp only [Option.some.injEq, Prod.mk.injEq] at h
      rw [← h.2]
      exact hg1.trans (Or.inl rfl)
    · split at h
      · exact absurd h (by simp)
      · split at h
        · exact absurd h (by simp)
        · rename_i st2 hl
          simp only [Option.some.injEq, Prod.mk.injEq] at h
          rw [← h.2]
          exact hg1.trans (Or.inl (do_serial_read_loop_cur env fuel _ _ _ _ _ hl))

theorem do_serial_write_cur (env : Env σ) (fuel : Nat) (argv : List String) (st : State σ)
    (r : Int) (st1 : State σ) (h : do_serial_write env fuel argv st = some (r, st1)) :
    CurStep env st st1 := by
  simp only [do_serial_write] at h
  split at h
  · simp only [Option.some.injEq, Prod.mk.injEq] at h
    rw [← h.2]
    exact Or.inl rfl
  · have hg := serial_get_cur_device_cur env (st.emit (Event.printf (Msg.trying_to_write
      (ulong_to_uint (env.simple_strtoul (argv.getD 2 "") 16)))))
    have hg1 : CurStep env st (serial_get_cur_device env (st.emit (Event.printf
        (Msg.trying_to_write (ulong_to_uint (env.simple_strtoul (argv.getD 2 "") 16)))))).2.2 :=
      CurStep.trans (Or.inl rfl) hg
    split at h
    · simp only [Option.some.injEq, Prod.mk.injEq] at h
      rw [← h.2]
      exact hg1.trans (Or.inl rfl)
    · split at h
      · exact absurd h (by simp)
      · split at h
        · exact absurd h (by simp)
        · rename_i st2 hl
          simp only [Option.some.injEq, Prod.mk.injEq] at h
          rw [← h.2]
          exact hg1.trans (Or.inl (do_serial_write_loop_cur env fuel _ _ _ _ _ hl))

theorem do_serial_dev_num_cur (env : Env σ) (argv : List String) (st : State σ)
    (r : Int) (st1 : State σ) (h : do_serial_dev_num env argv st = some (r, st1)) :
    CurStep env st st1 := by
  simp only [do_serial_dev_num] at h
  split at h
  · have hg := serial_get_cur_device_cur env st
    split at h
    · split at h
      · exact absurd h (by simp)
      · simp only [Option.some.injEq, Prod.mk.injEq] at h
        rw [← h.2]
        exact hg.trans (Or.inl rfl)
    · simp only [Option.some.injEq, Prod.mk.injEq] at h
      rw [← h.2]
      exact hg.trans (Or.inl rfl)
  · split at h
    · exact absurd h (by simp)
    · rename_i arg _
      have hs := serial_set_dev_num_cur env (to_uint (to_int (env.simple_strtoul arg 10)))
        (st.emit (Event.printf (Msg.setting_serial (to_int (env.simple_strtoul arg 10)))))
      have hs1 : CurStep env st (serial_set_dev_num env
          (to_uint (to_int (env.simple_strtoul arg 10)))
          (st.emit (Event.printf (Msg.setting_serial
            (to_int (env.simple_strtoul arg 10)))))).2 :=
        CurStep.trans (Or.inl rfl) hs
      split at h
      · simp only [Option.some.injEq, Prod.mk.injEq] at h
        rw [← h.2]
        exact hs1.trans (Or.inl rfl)
      · simp only [Option.some.injEq, Prod.mk.injEq] at h
        rw [← h.2]
        exact hs1

theorem do_serial_cur (env : Env σ)
    (find_cmd_tbl : String → List cmd_tbl_t → Option cmd_tbl_t) (fuel : Nat)
    (argv : List String) (st : State σ) (r : Int) (st1 : State σ)
    (h : do_serial env find_cmd_tbl fuel argv st = some (r, st1)) :
    CurStep env st st1 := by
  simp only [do_serial] at h
  split at h
  · simp only [Option.some.injEq, Prod.mk.injEq] at h
    rw [← h.2]
    exact Or.inl rfl
  · split at h
    · rename_i c _
      simp only [call_cmd] at h
      split at h
      · exact do_serial_dev_num_cur env _ st r st1 h
      · exact do_serial_write_cur env fuel _ st r st1 h
      · exact do_serial_read_cur env fuel _ st r st1 h
    · simp only [Option.some.injEq, Prod.mk.injEq] at h
      rw [← h.2]
      exact Or.inl rfl

theorem Step.cur {env : Env σ} {find_cmd_tbl : String → List cmd_tbl_t → Option cmd_tbl_t}
    {st st1 : State σ} (h : Step env find_cmd_tbl st st1) : CurStep env st st1 := by
  cases h with
  | dev argv _ r _ h => exact do_serial_dev_num_cur env argv st r st1 h
  | read fuel argv _ r _ h => exact do_serial_read_cur env fuel argv st r st1 h
  | write fuel argv _ r _ h => exact do_serial_write_cur env fuel argv st r st1 h
  | serial fuel argv _ r _ h => exact do_serial_cur env find_cmd_tbl fuel argv st r st1 h

theorem CurStep.keeps_set {env : Env σ} {st st1 : State σ} (h : CurStep env st st1)
    (hset : st.serial_cur_dev ≠ none) : st1.serial_cur_dev ≠ none := by
  rcases h with h | ⟨d, h, -⟩
  · rw [h]; exact hset
  · rw [h]; simp

theorem CurStep.keeps_registered {env : Env σ} {st st1 : State σ} (h : CurStep env st st1)
    (hinv : st.serial_cur_dev = none ∨ ∃ d, st.serial_cur_dev = some d ∧ Registered env d) :
    st1.serial_cur_dev = none ∨ ∃ d, st1.serial_cur_dev = some d ∧ Registered env d := by
  rcases h with h | h
  · rw [h]; exact hinv
  · exact Or.inr h

/-- C14 (current-device invariant).  In every state reachable from a state with
the reference unset by finitely many operations (calls of `do_serial_dev_num`,
`do_serial_read`, `do_serial_write` or `do_serial` with any arguments and fuel, for any
registry and any devices), the current-device reference is unset or is a handle
that a successful registry lookup returns for some ordinal; and if it is set,
it is still set after any further sequence of operations. -/
theorem current_device_invariant (env : Env σ)
    (find_cmd_tbl : String → List cmd_tbl_t → Option cmd_tbl_t) (st : State σ)
    (hr : Reachable env find_cmd_tbl st) :
    (st.serial_cur_dev = none ∨ ∃ h, st.serial_cur_dev = some h ∧ Registered env h) ∧
    (∀ st1, Relation.ReflTransGen (Step env find_cmd_tbl) st st1 →
      st.serial_cur_dev ≠ none → st1.serial_cur_dev ≠ none) := by
  constructor
  · induction hr with
    | init st h => exact Or.inl h
    | step st st1 _ hstep ih => exact hstep.cur.keeps_registered ih
  · intro st1 hsteps hset
    induction hsteps with
    | refl => exact hset
    | tail _ hstep ih => exact hstep.cur.keeps_set ih

/-- After `dev 2` from the unset state the reference is the handle 102, which the
lookup of ordinal 2 returns; a following `dev 7` (not registered) keeps it. -/
theorem current_device_invariant_witness :
    ((serial_set_dev_num (demo_env (config_ops 0 0)) 2
      ((demo_state none (fun _ => 0) ()).emit
        (Event.printf (Msg.setting_serial 2)))).2.serial_cur_dev = none ∨
      ∃ h, (serial_set_dev_num (demo_env (config_ops 0 0)) 2
        ((demo_state none (fun _ => 0) ()).emit
          (Event.printf (Msg.setting_serial 2)))).2.serial_cur_dev = some h ∧
        Registered (demo_env (config_ops 0 0)) h) ∧
    (do_serial_dev_num (demo_env (config_ops 0 0)) ["dev", "2"]
      (demo_state none (fun _ => 0) ())).map (fun r => (r.1, r.2.serial_cur_dev))
      = some (0, some 102) ∧
    ((do_serial_dev_num (demo_env (config_ops 0 0)) ["dev", "2"]
      (demo_state none (fun _ => 0) ())).bind
      (fun r => do_serial_dev_num (demo_env (config_ops 0 0)) ["dev", "7"] r.2)).map
      (fun r => (r.1, r.2.serial_cur_dev)) = some (1, some 102) := by
  have hstep : Step (demo_env (config_ops 0 0)) demo_find_cmd_tbl
      (demo_state none (fun _ => 0) ())
      (serial_set_dev_num (demo_env (config_ops 0 0)) 2
        ((demo_state none (fun _ => 0) ()).emit (Event.printf (Msg.setting_serial 2)))).2 :=
    Step.dev ["dev", "2"] _ 0 _ rfl
  have h := current_device_invariant (demo_env (config_ops 0 0)) demo_find_cmd_tbl _
    (Reachable.step _ _ (Reachable.init _ rfl) hstep)
  exact ⟨h.1, by decide, by decide⟩

/-! ## The configuration step -/

theorem serial_configure_no_ops (env : Env σ) (dev : Handle) (st : State σ)
    (hops : env.serial_get_ops dev = none) : serial_configure env dev st = (0, st) := by
  simp [serial_configure, hops]

theorem serial_configure_setconfig_failed (env : Env σ) (ops : dm_serial_ops σ) (dev : Handle)
    (st : State σ) (hops : env.serial_get_ops dev = some ops)
    (h1 : (ops.setconfig (st.hw dev) env.SERIAL_DEFAULT_CONFIG).1 ≠ 0) :
    serial_configure env dev st
      = (-1, { st with
          hw := Function.update st.hw dev
            (ops.setconfig (st.hw dev) env.SERIAL_DEFAULT_CONFIG).2
          trace := st.trace ++
            [Event.setconfig dev env.SERIAL_DEFAULT_CONFIG
                (ops.setconfig (st.hw dev) env.SERIAL_DEFAULT_CONFIG).1,
              Event.printf (Msg.setconfig_failed
                (ops.setconfig (st.hw dev) env.SERIAL_DEFAULT_CONFIG).1)] }) := by
  simp [serial_configure, hops, h1, State.emit, State.set_hw]

theorem serial_configure_setbrg_failed (env : Env σ) (ops : dm_serial_ops σ) (dev : Handle)
    (st : State σ) (hops : env.serial_get_ops dev = some ops)
    (h1 : (ops.setconfig (st.hw dev) env.SERIAL_DEFAULT_CONFIG).1 = 0)
    (h2 : (ops.setbrg (ops.setconfig (st.hw dev) env.SERIAL_DEFAULT_CONFIG).2 115200).1 ≠ 0) :
    serial_configure env dev st
      = (-1, { st with
          hw := Function.update st.hw dev
            (ops.setbrg (ops.setconfig (st.hw dev) env.SERIAL_DEFAULT_CONFIG).2 115200).2
          trace := st.trace ++
            [Event.setconfig dev env.SERIAL_DEFAULT_CONFIG 0,
              Event.setbrg dev 115200
                (ops.setbrg (ops.setconfig (st.hw dev) env.SERIAL_DEFAULT_CONFIG).2 115200).1,
              Event.printf (Msg.setbrg_failed
                (ops.setbrg (ops.setconfig (st.hw dev) env.SERIAL_DEFAULT_CONFIG).2
                  115200).1)] }) := by
  simp [serial_configure, hops, h1, h2, State.emit, State.set_hw]

theorem serial_configure_ok (env : Env σ) (ops : dm_serial_ops σ) (dev : Handle)
    (st : State σ) (hops : env.serial_get_ops dev = some ops)
    (h1 : (ops.setconfig (st.hw dev) env.SERIAL_DEFAULT_CONFIG).1 = 0)
    (h2 : (ops.setbrg (ops.setconfig (st.hw dev) env.SERIAL_DEFAULT_CONFIG).2 115200).1 = 0) :
    serial_configure env dev st
      = (0, { st with
          hw := Function.update st.hw dev
            (ops.setbrg (ops.setconfig (st.hw dev) env.SERIAL_DEFAULT_CONFIG).2 115200).2
          trace := st.trace ++
            [Event.setconfig dev env.SERIAL_DEFAULT_CONFIG 0,
              Event.setbrg dev 115200 0] }) := by
  simp [serial_configure, hops, h1, h2, State.emit, State.set_hw]

theorem config_calls_append (a b : List Event) :
    config_calls (a ++ b) = config_calls a ++ config_calls b := by
  simp [config_calls, List.filter_append]

theorem serial_configure_calls (env : Env σ) (ops : dm_serial_ops σ) (dev : Handle)
    (st : State σ) (hops : env.serial_get_ops dev = some ops) :
    config_calls (serial_configure env dev st).2.trace
      = config_calls st.trace ++
        Event.setconfig dev env.SERIAL_DEFAULT_CONFIG
          (ops.setconfig (st.hw dev) env.SERIAL_DEFAULT_CONFIG).1 ::
        (if (ops.setconfig (st.hw dev) env.SERIAL_DEFAULT_CONFIG).1 = 0 then
          [Event.setbrg dev 115200
            (ops.setbrg (ops.setconfig (st.hw dev) env.SERIAL_DEFAULT_CONFIG).2 115200).1]
        else []) := by
  by_cases h1 : (ops.setconfig (st.hw dev) env.SERIAL_DEFAULT_CONFIG).1 = 0
  · by_cases h2 :
      (ops.setbrg (ops.setconfig (st.hw dev) env.SERIAL_DEFAULT_CONFIG).2 115200).1 = 0
    · rw [serial_configure_ok env ops dev st hops h1 h2]
      simp [config_calls_append, h1, h2, config_calls]
    · rw [serial_configure_setbrg_failed env ops dev st hops h1 h2]
      simp [config_calls_append, h1, config_calls]
  · rw [serial_configure_setconfig_failed env ops dev st hops h1]
    simp [config_calls_append, h1, config_calls]

/-- C15 (re-selection is idempotent on the reference but re-runs the
configuration).  When ordinal `n` resolves to the handle `h` and `h` is already
current, `serial_set_dev_num n` returns 0 and leaves the reference (and memory)
as they were, and so does a second such call; but every call runs
`serial_configure` on `h` again: the new state is the state `serial_configure`
produces after the lookup, and when `h` has an operation table the
configuration calls in the trace grow by a `setconfig` call on `h`, followed by a
`setbrg` call when `setconfig` returned 0. -/
theorem reselection_reruns_configuration (env : Env σ) (st : State σ) (n : Nat) (h : Handle)
    (hreg : env.uclass_get_device_by_seq n = (0, h)) (hcur : st.serial_cur_dev = some h) :
    (serial_set_dev_num env n st).1 = 0 ∧
    (serial_set_dev_num env n st).2.serial_cur_dev = st.serial_cur_dev ∧
    (serial_set_dev_num env n st).2.mem = st.mem ∧
    (serial_set_dev_num env n (serial_set_dev_num env n st).2).1 = 0 ∧
    (serial_set_dev_num env n (serial_set_dev_num env n st).2).2.serial_cur_dev
      = (serial_set_dev_num env n st).2.serial_cur_dev ∧
    (serial_set_dev_num env n st).2
      = (serial_configure env h (st.emit (Event.lookup n 0))).2 ∧
    (∀ ops, env.serial_get_ops h = some ops →
      config_calls (serial_set_dev_num env n st).2.trace
        = config_calls st.trace ++
          Event.setconfig h env.SERIAL_DEFAULT_CONFIG
            (ops.setconfig (st.hw h) env.SERIAL_DEFAULT_CONFIG).1 ::
          (if (ops.setconfig (st.hw h) env.SERIAL_DEFAULT_CONFIG).1 = 0 then
            [Event.setbrg h 115200
              (ops.setbrg (ops.setconfig (st.hw h) env.SERIAL_DEFAULT_CONFIG).2 115200).1]
          else [])) := by
  obtain ⟨a1, a2, a3, -⟩ := serial_set_dev_num_found env st n h hreg
  obtain ⟨b1, b2, -, -⟩ := serial_set_dev_num_found env (serial_set_dev_num env n st).2 n h hreg
  have e : (serial_set_dev_num env n st).2
      = (serial_configure env h (st.emit (Event.lookup n 0))).2 := by
    have hst : ({ st.emit (Event.lookup n 0) with serial_cur_dev := some h } : State σ)
        = st.emit (Event.lookup n 0) := by
      simp [State.emit, ← hcur]
    simp [serial_set_dev_num, hreg, hst]
  refine ⟨a1, a2.trans hcur.symm, a3, b1, b2.trans a2.symm, e, ?_⟩
  intro ops hops
  rw [e, serial_configure_calls env ops h _ hops]
  simp [State.emit, config_calls_append, config_calls]

/-- Device 102 is current; `serial_set_dev_num 2` twice returns 0 twice, keeps 102,
and each call looks the device up and calls `setconfig` and `setbrg` on it. -/
theorem reselection_reruns_configuration_witness :
    ((serial_set_dev_num (demo_env (config_ops 0 0)) 2
        (demo_state (some 102) (fun _ => 0) ())).1 = 0 ∧
      (serial_set_dev_num (demo_env (config_ops 0 0)) 2
        (demo_state (some 102) (fun _ => 0) ())).2.serial_cur_dev = some 102) ∧
    (serial_set_dev_num (demo_env (config_ops 0 0)) 2
      (serial_set_dev_num (demo_env (config_ops 0 0)) 2
        (demo_state (some 102) (fun _ => 0) ())).2).2.trace
      = [Event.lookup 2 0, Event.setconfig 102 28 0, Event.setbrg 102 115200 0,
          Event.lookup 2 0, Event.setconfig 102 28 0, Event.setbrg 102 115200 0] ∧
    (serial_set_dev_num (demo_env (config_ops (-5) 0)) 2
      (serial_set_dev_num (demo_env (config_ops (-5) 0)) 2
        (demo_state (some 102) (fun _ => 0) ())).2).2.trace
      = [Event.lookup 2 0, Event.setconfig 102 28 (-5),
          Event.printf (Msg.setconfig_failed (-5)),
          Event.lookup 2 0, Event.setconfig 102 28 (-5),
          Event.printf (Msg.setconfig_failed (-5))] := by
  obtain ⟨h1, h2, -⟩ := reselection_reruns_configuration (demo_env (config_ops 0 0))
    (demo_state (some 102) (fun _ => 0) ()) 2 102 rfl rfl
  exact ⟨⟨h1, h2⟩, by decide, by decide⟩

/-- C19, as stated, fails for a handle without an operation table: with
`serial_get_ops` NULL, `serial_configure` returns 0 and calls neither `setconfig` nor
`setbrg`, so the default line configuration is not applied. -/
theorem serial_configure_without_ops_counterexample :
    demo_env_no_ops.serial_get_ops 101 = none ∧
    (serial_configure demo_env_no_ops 101 (demo_state (some 101) (fun _ => 0) ())).1 = 0 ∧
    (serial_configure demo_env_no_ops 101 (demo_state (some 101) (fun _ => 0) ())).2.trace
      = [] ∧
    ¬ ∃ r evs, (serial_configure demo_env_no_ops 101
        (demo_state (some 101) (fun _ => 0) ())).2.trace
      = Event.setconfig 101 demo_env_no_ops.SERIAL_DEFAULT_CONFIG r :: evs := by
  refine ⟨rfl, rfl, rfl, ?_⟩
  rintro ⟨r, evs, h⟩
  have h0 : (serial_configure demo_env_no_ops 101
      (demo_state (some 101) (fun _ => 0) ())).2.trace = [] := rfl
  rw [h0] at h
  exact absurd h (by simp)

/-- C19, amended.  For a handle with an operation table, `serial_configure` first
calls `setconfig` with `SERIAL_DEFAULT_CONFIG`; only if that returned 0 it calls
`setbrg` with 115200 (after a failed `setconfig` no `setbrg` call is made); it
returns a non-zero value (-1) exactly when `setconfig` returned non-zero or
`setconfig` returned 0 and `setbrg` returned non-zero, and 0 exactly when both
returned 0.  For a handle without an operation table it calls neither and
returns 0 with the state unchanged. -/
theorem serial_configure_step (env : Env σ) (dev : Handle) (st : State σ) :
    (env.serial_get_ops dev = none → serial_configure env dev st = (0, st)) ∧
    (∀ ops, env.serial_get_ops dev = some ops →
      (∃ evs, (serial_configure env dev st).2.trace
        = st.trace ++ Event.setconfig dev env.SERIAL_DEFAULT_CONFIG
            (ops.setconfig (st.hw dev) env.SERIAL_DEFAULT_CONFIG).1 :: evs) ∧
      config_calls (serial_configure env dev st).2.trace
        = config_calls st.trace ++
          Event.setconfig dev env.SERIAL_DEFAULT_CONFIG
            (ops.setconfig (st.hw dev) env.SERIAL_DEFAULT_CONFIG).1 ::
          (if (ops.setconfig (st.hw dev) env.SERIAL_DEFAULT_CONFIG).1 = 0 then
            [Event.setbrg dev 115200
              (ops.setbrg (ops.setconfig (st.hw dev) env.SERIAL_DEFAULT_CONFIG).2 115200).1]
          else []) ∧
      ((serial_configure env dev st).1 ≠ 0 ↔
        ((ops.setconfig (st.hw dev) env.SERIAL_DEFAULT_CONFIG).1 ≠ 0 ∨
          ((ops.setconfig (st.hw dev) env.SERIAL_DEFAULT_CONFIG).1 = 0 ∧
            (ops.setbrg (ops.setconfig (st.hw dev) env.SERIAL_DEFAULT_CONFIG).2 115200).1
              ≠ 0))) ∧
      ((serial_configure env dev st).1 = 0 ↔
        ((ops.setconfig (st.hw dev) env.SERIAL_DEFAULT_CONFIG).1 = 0 ∧
          (ops.setbrg (ops.setconfig (st.hw dev) env.SERIAL_DEFAULT_CONFIG).2 115200).1
            = 0))) := by
  refine ⟨serial_configure_no_ops env dev st, fun ops hops => ?_⟩
  refine ⟨?_, serial_configure_calls env ops dev st hops, ?_, ?_⟩
  · by_cases h1 : (ops.setconfig (st.hw dev) env.SERIAL_DEFAULT_CONFIG).1 = 0
    · by_cases h2 :
        (ops.setbrg (ops.setconfig (st.hw dev) env.SERIAL_DEFAULT_CONFIG).2 115200).1 = 0
      · rw [serial_configure_ok env ops dev st hops h1 h2]
        exact ⟨_, by simp [h1]; rfl⟩
      · rw [serial_configure_setbrg_failed env ops dev st hops h1 h2]
        exact ⟨_, by simp [h1]; rfl⟩
    · rw [serial_configure_setconfig_failed env ops dev st hops h1]
      exact ⟨_, rfl⟩
  · by_cases h1 : (ops.setconfig (st.hw dev) env.SERIAL_DEFAULT_CONFIG).1 = 0
    · by_cases h2 :
        (ops.setbrg (ops.setconfig (st.hw dev) env.SERIAL_DEFAULT_CONFIG).2 115200).1 = 0
      · rw [serial_configure_ok env ops dev st hops h1 h2]
        simp [h1, h2]
      · rw [serial_configure_setbrg_failed env ops dev st hops h1 h2]
        simp [h1, h2]
    · rw [serial_configure_setconfig_failed env ops dev st hops h1]
      simp [h1]
  · by_cases h1 : (ops.setconfig (st.hw dev) env.SERIAL_DEFAULT_CONFIG).1 = 0
    · by_cases h2 :
        (ops.setbrg (ops.setconfig (st.hw dev) env.SERIAL_DEFAULT_CONFIG).2 115200).1 = 0
      · rw [serial_configure_ok env ops dev st hops h1 h2]
        simp [h1, h2]
      · rw [serial_configure_setbrg_failed env ops dev st hops h1 h2]
        simp [h1, h2]
    · rw [serial_configure_setconfig_failed env ops dev st hops h1]
      simp [h1]

/-! ## Transmission with hard errors -/

theorem do_serial_write_yields (env : Env σ) (ops : dm_serial_ops σ) (dev : Handle)
    (cmd a l : String) (st : State σ) (ts : List (Nat × Nat × Int)) (s1 : σ)
    (hops : env.serial_get_ops dev = some ops) (hcur : st.serial_cur_dev = some dev)
    (hy : PutcYields env.EAGAIN ops.putc (st.hw dev) ts s1)
    (hmap : ts.map (fun t => t.1)
      = crlf (mem_bytes st.mem (env.simple_strtoul a 16) (ulong_to_uint (env.simple_strtoul l 16))))
    (fuel : Nat) (hfuel : ∀ t ∈ ts, t.2.1 + 1 < fuel) :
    do_serial_write env fuel [cmd, a, l] st =
      some (0, { st with
        hw := Function.update st.hw dev s1
        trace := st.trace
          ++ [Event.printf (Msg.trying_to_write (ulong_to_uint (env.simple_strtoul l 16)))]
          ++ putc_trace env.EAGAIN dev ts }) := by
  have hg := serial_get_cur_device_set env
    (st.emit (Event.printf (Msg.trying_to_write (ulong_to_uint (env.simple_strtoul l 16))))) dev
    hcur
  have hl := do_serial_write_loop_yields env ops dev hops fuel
    (ulong_to_uint (env.simple_strtoul l 16)) (env.simple_strtoul a 16)
    (st.emit (Event.printf (Msg.trying_to_write (ulong_to_uint (env.simple_strtoul l 16)))))
    ts s1 hy hmap hfuel
  simp only [do_serial_write, List.length_cons, List.length_nil, List.getD_cons_succ,
    List.getD_cons_zero]
  simp only [hg]
  simp only [hl]
  simp [State.emit]

theorem do_serial_write_returns (env : Env σ) (ops : dm_serial_ops σ) (dev : Handle)
    (cmd a l : String) (st : State σ)
    (hops : env.serial_get_ops dev = some ops) (hcur : st.serial_cur_dev = some dev)
    (fuel : Nat) (r : Int) (st1 : State σ)
    (h : do_serial_write env fuel [cmd, a, l] st = some (r, st1)) :
    r = 0 ∧ ∃ ts s1, PutcYields env.EAGAIN ops.putc (st.hw dev) ts s1 ∧
      ts.map (fun t => t.1)
        = crlf (mem_bytes st.mem (env.simple_strtoul a 16)
            (ulong_to_uint (env.simple_strtoul l 16))) ∧
      (∀ t ∈ ts, t.2.1 < fuel) ∧
      st1 = { st with
        hw := Function.update st.hw dev s1
        trace := st.trace
          ++ [Event.printf (Msg.trying_to_write (ulong_to_uint (env.simple_strtoul l 16)))]
          ++ putc_trace env.EAGAIN dev ts } := by
  have hg := serial_get_cur_device_set env
    (st.emit (Event.printf (Msg.trying_to_write (ulong_to_uint (env.simple_strtoul l 16))))) dev
    hcur
  simp only [do_serial_write, List.length_cons, List.length_nil, List.getD_cons_succ,
    List.getD_cons_zero] at h
  simp only [hg] at h
  simp only [Nat.reduceAdd, Nat.lt_irrefl, ne_eq, not_true_eq_false, if_false] at h
  cases hl : do_serial_write_loop env fuel dev (ulong_to_uint (env.simple_strtoul l 16))
      (env.simple_strtoul a 16)
      (st.emit (Event.printf (Msg.trying_to_write (ulong_to_uint (env.simple_strtoul l 16)))))
    with
  | none => simp [hl] at h
  | some st2 =>
    simp only [hl, Option.some.injEq, Prod.mk.injEq] at h
    obtain ⟨ts, s1, hy, hm, hk, e⟩ := do_serial_write_loop_returns env ops dev hops fuel _ _ _ _ hl
    refine ⟨h.1.symm, ts, s1, hy, hm, hk, ?_⟩
    rw [← h.2, e]
    simp [State.emit]

theorem do_serial_read_returns (env : Env σ) (ops : dm_serial_ops σ) (dev : Handle)
    (cmd a l : String) (st : State σ)
    (hops : env.serial_get_ops dev = some ops) (hcur : st.serial_cur_dev = some dev)
    (fuel : Nat) (r : Int) (st1 : State σ)
    (h : do_serial_read env fuel [cmd, a, l] st = some (r, st1)) :
    r = 0 ∧ ∃ kbs s1, GetcYields env.EAGAIN ops.getc (st.hw dev) kbs s1 ∧
      kbs.length = ulong_to_uint (env.simple_strtoul l 16) ∧
      (∀ p ∈ kbs, p.1 < fuel) ∧
      st1 = { st with
        mem := store_bytes st.mem (env.simple_strtoul a 16) (kbs.map fun p => stored_byte p.2)
        hw := Function.update st.hw dev s1
        trace := st.trace ++ [Event.printf (Msg.trying_to_read kbs.length)]
          ++ (kbs.map fun p => getc_events env.EAGAIN dev p.1 p.2).flatten } := by
  have hg := serial_get_cur_device_set env
    (st.emit (Event.printf (Msg.trying_to_read (ulong_to_uint (env.simple_strtoul l 16))))) dev
    hcur
  simp only [do_serial_read, List.length_cons, List.length_nil, List.getD_cons_succ,
    List.getD_cons_zero] at h
  simp only [hg] at h
  simp only [Nat.reduceAdd, ne_eq, not_true_eq_false, if_false] at h
  cases hl : do_serial_read_loop env fuel dev (ulong_to_uint (env.simple_strtoul l 16))
      (env.simple_strtoul a 16)
      (st.emit (Event.printf (Msg.trying_to_read (ulong_to_uint (env.simple_strtoul l 16)))))
    with
  | none => simp [hl] at h
  | some st2 =>
    simp only [hl, Option.some.injEq, Prod.mk.injEq] at h
    obtain ⟨kbs, s1, hy, hlen, hk, e⟩ :=
      do_serial_read_loop_returns env ops dev hops fuel _ _ _ _ hl
    refine ⟨h.1.symm, kbs, s1, hy, hlen, hk, ?_⟩
    rw [← h.2, e, hlen]
    simp [State.emit, getc_trace]

theorem lt_sum_add_two_of_mem (ts : List (Nat × Nat × Int)) (t : Nat × Nat × Int)
    (h : t ∈ ts) : t.2.1 + 1 < (ts.map fun x => x.2.1).sum + 2 := by
  have := lt_succ_sum_of_mem (ts.map fun x => x.2.1) t.2.1
    (List.mem_map_of_mem (fun x : Nat × Nat × Int => x.2.1) h)
  omega

theorem putc_calls_append (dev : Handle) (a b : List Event) :
    putc_calls dev (a ++ b) = putc_calls dev a ++ putc_calls dev b := by
  simp [putc_calls, List.filterMap_append]

theorem putc_calls_putc_events (E : Int) (dev : Handle) (ch k : Nat) (r : Int) :
    putc_calls dev (putc_events E dev ch k r) = List.replicate k (ch, -E) ++ [(ch, r)] := by
  have hbusy : putc_calls dev (List.replicate k (Event.putc dev ch (-E)))
      = List.replicate k (ch, -E) := by
    induction k with
    | zero => rfl
    | succ n ih =>
      rw [List.replicate_succ, ← List.singleton_append, putc_calls_append, ih]
      simp [putc_calls, List.replicate_succ]
  rw [putc_events, putc_calls_append, hbusy]
  simp [putc_calls]

theorem putc_calls_putc_trace (E : Int) (dev : Handle) (ts : List (Nat × Nat × Int)) :
    putc_calls dev (putc_trace E dev ts)
      = (ts.map fun t => List.replicate t.2.1 (t.1, -E) ++ [(t.1, t.2.2)]).flatten := by
  induction ts with
  | nil => rfl
  | cons t ts ih =>
    rw [putc_trace_cons, putc_calls_append, ih, putc_calls_putc_events]
    simp

theorem PutcYields.outcomes_ne_busy {E : Int} {putc : σ → Nat → Int × σ} {s : σ}
    {ts : List (Nat × Nat × Int)} {s1 : σ} (h : PutcYields E putc s ts s1) :
    ∀ t ∈ ts, t.2.2 ≠ -E := by
  induction h with
  | nil s => intro t ht; simp at ht
  | cons ch k s r sa ts s1 hs _ ih =>
    intro t ht
    rcases List.mem_cons.mp ht with rfl | ht
    · exact hs.ne_busy
    · exact ih t ht

theorem never_settles (E : Int) (op : σ → Int × σ) (hbusy : ∀ s, (op s).1 = -E)
    {k : Nat} {s : σ} {r : Int} {s1 : σ} (h : Settles E op k s r s1) : False := by
  induction h with
  | done s hne => exact hne (hbusy s)
  | busy k s r s1 _ _ ih => exact ih

/-- C16, as stated, fails for a device that is busy for ever: when every
`putc` outcome is `-EAGAIN`, `do_serial_write` of one byte returns for no fuel at
all, so it does not return 0. -/
theorem never_ready_write_does_not_return_counterexample :
    (constant_ops (-11)).putc () 65 = (-(demo_env (constant_ops (-11))).EAGAIN, ()) ∧
    (do_serial_write (demo_env (constant_ops (-11))) 50 ["write", "1000", "1"]
      (demo_state (some 101) (mem_of 4096 [65]) ())).isNone = true ∧
    ¬ ∃ fuel r, do_serial_write (demo_env (constant_ops (-11))) fuel ["write", "1000", "1"]
      (demo_state (some 101) (mem_of 4096 [65]) ()) = some r := by
  refine ⟨rfl, by decide, ?_⟩
  rintro ⟨fuel, ⟨r, st1⟩, h⟩
  obtain ⟨-, ts, s1, hy, hm, -, -⟩ := do_serial_write_returns (demo_env (constant_ops (-11)))
    (constant_ops (-11)) 101 "write" "1000" "1" _ rfl rfl fuel r st1 h
  have hb : crlf (mem_bytes (demo_state (some 101) (mem_of 4096 [65]) ()).mem
      ((demo_env (constant_ops (-11))).simple_strtoul "1000" 16)
      (ulong_to_uint ((demo_env (constant_ops (-11))).simple_strtoul "1" 16))) = [65] := by
    decide
  rw [hb] at hm
  cases hy with
  | nil => simp at hm
  | cons ch k _ r2 sa ts2 _ hs _ =>
    exact never_settles _ _ (fun _ => rfl) hs

/-- C16, amended (transmit errors are swallowed).  With a resolved current
device whose `putc` leaves the not-ready outcome after finitely many polls, for
every character and from every driver state: the bulk write returns 0 for every
large enough fuel, and whenever it returns it has returned 0 and reached the
same state.  The characters it transmits are the memory bytes in order with a
carriage return before every line feed; for each of them `putc` is called until
the first outcome other than `-EAGAIN` (which may be a hard error) and not
again, as the `putc` calls in the trace show. -/
theorem transmit_errors_swallowed (env : Env σ) (ops : dm_serial_ops σ) (dev : Handle)
    (cmd a l : String) (st : State σ)
    (hops : env.serial_get_ops dev = some ops) (hcur : st.serial_cur_dev = some dev)
    (hsettle : ∀ (s : σ) (ch : Nat), ∃ k r s1,
      Settles env.EAGAIN (fun x => ops.putc x ch) k s r s1) :
    ∃ ts s1 st1,
      PutcYields env.EAGAIN ops.putc (st.hw dev) ts s1 ∧
      ts.map (fun t => t.1)
        = crlf (mem_bytes st.mem (env.simple_strtoul a 16)
            (ulong_to_uint (env.simple_strtoul l 16))) ∧
      (∀ t ∈ ts, t.2.2 ≠ -env.EAGAIN) ∧
      (∃ fuel0, ∀ fuel, fuel0 ≤ fuel → do_serial_write env fuel [cmd, a, l] st = some (0, st1)) ∧
      (∀ fuel r st2, do_serial_write env fuel [cmd, a, l] st = some (r, st2) →
        r = 0 ∧ st2 = st1) ∧
      putc_calls dev st1.trace = putc_calls dev st.trace ++
        (ts.map fun t => List.replicate t.2.1 (t.1, -env.EAGAIN) ++ [(t.1, t.2.2)]).flatten ∧
      st1.mem = st.mem ∧ st1.serial_cur_dev = st.serial_cur_dev := by
  obtain ⟨ts, s1, hy, hm⟩ := putc_yields_exists env.EAGAIN ops.putc hsettle
    (crlf (mem_bytes st.mem (env.simple_strtoul a 16) (ulong_to_uint (env.simple_strtoul l 16))))
    (st.hw dev)
  refine ⟨ts, s1, _, hy, hm, hy.outcomes_ne_busy, ⟨(ts.map fun x => x.2.1).sum + 2, fun fuel hf =>
    do_serial_write_yields env ops dev cmd a l st ts s1 hops hcur hy hm fuel
      (fun t ht => lt_of_lt_of_le (lt_sum_add_two_of_mem ts t ht) hf)⟩, ?_, ?_, rfl, rfl⟩
  · intro fuel r st2 h
    obtain ⟨hr, ts2, s2, hy2, hm2, -, e⟩ :=
      do_serial_write_returns env ops dev cmd a l st hops hcur fuel r st2 h
    obtain ⟨e1, e2⟩ := hy.unique_of_chars hy2 (hm2.trans hm.symm)
    subst e1
    subst e2
    exact ⟨hr, e⟩
  · simp only [putc_calls_append, putc_calls_putc_trace]
    simp [putc_calls]

/-- A device whose `putc` always fails with -5, the bytes 65 and 10 at 0x1000: the
bulk write returns 0 and calls `putc` once for 65, once for the inserted 13 and
once for 10, although every call failed and nothing reached the wire. -/
theorem transmit_errors_swallowed_witness :
    (∃ st1 : State Unit,
      (∃ fuel0, ∀ fuel, fuel0 ≤ fuel →
        do_serial_write (demo_env (constant_ops (-5))) fuel ["write", "1000", "2"]
          (demo_state (some 101) (mem_of 4096 [65, 10]) ()) = some (0, st1)) ∧
      st1.serial_cur_dev = some 101) ∧
    (do_serial_write (demo_env (constant_ops (-5))) 2 ["write", "1000", "2"]
      (demo_state (some 101) (mem_of 4096 [65, 10]) ())).map
      (fun r => (r.1, putc_calls 101 r.2.trace, wire 101 r.2.trace))
      = some (0, [(65, -5), (13, -5), (10, -5)], []) := by
  obtain ⟨ts, s1, st1, -, -, -, hrun, -, -, -, hc⟩ :=
    transmit_errors_swallowed (demo_env (constant_ops (-5))) (constant_ops (-5)) 101
      "write" "1000" "2" (demo_state (some 101) (mem_of 4096 [65, 10]) ()) rfl rfl
      (fun s ch => ⟨0, _, _, @Settles.done Unit 11 (fun x => (constant_ops (-5)).putc x ch) s
        (show (-5 : Int) ≠ -11 by decide)⟩)
  exact ⟨⟨st1, hrun, hc⟩, by decide⟩

/-! ## Watchdog services -/

theorem watchdogs_append (a b : List Event) : watchdogs (a ++ b) = watchdogs a + watchdogs b := by
  simp [watchdogs, List.filter_append]

theorem watchdogs_getc_events (E : Int) (dev : Handle) (k : Nat) (r : Int) :
    watchdogs (getc_events E dev k r) = k := by
  have hbusy : watchdogs (List.replicate k [Event.getc dev (-E), Event.watchdog]).flatten = k := by
    induction k with
    | zero => rfl
    | succ n ih =>
      rw [List.replicate_succ, List.flatten_cons, watchdogs_append, ih]
      simp [watchdogs]
      omega
  rw [getc_events, watchdogs_append, hbusy]
  simp [watchdogs]

theorem watchdogs_putc_events (E : Int) (dev : Handle) (ch k : Nat) (r : Int) :
    watchdogs (putc_events E dev ch k r) = 0 := by
  have hbusy : watchdogs (List.replicate k (Event.putc dev ch (-E))) = 0 := by
    induction k with
    | zero => rfl
    | succ n ih =>
      rw [List.replicate_succ, ← List.singleton_append, watchdogs_append, ih]
      simp [watchdogs]
  rw [putc_events, watchdogs_append, hbusy]
  simp [watchdogs]

theorem serial_write_char_watchdogs (env : Env σ) (fuel : Nat) (dev : Handle) (ch : Nat)
    (st st1 : State σ) (h : serial_write_char env dev fuel ch st = some st1) :
    watchdogs st1.trace = watchdogs st.trace := by
  cases hops : env.serial_get_ops dev with
  | none =>
    cases fuel with
    | zero => simp [serial_write_char] at h
    | succ f => simp [serial_write_char, hops] at h
  | some ops =>
    by_cases hch : ch = 10
    · subst hch
      obtain ⟨_, _, _, _, _, _, -, -, -, -, e⟩ :=
        serial_write_char_returns_newline env ops dev hops fuel st st1 h
      rw [e]
      simp [watchdogs_append, watchdogs_putc_events]
    · obtain ⟨_, _, _, -, -, e⟩ :=
        serial_write_char_returns_plain env ops dev hops ch hch fuel st st1 h
      rw [e]
      simp [watchdogs_append, watchdogs_putc_events]

theorem do_serial_write_loop_watchdogs (env : Env σ) (fuel : Nat) (dev : Handle) (n : Nat) :
    ∀ (memaddr : Nat) (st st1 : State σ),
      do_serial_write_loop env fuel dev n memaddr st = some st1 →
      watchdogs st1.trace = watchdogs st.trace := by
  induction n with
  | zero =>
    intro memaddr st st1 h
    simp only [do_serial_write_loop, Option.some.injEq] at h
    rw [h]
  | succ m ih =>
    intro memaddr st st1 h
    simp only [do_serial_write_loop] at h
    cases hr : serial_write_char env dev fuel (st.mem memaddr % 256) st with
    | none => simp [hr] at h
    | some st2 =>
      simp only [hr] at h
      rw [ih _ _ _ h]
      exact serial_write_char_watchdogs env fuel dev _ st st2 hr

theorem serial_configure_watchdogs (env : Env σ) (dev : Handle) (st : State σ) :
    watchdogs (serial_configure env dev st).2.trace = watchdogs st.trace := by
  cases hops : env.serial_get_ops dev with
  | none => rw [serial_configure_no_ops env dev st hops]
  | some ops =>
    by_cases h1 : (ops.setconfig (st.hw dev) env.SERIAL_DEFAULT_CONFIG).1 = 0
    · by_cases h2 :
        (ops.setbrg (ops.setconfig (st.hw dev) env.SERIAL_DEFAULT_CONFIG).2 115200).1 = 0
      · rw [serial_configure_ok env ops dev st hops h1 h2]
        simp [watchdogs_append, watchdogs]
      · rw [serial_configure_setbrg_failed env ops dev st hops h1 h2]
        simp [watchdogs_append, watchdogs]
    · rw [serial_configure_setconfig_failed env ops dev st hops h1]
      simp [watchdogs_append, watchdogs]

theorem serial_set_dev_num_watchdogs (env : Env σ) (n : Nat) (st : State σ) :
    watchdogs (serial_set_dev_num env n st).2.trace = watchdogs st.trace := by
  simp only [serial_set_dev_num]
  split
  · simp [State.emit, watchdogs_append, watchdogs]
  · rw [serial_configure_watchdogs]
    simp [State.emit, watchdogs_append, watchdogs]

theorem watchdogs_printf (m : Msg) : watchdogs [Event.printf m] = 0 := rfl

theorem watchdogs_emit_printf (st : State σ) (m : Msg) :
    watchdogs (st.emit (Event.printf m)).trace = watchdogs st.trace := by
  simp only [State.emit, watchdogs_append, watchdogs_printf, Nat.add_zero]

theorem serial_get_cur_device_watchdogs (env : Env σ) (st : State σ) :
    watchdogs (serial_get_cur_device env st).2.2.trace = watchdogs st.trace := by
  have hs := serial_set_dev_num_watchdogs env DEFAULT_SERIAL_DEVICE st
  simp only [serial_get_cur_device, serial_get_cur_device_tail]
  split
  · split
    · simp only [State.emit, watchdogs_append, hs, watchdogs_printf, Nat.add_zero]
    · split
      · simp only [State.emit, watchdogs_append, hs, watchdogs_printf, Nat.add_zero]
      · exact hs
  · split
    · simp only [State.emit, watchdogs_append, watchdogs_printf, Nat.add_zero]
    · rfl

theorem do_serial_write_watchdogs (env : Env σ) (fuel : Nat) (argv : List String)
    (st : State σ) (r : Int) (st1 : State σ)
    (h : do_serial_write env fuel argv st = some (r, st1)) :
    watchdogs st1.trace = watchdogs st.trace := by
  simp only [do_serial_write] at h
  split at h
  · simp only [Option.some.injEq, Prod.mk.injEq] at h
    rw [← h.2]
    simp only [State.emit, watchdogs_append]
    rfl
  · have hg := serial_get_cur_device_watchdogs env (st.emit (Event.printf (Msg.trying_to_write
      (ulong_to_uint (env.simple_strtoul (argv.getD 2 "") 16)))))
    have hg1 : watchdogs (serial_get_cur_device env (st.emit (Event.printf
        (Msg.trying_to_write (ulong_to_uint (env.simple_strtoul (argv.getD 2 "") 16)))))).2.2.trace
        = watchdogs st.trace := by
      rw [hg]
      simp only [State.emit, watchdogs_append, watchdogs_printf, Nat.add_zero]
    split at h
    · simp only [Option.some.injEq, Prod.mk.injEq] at h
      rw [← h.2, watchdogs_emit_printf, hg1]
    · split at h
      · exact absurd h (by simp)
      · split at h
        · exact absurd h (by simp)
        · rename_i st2 hl
          simp only [Option.some.injEq, Prod.mk.injEq] at h
          rw [← h.2, do_serial_write_loop_watchdogs env fuel _ _ _ _ _ hl, hg1]

/-- C17 (watchdog asymmetry).  A `serial_read_char` whose `getc` reports not-ready
`k` times before another outcome `r` returns (with more than `k` units of fuel)
after adding to the trace `k` pairs of a not-ready `getc` and a watchdog service
and then the final `getc`, which no service follows: exactly `k` services.  Every
`serial_read_char` that returns is of this form.  A `serial_write_char`, whatever
the number of not-ready outcomes of `putc`, and a whole `do_serial_write` add no
watchdog service to the trace. -/
theorem watchdog_asymmetry (env : Env σ) (ops : dm_serial_ops σ) (dev : Handle)
    (hops : env.serial_get_ops dev = some ops) :
    (∀ (st : State σ) (fuel k : Nat) (r : Int) (s1 : σ),
      Settles env.EAGAIN ops.getc k (st.hw dev) r s1 → k < fuel →
      ∃ v st1, serial_read_char env fuel dev st = some (v, st1) ∧
        st1.trace = st.trace
          ++ (List.replicate k [Event.getc dev (-env.EAGAIN), Event.watchdog]).flatten
          ++ [Event.getc dev r] ∧
        watchdogs st1.trace = watchdogs st.trace + k) ∧
    (∀ (st : State σ) (fuel : Nat) (v : Int) (st1 : State σ),
      serial_read_char env fuel dev st = some (v, st1) →
      ∃ k r, r ≠ -env.EAGAIN ∧
        st1.trace = st.trace
          ++ (List.replicate k [Event.getc dev (-env.EAGAIN), Event.watchdog]).flatten
          ++ [Event.getc dev r] ∧
        watchdogs st1.trace = watchdogs st.trace + k) ∧
    (∀ (st : State σ) (fuel ch k : Nat) (r : Int) (s1 : σ), ch ≠ 10 →
      Settles env.EAGAIN (fun x => ops.putc x ch) k (st.hw dev) r s1 → k < fuel →
      ∃ st1, serial_write_char env dev fuel ch st = some st1 ∧
        putc_calls dev st1.trace
          = putc_calls dev st.trace ++ List.replicate k (ch, -env.EAGAIN) ++ [(ch, r)] ∧
        watchdogs st1.trace = watchdogs st.trace) ∧
    (∀ (st : State σ) (fuel ch : Nat) (st1 : State σ),
      serial_write_char env dev fuel ch st = some st1 →
      watchdogs st1.trace = watchdogs st.trace) ∧
    (∀ (st : State σ) (fuel : Nat) (argv : List String) (r : Int) (st1 : State σ),
      do_serial_write env fuel argv st = some (r, st1) →
      watchdogs st1.trace = watchdogs st.trace) := by
  refine ⟨?_, ?_, ?_, ?_, ?_⟩
  · intro st fuel k r s1 hs hk
    refine ⟨_, _, serial_read_char_settles env ops dev hops hs st fuel rfl hk, ?_, ?_⟩
    · simp [getc_events, List.append_assoc]
    · simp only [watchdogs_append, watchdogs_getc_events]
  · intro st fuel v st1 h
    obtain ⟨k, r, s1, hs, -, -, e⟩ := serial_read_char_returns env ops dev hops fuel st v st1 h
    refine ⟨k, r, hs.ne_busy, ?_, ?_⟩
    · rw [e]
      simp [getc_events, List.append_assoc]
    · rw [e]
      simp only [watchdogs_append, watchdogs_getc_events]
  · intro st fuel ch k r s1 hch hs hk
    refine ⟨_, serial_write_char_plain env ops dev hops ch hch hs st fuel rfl hk, ?_, ?_⟩
    · simp only [putc_calls_append, putc_calls_putc_events, List.append_assoc]
    · simp only [watchdogs_append, watchdogs_putc_events, Nat.add_zero]
  · intro st fuel ch st1 h
    exact serial_write_char_watchdogs env fuel dev ch st st1 h
  · intro st fuel argv r st1 h
    exact do_serial_write_watchdogs env fuel argv st r st1 h

/-- A receiver that is not ready three times before the byte 65: `serial_read_char`
returns 65 after three watchdog services, each right after a not-ready `getc`.  A
transmitter that is busy twice per byte: writing 65 and 10 calls `putc` nine
times and services the watchdog never. -/
theorem watchdog_asymmetry_witness :
    (∃ v st1, serial_read_char (demo_env (script_getc_ops 11)) 4 101
        (demo_state (some 101) (fun _ => 0) (script_of 11 [(3, 65)] [])) = some (v, st1) ∧
      watchdogs st1.trace
        = watchdogs (demo_state (some 101) (fun _ => 0) (script_of 11 [(3, 65)] [])).trace + 3) ∧
    (serial_read_char (demo_env (script_getc_ops 11)) 4 101
      (demo_state (some 101) (fun _ => 0) (script_of 11 [(3, 65)] []))).map
      (fun r => (r.1, r.2.trace))
      = some (65, [Event.getc 101 (-11), Event.watchdog, Event.getc 101 (-11), Event.watchdog,
          Event.getc 101 (-11), Event.watchdog, Event.getc 101 65]) ∧
    (do_serial_write (demo_env (busy_putc_ops 11 2)) 4 ["write", "1000", "2"]
      (demo_state (some 101) (mem_of 4096 [65, 10]) 2)).map
      (fun r => (r.1, watchdogs r.2.trace, (putc_calls 101 r.2.trace).length))
      = some (0, 0, 9) := by
  obtain ⟨v, st1, h1, -, h3⟩ :=
    (watchdog_asymmetry (demo_env (script_getc_ops 11)) (script_getc_ops 11) 101 rfl).1
      (demo_state (some 101) (fun _ => 0) (script_of 11 [(3, 65)] [])) 4 3 65 []
      (script_getc_settles 11 3 65 (by decide) []) (by decide)
  exact ⟨⟨v, st1, h1, h3⟩, by decide, by decide⟩

/-! ## Termination of the loops -/

theorem getc_calls_append (dev : Handle) (a b : List Event) :
    getc_calls dev (a ++ b) = getc_calls dev a ++ getc_calls dev b := by
  simp [getc_calls, List.filterMap_append]

theorem getc_calls_getc_events (E : Int) (dev : Handle) (k : Nat) (r : Int) :
    getc_calls dev (getc_events E dev k r) = List.replicate k (-E) ++ [r] := by
  have hbusy : getc_calls dev (List.replicate k [Event.getc dev (-E), Event.watchdog]).flatten
      = List.replicate k (-E) := by
    induction k with
    | zero => rfl
    | succ n ih =>
      rw [List.replicate_succ, List.flatten_cons, getc_calls_append, ih]
      simp [getc_calls, List.replicate_succ]
  rw [getc_events, getc_calls_append, hbusy]
  simp [getc_calls]

theorem serial_read_char_needs (env : Env σ) (ops : dm_serial_ops σ) (dev : Handle)
    (hops : env.serial_get_ops dev = some ops)
    {k : Nat} {s : σ} {r : Int} {s1 : σ} (h : Settles env.EAGAIN ops.getc k s r s1)
    (st : State σ) (fuel : Nat) (hs : st.hw dev = s) (hk : fuel ≤ k) :
    serial_read_char env fuel dev st = none := by
  simp [serial_read_char, hops, serial_read_char_loop_needs env ops dev h st fuel hs hk]

theorem serial_write_char_needs (env : Env σ) (ops : dm_serial_ops σ) (dev : Handle)
    (hops : env.serial_get_ops dev = some ops) (ch : Nat) (hch : ch ≠ 10)
    {k : Nat} {s : σ} {r : Int} {s1 : σ}
    (h : Settles env.EAGAIN (fun x => ops.putc x ch) k s r s1)
    (st : State σ) (fuel : Nat) (hs : st.hw dev = s) (hk : fuel ≤ k) :
    serial_write_char env dev fuel ch st = none := by
  cases fuel with
  | zero => simp [serial_write_char]
  | succ f =>
    simp only [serial_write_char, hops, if_neg hch]
    exact serial_write_char_loop_needs env ops dev ch h st (f + 1) hs hk

/-- C18 (the per-byte loops end exactly at the first outcome that is not
not-ready).  If `getc` reports not-ready exactly `k` times and then `r`,
`serial_read_char` returns with every fuel above `k`, after exactly `k + 1` calls of
`getc`, and with no fuel of at most `k`; the same holds for `serial_write_char` of a
character other than the line feed and `putc`.  Against a current device that is
never busy for ever, `do_serial_read` and `do_serial_write` return 0 for every large
enough fuel, having completed all `n` receptions (all transmissions of the `n`
bytes and of the inserted carriage returns); and whenever they return, with any
fuel, it is with 0 and in that same final state: there is no partial completion. -/
theorem per_byte_loops_terminate (env : Env σ) (ops : dm_serial_ops σ) (dev : Handle)
    (hops : env.serial_get_ops dev = some ops) :
    (∀ (st : State σ) (k : Nat) (r : Int) (s1 : σ),
      Settles env.EAGAIN ops.getc k (st.hw dev) r s1 →
      (∀ fuel, k < fuel → ∃ st1,
        serial_read_char env fuel dev st = some (if r ≥ 0 then r else 0, st1) ∧
        getc_calls dev st1.trace
          = getc_calls dev st.trace ++ List.replicate k (-env.EAGAIN) ++ [r]) ∧
      (∀ fuel, fuel ≤ k → serial_read_char env fuel dev st = none)) ∧
    (∀ (st : State σ) (ch k : Nat) (r : Int) (s1 : σ), ch ≠ 10 →
      Settles env.EAGAIN (fun x => ops.putc x ch) k (st.hw dev) r s1 →
      (∀ fuel, k < fuel → ∃ st1,
        serial_write_char env dev fuel ch st = some st1 ∧
        putc_calls dev st1.trace
          = putc_calls dev st.trace ++ List.replicate k (ch, -env.EAGAIN) ++ [(ch, r)]) ∧
      (∀ fuel, fuel ≤ k → serial_write_char env dev fuel ch st = none)) ∧
    (NeverBusyForever env.EAGAIN ops →
      ∀ (cmd a l : String) (st : State σ), st.serial_cur_dev = some dev →
      (∃ st1,
        (∃ fuel0, ∀ fuel, fuel0 ≤ fuel →
          do_serial_read env fuel [cmd, a, l] st = some (0, st1)) ∧
        (∀ fuel r st2, do_serial_read env fuel [cmd, a, l] st = some (r, st2) →
          r = 0 ∧ st2 = st1) ∧
        (received env.EAGAIN dev st1.trace).length
          = (received env.EAGAIN dev st.trace).length
            + ulong_to_uint (env.simple_strtoul l 16)) ∧
      (∃ (st1 : State σ) (ts : List (Nat × Nat × Int)),
        ts.map (fun t => t.1)
          = crlf (mem_bytes st.mem (env.simple_strtoul a 16)
              (ulong_to_uint (env.simple_strtoul l 16))) ∧
        (∃ fuel0, ∀ fuel, fuel0 ≤ fuel →
          do_serial_write env fuel [cmd, a, l] st = some (0, st1)) ∧
        (∀ fuel r st2, do_serial_write env fuel [cmd, a, l] st = some (r, st2) →
          r = 0 ∧ st2 = st1) ∧
        putc_calls dev st1.trace = putc_calls dev st.trace ++
          (ts.map fun t =>
            List.replicate t.2.1 (t.1, -env.EAGAIN) ++ [(t.1, t.2.2)]).flatten)) := by
  refine ⟨?_, ?_, ?_⟩
  · intro st k r s1 hs
    refine ⟨fun fuel hk => ⟨_, serial_read_char_settles env ops dev hops hs st fuel rfl hk, ?_⟩,
      fun fuel hk => serial_read_char_needs env ops dev hops hs st fuel rfl hk⟩
    simp only [getc_calls_append, getc_calls_getc_events, List.append_assoc]
  · intro st ch k r s1 hch hs
    refine ⟨fun fuel hk =>
      ⟨_, serial_write_char_plain env ops dev hops ch hch hs st fuel rfl hk, ?_⟩,
      fun fuel hk => serial_write_char_needs env ops dev hops ch hch hs st fuel rfl hk⟩
    simp only [putc_calls_append, putc_calls_putc_events, List.append_assoc]
  · intro hnbf cmd a l st hcur
    constructor
    · obtain ⟨kbs, s1, hy, hl⟩ := getc_yields_exists env.EAGAIN ops.getc hnbf.1
        (ulong_to_uint (env.simple_strtoul l 16)) (st.hw dev)
      refine ⟨_, ⟨(kbs.map Prod.fst).sum + 1, fun fuel hf =>
        do_serial_read_yields env ops dev cmd a l st kbs s1 hops hcur hy hl fuel
          (fun p hp => lt_of_lt_of_le
            (lt_succ_sum_of_mem _ _ (List.mem_map_of_mem Prod.fst hp)) hf)⟩, ?_, ?_⟩
      · intro fuel r st2 h
        obtain ⟨hr, kbs2, s2, hy2, hl2, -, e⟩ :=
          do_serial_read_returns env ops dev cmd a l st hops hcur fuel r st2 h
        obtain ⟨e1, e2⟩ := hy.unique_of_length hy2 (hl2.trans hl.symm)
        subst e1
        subst e2
        exact ⟨hr, e⟩
      · simp only [received_append, received_yields env.EAGAIN ops.getc dev hy]
        simp [received, hl]
    · obtain ⟨ts, s1, hy, hm⟩ := putc_yields_exists env.EAGAIN ops.putc hnbf.2
        (crlf (mem_bytes st.mem (env.simple_strtoul a 16)
          (ulong_to_uint (env.simple_strtoul l 16)))) (st.hw dev)
      refine ⟨_, ts, hm, ⟨(ts.map fun x => x.2.1).sum + 2, fun fuel hf =>
        do_serial_write_yields env ops dev cmd a l st ts s1 hops hcur hy hm fuel
          (fun t ht => lt_of_lt_of_le (lt_sum_add_two_of_mem ts t ht) hf)⟩, ?_, ?_⟩
      · intro fuel r st2 h
        obtain ⟨hr, ts2, s2, hy2, hm2, -, e⟩ :=
          do_serial_write_returns env ops dev cmd a l st hops hcur fuel r st2 h
        obtain ⟨e1, e2⟩ := hy.unique_of_chars hy2 (hm2.trans hm.symm)
        subst e1
        subst e2
        exact ⟨hr, e⟩
      · simp only [putc_calls_append, putc_calls_putc_trace]
        simp [putc_calls]

theorem busy_putc_ops_never_busy_forever (E : Int) (hE : E ≠ 0) (hE5 : (-5 : Int) ≠ -E)
    (k : Nat) : NeverBusyForever E (busy_putc_ops E k) :=
  ⟨fun s => ⟨0, _, _, @Settles.done Nat E (busy_putc_ops E k).getc s hE5⟩,
    fun s ch => ⟨s, 0, k, busy_putc_ops_settles E hE k ch s⟩⟩

/-- Three not-ready outcomes before the byte 65: `serial_read_char` returns 65 with
fuel 4 after four `getc` calls and does not return with fuel 3.  A transmitter
that is busy twice per byte: `serial_write_char` of 65 returns with fuel 3 after
three `putc` calls and does not return with fuel 2; the bulk write of two bytes
to it returns 0 for every large enough fuel and never anything else. -/
theorem per_byte_loops_terminate_witness :
    ((∀ fuel, 3 < fuel → ∃ st1,
        serial_read_char (demo_env (script_getc_ops 11)) fuel 101
          (demo_state (some 101) (fun _ => 0) (script_of 11 [(3, 65)] []))
          = some (if (65 : Int) ≥ 0 then 65 else 0, st1) ∧
        getc_calls 101 st1.trace
          = getc_calls 101
              (demo_state (some 101) (fun _ => 0) (script_of 11 [(3, 65)] [])).trace
            ++ List.replicate 3 (-(demo_env (script_getc_ops 11)).EAGAIN) ++ [65]) ∧
      (∀ fuel, fuel ≤ 3 →
        serial_read_char (demo_env (script_getc_ops 11)) fuel 101
          (demo_state (some 101) (fun _ => 0) (script_of 11 [(3, 65)] [])) = none)) ∧
    (∃ st1 : State Nat,
      (∃ fuel0, ∀ fuel, fuel0 ≤ fuel →
        do_serial_write (demo_env (busy_putc_ops 11 2)) fuel ["write", "1000", "2"]
          (demo_state (some 101) (mem_of 4096 [65, 10]) 2) = some (0, st1)) ∧
      (∀ fuel r st2,
        do_serial_write (demo_env (busy_putc_ops 11 2)) fuel ["write", "1000", "2"]
          (demo_state (some 101) (mem_of 4096 [65, 10]) 2) = some (r, st2) →
        r = 0 ∧ st2 = st1)) ∧
    (serial_read_char (demo_env (script_getc_ops 11)) 4 101
      (demo_state (some 101) (fun _ => 0) (script_of 11 [(3, 65)] []))).map
      (fun r => (r.1, getc_calls 101 r.2.trace)) = some (65, [-11, -11, -11, 65]) ∧
    (serial_read_char (demo_env (script_getc_ops 11)) 3 101
      (demo_state (some 101) (fun _ => 0) (script_of 11 [(3, 65)] []))).isNone = true ∧
    (serial_write_char (demo_env (busy_putc_ops 11 2)) 101 3 65
      (demo_state (some 101) (fun _ => 0) 2)).map (fun r => putc_calls 101 r.trace)
      = some [(65, -11), (65, -11), (65, 0)] ∧
    (serial_write_char (demo_env (busy_putc_ops 11 2)) 101 2 65
      (demo_state (some 101) (fun _ => 0) 2)).isNone = true ∧
    (do_serial_write (demo_env (busy_putc_ops 11 2)) 4 ["write", "1000", "2"]
      (demo_state (some 101) (mem_of 4096 [65, 10]) 2)).map
      (fun r => (r.1, putc_calls 101 r.2.trace))
      = some (0, [(65, -11), (65, -11), (65, 0), (13, -11), (13, -11), (13, 0),
          (10, -11), (10, -11), (10, 0)]) ∧
    (do_serial_write (demo_env (busy_putc_ops 11 2)) 3 ["write", "1000", "2"]
      (demo_state (some 101) (mem_of 4096 [65, 10]) 2)).isNone = true := by
  have h := (per_byte_loops_terminate (demo_env (script_getc_ops 11)) (script_getc_ops 11) 101
    rfl).1 (demo_state (some 101) (fun _ => 0) (script_of 11 [(3, 65)] [])) 3 65 []
    (script_getc_settles 11 3 65 (by decide) [])
  obtain ⟨st1, ts, -, hrun, hall, -⟩ :=
    ((per_byte_loops_terminate (demo_env (busy_putc_ops 11 2)) (busy_putc_ops 11 2) 101
      rfl).2.2 (busy_putc_ops_never_busy_forever 11 (by decide) (by decide) 2)
      "write" "1000" "2" (demo_state (some 101) (mem_of 4096 [65, 10]) 2) rfl).2
  exact ⟨h, ⟨st1, hrun, hall⟩, by decide, by decide, by decide, by decide, by decide, by decide⟩

end Serial
